import Mathlib

/-!
# Thumb2RegisterInfo: stack-frame lowering and immediate materialisation

A shallow embedding of `lib/Target/ARM/Thumb2RegisterInfo.cpp`.

* Machine instructions are an opcode with an ordered operand list; the
  `BuildMI(...)` chains of the source become the builder functions below.
* Every routine that inserts instructions before an iterator returns the list
  of instructions it inserts, in insertion order.
* `unsigned` values are natural numbers reduced modulo `2^32` where the source
  arithmetic can wrap, `int` values are integers wrapped into the signed 32-bit
  range.
* A failing `assert` (or `llvm_report_error`) is an `Except.error` carrying the
  assertion that failed.
-/

namespace Thumb2

/-! ## Registers, opcodes, operands, instructions -/

/-- Physical registers used by the file (`ARM::R0` ... `ARM::PC`), the "no
register" value `0`, and the double-precision registers `D n`. -/
inductive Reg
  | NoReg
  | R0 | R1 | R2 | R3 | R4 | R5 | R6 | R7
  | R8 | R9 | R10 | R11 | R12
  | SP | LR | PC
  | D (n : Nat)
  deriving DecidableEq, Repr

/-- Opcodes named in the file; `Other n` stands for any other opcode. -/
inductive Opcode
  | tADDspi | tSUBspi | tADDrSPi
  | tADDi3 | tSUBi3 | tADDi8 | tSUBi8
  | tADDrr | tADDhirr | tSUBrr
  | tMOVr | tMOVi8 | tNEG | tLDRcp
  | tMOVlor2hir | tMOVhir2lor
  | tPUSH | tPOP | tBX_RET | tPOP_RET | tBX_RET_vararg
  | tRestore | tSpill | tLDR | tSTR
  | ADJCALLSTACKDOWN | ADJCALLSTACKUP | tADJCALLSTACKDOWN | tADJCALLSTACKUP
  | Other (n : Nat)
  deriving DecidableEq, Repr

/-- Operand of a machine instruction.  A constant-pool operand is identified
by the 32-bit constant its pool entry holds (the pool itself lives outside the
file). -/
inductive MachineOperand
  | Register (R : Reg) (isDef : Bool) (isKill : Bool)
  | Immediate (Imm : Int)
  | FrameIndex (Index : Int)
  | ConstantPoolIndex (Val : Int)
  deriving DecidableEq, Repr

/-- Machine instruction: opcode and operand list. -/
structure MachineInstr where
  Opcode : Opcode
  Operands : List MachineOperand
  deriving DecidableEq, Repr

/-- The assertions and fatal errors of the file. -/
inductive Abort
  /-- The assertion `assert(BaseReg == ARM::SP && "Unexpected!")` -/
  | Unexpected
  /-- The assertion `assert(isMul4 && "Thumb sp inc / dec size must be multiple of 4!")` -/
  | SPIncDecNotMul4
  /-- The assertion `assert(i < MI.getNumOperands() && "Instr doesn't have FrameIndex operand!")` -/
  | NoFrameIndexOperand
  /-- The assertion `assert(SPAdj == 0 && "Unexpected")` -/
  | UnexpectedSPAdj
  /-- The assertion `assert((Offset & 3) == 0 && "Thumb add/sub sp, #imm immediate must be multiple of 4!")` -/
  | AddSubSPNotMul4
  /-- The fatal error `llvm_report_error("Unsupported addressing mode!")` -/
  | UnsupportedAddressingMode
  /-- The assertion `assert((Offset & (Scale-1)) == 0 && "Can't encode this offset!")` -/
  | CantEncodeOffset
  /-- The assertion `assert(Offset && "This code isn't needed if offset already handled!")` -/
  | OffsetAlreadyHandled
  /-- The assertion `assert(false && "Unexpected opcode!")` -/
  | UnexpectedOpcode
  /-- An operand accessor (`getReg`, `getImm`, `getOperand`) used on an operand
  of another kind or out of range. -/
  | BadOperand
  /-- The assertion `assert(... && "Can only insert epilog into returning blocks")` -/
  | NotReturningBlock
  /-- The assertion `assert(Opc == ARM::ADJCALLSTACKUP || Opc == ARM::tADJCALLSTACKUP)` -/
  | NotCallFramePseudo
  /-- The unsigned division `(Amount+Align-1)/Align` with `Align == 0`: the
  division traps and the call does not return. -/
  | DivisionByZero
  deriving DecidableEq, Repr

/-- The flag `RegState::Kill` as the kill flag of `addReg`. -/
def Kill : Bool := true

/-- The function `getKillRegState(B)`. -/
def getKillRegState (B : Bool) : Bool := B

/-- The call `BuildMI(MBB, MBBI, dl, TII.get(Opc), DestReg)`: a new instruction whose
first operand defines `DestReg`. -/
def BuildMI (Opc : Opcode) (DestReg : Reg) : MachineInstr :=
  ⟨Opc, [MachineOperand.Register DestReg true false]⟩

/-- The call `BuildMI(MBB, MBBI, dl, TII.get(Opc))`: a new instruction without operands. -/
def BuildMI0 (Opc : Opcode) : MachineInstr :=
  ⟨Opc, []⟩

/-- The builder `.addReg(R, flags)` with the kill flag `isKill`. -/
def MachineInstr.addReg (MI : MachineInstr) (R : Reg) (isKill : Bool) : MachineInstr :=
  ⟨MI.Opcode, MI.Operands ++ [MachineOperand.Register R false isKill]⟩

/-- The builder `.addImm(Val)`. -/
def MachineInstr.addImm (MI : MachineInstr) (Val : Int) : MachineInstr :=
  ⟨MI.Opcode, MI.Operands ++ [MachineOperand.Immediate Val]⟩

/-- The builder `.addFrameIndex(Idx)`. -/
def MachineInstr.addFrameIndex (MI : MachineInstr) (Idx : Int) : MachineInstr :=
  ⟨MI.Opcode, MI.Operands ++ [MachineOperand.FrameIndex Idx]⟩

/-- The builder `.addConstantPoolIndex(Idx)`, the entry being the one that holds `Val`. -/
def MachineInstr.addConstantPoolIndex (MI : MachineInstr) (Val : Int) : MachineInstr :=
  ⟨MI.Opcode, MI.Operands ++ [MachineOperand.ConstantPoolIndex Val]⟩

/-! ## 32-bit arithmetic -/

/-- Reduction of a natural number to `unsigned` (32 bits). -/
def u32 (n : Nat) : Nat := n % 4294967296

/-- Conversion of an integer to `unsigned`: the residue modulo `2^32`. -/
def toU32 (x : Int) : Nat := (x % 4294967296).toNat

/-- Conversion of an `unsigned` value to `int` (two's complement). -/
def toI32 (n : Nat) : Int :=
  if n % 4294967296 < 2147483648 then ((n % 4294967296 : Nat) : Int)
  else ((n % 4294967296 : Nat) : Int) - 4294967296

/-- Wrapping of an integer result into the range of `int`. -/
def wrapI32 (x : Int) : Int := toI32 (toU32 x)

/-- Modelled from the spec: the register-classification oracle
`isARMLowRegister` of `ARM.h` (not part of the file): the restricted register
subset is `R0` ... `R7`; `getPhysicalRegisterRegClass` in the file treats
`R8` ... `R12`, `SP`, `LR` and `PC` as the registers that are not low. -/
def isARMLowRegister (R : Reg) : Bool :=
  match R with
  | Reg.R0 | Reg.R1 | Reg.R2 | Reg.R3 | Reg.R4 | Reg.R5 | Reg.R6 | Reg.R7 => true
  | _ => false

/-! ## Immediate materialisation -/

/-- The method `Thumb2RegisterInfo::emitLoadConstPool`: one `tLDRcp` of the pool entry
holding `Val` into `DestReg`. -/
def emitLoadConstPool (DestReg : Reg) (Val : Int) : List MachineInstr :=
  [(BuildMI Opcode.tLDRcp DestReg).addConstantPoolIndex Val]

/-- The function `emitThumbRegPlusImmInReg`: materialise `NumBytes` in a register and add or
subtract it with a register-register instruction. -/
def emitThumbRegPlusImmInReg (DestReg BaseReg : Reg) (NumBytes : Int)
    (CanChangeCC : Bool) : Except Abort (List MachineInstr) :=
  let isHigh : Bool := !isARMLowRegister DestReg ||
    (BaseReg != Reg.NoReg && !isARMLowRegister BaseReg)
  let isSub : Bool := decide (NumBytes < 0) && !isHigh && CanChangeCC
  let NumBytes : Int := if isSub then wrapI32 (-NumBytes) else NumBytes
  if DestReg = Reg.SP ∧ BaseReg ≠ Reg.SP then Except.error Abort.Unexpected else
  let LdReg : Reg := if DestReg = Reg.SP then Reg.R3 else DestReg
  let Save : List MachineInstr :=
    if DestReg = Reg.SP then [(BuildMI Opcode.tMOVlor2hir Reg.R12).addReg Reg.R3 Kill] else []
  let Load : List MachineInstr :=
    if NumBytes ≤ 255 ∧ NumBytes ≥ 0 then
      [(BuildMI Opcode.tMOVi8 LdReg).addImm NumBytes]
    else if NumBytes < 0 ∧ NumBytes ≥ -255 then
      [(BuildMI Opcode.tMOVi8 LdReg).addImm NumBytes,
       (BuildMI Opcode.tNEG LdReg).addReg LdReg Kill]
    else emitLoadConstPool LdReg NumBytes
  let Opc : Opcode :=
    if isSub then Opcode.tSUBrr else (if isHigh then Opcode.tADDhirr else Opcode.tADDrr)
  let MIB : MachineInstr := BuildMI Opc DestReg
  let AddSub : MachineInstr :=
    if DestReg = Reg.SP ∨ isSub = true then (MIB.addReg BaseReg false).addReg LdReg Kill
    else (MIB.addReg LdReg false).addReg BaseReg Kill
  let Restore : List MachineInstr :=
    if DestReg = Reg.SP then [(BuildMI Opcode.tMOVhir2lor Reg.R3).addReg Reg.R12 Kill] else []
  Except.ok (Save ++ Load ++ [AddSub] ++ Restore)

/-- The function `calcNumMI`: the number of instructions needed to materialise the add or
subtract of `Bytes`.  The definition follows the source where the source is defined:
for `NumBits <= 30` (the `int` shift `1 << NumBits` does not overflow) and a non-zero
`Chunk` (the division `Bytes / Chunk` does not trap).  The function is file-static and
every call in the file passes `NumBits` 3, 7 or 8 and `Scale` 1 or 4. -/
def calcNumMI (Opc : Opcode) (ExtraOpc : Option Opcode) (Bytes NumBits Scale : Nat) : Nat :=
  let Chunk : Nat := u32 (((1 <<< NumBits) - 1) * Scale)
  let ThisVal : Nat := if Bytes > Chunk then Chunk else Bytes
  let NumMIs : Nat := if Opc = Opcode.tADDrSPi then 1 else 0
  let Bytes : Nat := if Opc = Opcode.tADDrSPi then Bytes - ThisVal else Bytes
  let Chunk : Nat := if Opc = Opcode.tADDrSPi then u32 (((1 <<< 8) - 1) * 1) else Chunk
  let NumMIs : Nat := u32 (NumMIs + Bytes / Chunk)
  let NumMIs : Nat := if Bytes % Chunk ≠ 0 then u32 (NumMIs + 1) else NumMIs
  if ExtraOpc.isSome then u32 (NumMIs + 1) else NumMIs

/-- The body of the `while (Bytes)` loop of `emitThumbRegPlusImmediate`, run at
most `Fuel` times.  The loop state is `Bytes`, `BaseReg`, `Opc`, `Scale`, `Chunk`
and `isTwoAddr`. -/
def emitChunksLoop (DestReg : Reg) (isSub : Bool) :
    (Fuel : Nat) → (Bytes : Nat) → (BaseReg : Reg) → (Opc : Opcode) →
    (Scale : Nat) → (Chunk : Nat) → (isTwoAddr : Bool) → List MachineInstr
  | 0, _, _, _, _, _, _ => []
  | Fuel + 1, Bytes, BaseReg, Opc, Scale, Chunk, isTwoAddr =>
    if Bytes = 0 then []
    else
      let ThisVal : Nat := if Bytes > Chunk then Chunk else Bytes
      let Bytes1 : Nat := Bytes - ThisVal
      let Imm : Nat := ThisVal / Scale
      if isTwoAddr then
        ((BuildMI Opc DestReg).addReg DestReg false).addImm Imm ::
          emitChunksLoop DestReg isSub Fuel Bytes1 BaseReg Opc Scale Chunk isTwoAddr
      else
        let isKill : Bool := BaseReg != Reg.SP
        let MI : MachineInstr :=
          ((BuildMI Opc DestReg).addReg BaseReg (getKillRegState isKill)).addImm Imm
        if Opc = Opcode.tADDrSPi then
          MI :: emitChunksLoop DestReg isSub Fuel Bytes1 DestReg
            (if isSub then Opcode.tSUBi8 else Opcode.tADDi8) 1 (((1 <<< 8) - 1) * 1) true
        else
          MI :: emitChunksLoop DestReg isSub Fuel Bytes1 DestReg Opc Scale Chunk isTwoAddr

/-- The `while (Bytes)` loop of `emitThumbRegPlusImmediate`.  Every iteration
with a positive `Chunk` lowers `Bytes` by at least one, so `Bytes` iterations
always reach `Bytes = 0` (`emitChunksLoop_fuel_eq`). -/
def emitChunks (DestReg : Reg) (isSub : Bool) (Bytes : Nat) (BaseReg : Reg) (Opc : Opcode)
    (Scale Chunk : Nat) (isTwoAddr : Bool) : List MachineInstr :=
  emitChunksLoop DestReg isSub Bytes Bytes BaseReg Opc Scale Chunk isTwoAddr

/-- The classification made at the top of `emitThumbRegPlusImmediate`. -/
structure RegPlusImmCase where
  Bytes : Nat
  NumBits : Nat
  Scale : Nat
  Opc : Opcode
  ExtraOpc : Option Opcode
  isTwoAddr : Bool
  DstNotEqBase : Bool
  deriving DecidableEq, Repr

/-- The first part of `emitThumbRegPlusImmediate`: sign, magnitude and the
choice between the three instruction forms. -/
def classifyRegPlusImm (DestReg BaseReg : Reg) (NumBytes : Int) : Except Abort RegPlusImmCase :=
  let isSub : Bool := decide (NumBytes < 0)
  let Bytes : Nat := if isSub then toU32 (-NumBytes) else toU32 NumBytes
  let isMul4 : Bool := (Bytes &&& 3) == 0
  if DestReg = BaseReg ∧ BaseReg = Reg.SP then
    if isMul4 then
      Except.ok ⟨Bytes, 7, 4, if isSub then Opcode.tSUBspi else Opcode.tADDspi, none, true, false⟩
    else Except.error Abort.SPIncDecNotMul4
  else if isSub = false ∧ BaseReg = Reg.SP then
    if isMul4 then Except.ok ⟨Bytes, 8, 4, Opcode.tADDrSPi, none, false, false⟩
    else Except.ok ⟨Bytes &&& 4294967292, 8, 4, Opcode.tADDrSPi, some Opcode.tADDi3, false, false⟩
  else
    Except.ok ⟨Bytes, 8, 1, if isSub then Opcode.tSUBi8 else Opcode.tADDi8, none, true,
      DestReg != BaseReg⟩

/-- The function `emitThumbRegPlusImmediate`: the instructions that materialise
`DestReg = BaseReg + NumBytes`. -/
def emitThumbRegPlusImmediate (DestReg BaseReg : Reg) (NumBytes : Int) :
    Except Abort (List MachineInstr) :=
  match classifyRegPlusImm DestReg BaseReg NumBytes with
  | Except.error e => Except.error e
  | Except.ok c =>
    let isSub : Bool := decide (NumBytes < 0)
    let NumMIs : Nat := calcNumMI c.Opc c.ExtraOpc c.Bytes c.NumBits c.Scale
    let Threshold : Nat := if DestReg = Reg.SP then 3 else 2
    if NumMIs > Threshold then
      emitThumbRegPlusImmInReg DestReg BaseReg NumBytes true
    else
      let lowBoth : Bool := isARMLowRegister DestReg && isARMLowRegister BaseReg
      let ThisVal : Nat := if c.Bytes > (1 <<< 3) - 1 then (1 <<< 3) - 1 else c.Bytes
      let First : List MachineInstr :=
        if c.DstNotEqBase then
          if lowBoth then
            [((BuildMI (if isSub then Opcode.tSUBi3 else Opcode.tADDi3) DestReg).addReg
                BaseReg Kill).addImm ThisVal]
          else [(BuildMI Opcode.tMOVr DestReg).addReg BaseReg Kill]
        else []
      let Bytes : Nat := if c.DstNotEqBase && lowBoth then c.Bytes - ThisVal else c.Bytes
      let BaseReg : Reg := if c.DstNotEqBase then DestReg else BaseReg
      let Chunk : Nat := ((1 <<< c.NumBits) - 1) * c.Scale
      let Chunks : List MachineInstr :=
        emitChunks DestReg isSub Bytes BaseReg c.Opc c.Scale Chunk c.isTwoAddr
      let Extra : List MachineInstr :=
        match c.ExtraOpc with
        | some ExtraOpc =>
          [((BuildMI ExtraOpc DestReg).addReg DestReg Kill).addImm (((toU32 NumBytes) &&& 3 : Nat) : Int)]
        | none => []
      Except.ok (First ++ Chunks ++ Extra)

/-- The function `emitSPUpdate`: `emitThumbRegPlusImmediate` on the stack pointer. -/
def emitSPUpdate (NumBytes : Int) : Except Abort (List MachineInstr) :=
  emitThumbRegPlusImmediate Reg.SP Reg.SP NumBytes

/-- The function `emitThumbConstant`: the instructions that materialise the constant `Imm`
in `DestReg`. -/
def emitThumbConstant (DestReg : Reg) (Imm : Int) : Except Abort (List MachineInstr) :=
  let isSub : Bool := decide (Imm < 0)
  let Imm : Int := if isSub then wrapI32 (-Imm) else Imm
  let Chunk : Int := ((1 <<< 8 : Nat) : Int) - 1
  let ThisVal : Int := if Imm > Chunk then Chunk else Imm
  let Imm : Int := wrapI32 (Imm - ThisVal)
  let Mov : MachineInstr := (BuildMI Opcode.tMOVi8 DestReg).addImm ThisVal
  let Neg : List MachineInstr :=
    if isSub then [(BuildMI Opcode.tNEG DestReg).addReg DestReg Kill] else []
  if Imm > 0 then
    match emitThumbRegPlusImmediate DestReg DestReg Imm with
    | Except.error e => Except.error e
    | Except.ok Rest => Except.ok (Mov :: Rest ++ Neg)
  else Except.ok (Mov :: Neg)

/-! ## Function state: frame layout and per-function information -/

/-- Addressing mode of an instruction (`Desc.TSFlags & ARMII::AddrModeMask`);
the file handles `AddrModeT1_s` only. -/
inductive AddrMode
  | AddrModeT1_s
  | Other (n : Nat)
  deriving DecidableEq, Repr

/-- The parts of a `TargetInstrDesc` the file reads. -/
structure TargetInstrDesc where
  AddrMode : AddrMode
  mayLoad : Bool
  mayStore : Bool
  deriving DecidableEq, Repr

/-- One `CalleeSavedInfo` entry: the register and its frame index. -/
structure CalleeSavedInfo where
  Reg : Reg
  FrameIdx : Int
  deriving DecidableEq, Repr

/-- The parts of `MachineFrameInfo` the file reads and writes. -/
structure MachineFrameInfo where
  StackSize : Nat
  ObjectOffset : Int → Int
  CalleeSavedInfo : List CalleeSavedInfo
  OffsetAdjustment : Int
  MaxCallFrameSize : Nat
  HasVarSizedObjects : Bool

/-- The parts of `ARMFunctionInfo` the file reads and writes.  The three
callee-saved frame sets are kept as the lists of frame indices added to them. -/
structure ARMFunctionInfo where
  VarArgsRegSaveSize : Nat
  HasStackFrame : Bool
  R3IsLiveIn : Bool
  FramePtrSpillOffset : Nat
  GPRCalleeSavedArea1Offset : Nat
  GPRCalleeSavedArea2Offset : Nat
  DPRCalleeSavedAreaOffset : Nat
  GPRCalleeSavedArea1Size : Nat
  GPRCalleeSavedArea2Size : Nat
  DPRCalleeSavedAreaSize : Nat
  GPRCalleeSavedArea1Frames : List Int
  GPRCalleeSavedArea2Frames : List Int
  DPRCalleeSavedAreaFrames : List Int

/-- The query `AFI->isGPRCalleeSavedArea1Frame(FI)`. -/
def ARMFunctionInfo.isGPRCalleeSavedArea1Frame (AFI : ARMFunctionInfo) (FI : Int) : Bool :=
  AFI.GPRCalleeSavedArea1Frames.contains FI

/-- The query `AFI->isGPRCalleeSavedArea2Frame(FI)`. -/
def ARMFunctionInfo.isGPRCalleeSavedArea2Frame (AFI : ARMFunctionInfo) (FI : Int) : Bool :=
  AFI.GPRCalleeSavedArea2Frames.contains FI

/-- The function being compiled: frame information, ARM function information,
live-in registers and the entry block, together with the answers of the base
class for this function, `hasFP(MF)` and `getFrameRegister(MF)`. -/
structure MachineFunction where
  FrameInfo : MachineFrameInfo
  Info : ARMFunctionInfo
  LiveIns : List Reg
  Front : List MachineInstr
  hasFP : Bool
  FrameRegister : Reg

/-- The register information object: the frame pointer register, the
subtarget's answers, the instruction descriptions of `TII` and the list of
callee-saved registers. -/
structure Thumb2RegisterInfo where
  FramePtr : Reg
  isTargetDarwin : Bool
  isTargetELF : Bool
  StackAlignment : Nat
  Desc : Opcode → TargetInstrDesc
  CalleeSavedRegs : List Reg

/-! ## Operands of an instruction -/

/-- The test `MO.isFI()`. -/
def MachineOperand.isFI : MachineOperand → Bool
  | MachineOperand.FrameIndex _ => true
  | _ => false

/-- The number of frame-index operands of an instruction. -/
def MachineInstr.numFrameIndexOperands (MI : MachineInstr) : Nat :=
  MI.Operands.countP MachineOperand.isFI

/-- The instruction has a frame-index operand. -/
def MachineInstr.hasFrameIndexOperand (MI : MachineInstr) : Bool :=
  MI.Operands.any MachineOperand.isFI

/-- The search `while (!MI.getOperand(i).isFI()) ++i;` on an operand list: the
index of the first frame-index operand. -/
def findFrameIndexOperand : List MachineOperand → Option Nat
  | [] => none
  | Op :: Rest =>
    if Op.isFI then some 0
    else
      match findFrameIndexOperand Rest with
      | some i => some (i + 1)
      | none => none

/-- The accessor `MI.getOperand(i).getIndex()`. -/
def MachineInstr.getIndex (MI : MachineInstr) (i : Nat) : Except Abort Int :=
  match MI.Operands.get? i with
  | some (MachineOperand.FrameIndex Idx) => Except.ok Idx
  | _ => Except.error Abort.BadOperand

/-- The accessor `MI.getOperand(i).getImm()`. -/
def MachineInstr.getImm (MI : MachineInstr) (i : Nat) : Except Abort Int :=
  match MI.Operands.get? i with
  | some (MachineOperand.Immediate v) => Except.ok v
  | _ => Except.error Abort.BadOperand

/-- The accessor `MI.getOperand(i).getReg()`. -/
def MachineInstr.getReg (MI : MachineInstr) (i : Nat) : Except Abort Reg :=
  match MI.Operands.get? i with
  | some (MachineOperand.Register R _ _) => Except.ok R
  | _ => Except.error Abort.BadOperand

/-- The mutator `MI.setDesc(TII.get(Opc))`. -/
def MachineInstr.setDesc (MI : MachineInstr) (Opc : Thumb2.Opcode) : MachineInstr :=
  ⟨Opc, MI.Operands⟩

/-- The mutator `MI.getOperand(i).ChangeToRegister(R, isDef, false, isKill)`. -/
def MachineInstr.ChangeToRegister (MI : MachineInstr) (i : Nat) (R : Reg) (isDef : Bool)
    (isKill : Bool) : MachineInstr :=
  ⟨MI.Opcode, MI.Operands.set i (MachineOperand.Register R isDef isKill)⟩

/-- The mutator `MI.getOperand(i).ChangeToImmediate(v)`. -/
def MachineInstr.ChangeToImmediate (MI : MachineInstr) (i : Nat) (v : Int) : MachineInstr :=
  ⟨MI.Opcode, MI.Operands.set i (MachineOperand.Immediate v)⟩

/-- The mutator `MI.RemoveOperand(i)`. -/
def MachineInstr.RemoveOperand (MI : MachineInstr) (i : Nat) : MachineInstr :=
  ⟨MI.Opcode, MI.Operands.eraseIdx i⟩

/-- The mutator `MI.addOperand(MachineOperand::CreateReg(R, false))`. -/
def MachineInstr.addOperandCreateReg (MI : MachineInstr) (R : Reg) : MachineInstr :=
  ⟨MI.Opcode, MI.Operands ++ [MachineOperand.Register R false false]⟩

/-- Bitwise complement of an `unsigned` value. -/
def not32 (n : Nat) : Nat := 4294967295 - n % 4294967296

/-! ## Frame-index elimination -/

/-- The first part of `eliminateFrameIndex`: the operand index `i` of the frame
index, the frame register and the resolved `Offset`. -/
def resolveFrameIndex (MF : MachineFunction) (MI : MachineInstr) (SPAdj : Int) :
    Except Abort (Nat × Reg × Int) :=
  match findFrameIndexOperand MI.Operands with
  | none => Except.error Abort.NoFrameIndexOperand
  | some i =>
    match MI.getIndex i with
    | Except.error e => Except.error e
    | Except.ok FrameIndex =>
      let AFI := MF.Info
      let Offset : Int :=
        wrapI32 (MF.FrameInfo.ObjectOffset FrameIndex + MF.FrameInfo.StackSize + SPAdj)
      if AFI.isGPRCalleeSavedArea1Frame FrameIndex then
        Except.ok (i, Reg.SP, wrapI32 (Offset - AFI.GPRCalleeSavedArea1Offset))
      else if AFI.isGPRCalleeSavedArea2Frame FrameIndex then
        Except.ok (i, Reg.SP, wrapI32 (Offset - AFI.GPRCalleeSavedArea2Offset))
      else if MF.hasFP then
        if SPAdj = 0 then
          Except.ok (i, MF.FrameRegister, wrapI32 (Offset - AFI.FramePtrSpillOffset))
        else Except.error Abort.UnexpectedSPAdj
      else Except.ok (i, Reg.SP, Offset)

/-- The branch `Opcode == ARM::tADDrSPi` of `eliminateFrameIndex`.  The result
is the list of instructions that stand where `MI` stood. -/
def eliminateFrameIndexADDrSPi (MI : MachineInstr) (i : Nat) (FrameReg : Reg)
    (Offset : Int) : Except Abort (List MachineInstr) :=
  match MI.getImm (i + 1) with
  | Except.error e => Except.error e
  | Except.ok Imm =>
    let Offset : Int := wrapI32 (Offset + Imm)
    let Opc : Opcode := if FrameReg ≠ Reg.SP then Opcode.tADDi3 else Opcode.tADDrSPi
    let MI : MachineInstr := if FrameReg ≠ Reg.SP then MI.setDesc Opcode.tADDi3 else MI
    let NumBits : Nat := if FrameReg ≠ Reg.SP then 3 else 8
    let Scale : Nat := if FrameReg ≠ Reg.SP then 1 else 4
    if FrameReg = Reg.SP ∧ (toU32 Offset &&& 3) ≠ 0 then Except.error Abort.AddSubSPNotMul4
    else if Offset = 0 then
      Except.ok [((MI.setDesc Opcode.tMOVhir2lor).ChangeToRegister i FrameReg false
        false).RemoveOperand (i + 1)]
    else
      let Mask : Nat := (1 <<< NumBits) - 1
      if ((toU32 Offset / Scale) &&& not32 Mask) = 0 then
        Except.ok [(MI.ChangeToRegister i FrameReg false false).ChangeToImmediate (i + 1)
          ((toU32 Offset / Scale : Nat) : Int)]
      else
        match MI.getReg 0 with
        | Except.error e => Except.error e
        | Except.ok DestReg =>
          let Bytes : Nat := if Offset > 0 then toU32 Offset else toU32 (-Offset)
          let NumMIs : Nat := calcNumMI Opc none Bytes NumBits Scale
          if NumMIs > 2 then
            emitThumbRegPlusImmediate DestReg FrameReg Offset
          else if Offset > 0 then
            let MI : MachineInstr :=
              (MI.ChangeToRegister i FrameReg false false).ChangeToImmediate (i + 1) Mask
            let Offset : Int := wrapI32 (Offset - ((Mask * Scale : Nat) : Int))
            match emitThumbRegPlusImmediate DestReg DestReg Offset with
            | Except.error e => Except.error e
            | Except.ok After => Except.ok (MI :: After)
          else
            match emitThumbConstant DestReg Offset with
            | Except.error e => Except.error e
            | Except.ok Before =>
              Except.ok (Before ++
                [((MI.setDesc Opcode.tADDhirr).ChangeToRegister i DestReg false
                  true).ChangeToRegister (i + 1) FrameReg false false])

/-- The address materialisation shared by the load and the store path: for a
`tRestore`/`tSpill` either `emitThumbRegPlusImmInReg` (base `SP`) or a
constant-pool load (then `UseRR`), otherwise `emitThumbRegPlusImmediate`.
Returns the emitted instructions and `UseRR`. -/
def materializeFrameAddress (isSpillRestore : Bool) (TmpReg FrameReg : Reg) (Offset : Int) :
    Except Abort (List MachineInstr × Bool) :=
  if isSpillRestore then
    if FrameReg = Reg.SP then
      match emitThumbRegPlusImmInReg TmpReg FrameReg Offset false with
      | Except.error e => Except.error e
      | Except.ok L => Except.ok (L, false)
    else Except.ok (emitLoadConstPool TmpReg Offset, true)
  else
    match emitThumbRegPlusImmediate TmpReg FrameReg Offset with
    | Except.error e => Except.error e
    | Except.ok L => Except.ok (L, false)

/-- The other branch of `eliminateFrameIndex` (load and store addressing) and
the code after it. -/
def eliminateFrameIndexMem (TRI : Thumb2RegisterInfo) (MF : MachineFunction)
    (MI : MachineInstr) (i : Nat) (FrameReg : Reg) (Offset : Int) :
    Except Abort (List MachineInstr) :=
  let Opc : Opcode := MI.Opcode
  let Desc : TargetInstrDesc := TRI.Desc Opc
  if Desc.AddrMode ≠ AddrMode.AddrModeT1_s then Except.error Abort.UnsupportedAddressingMode
  else
    let ImmIdx : Nat := i + 1
    match MI.getImm ImmIdx with
    | Except.error e => Except.error e
    | Except.ok Imm =>
      let InstrOffs : Int := wrapI32 Imm
      let NumBits : Nat := if FrameReg = Reg.SP then 8 else 5
      let Scale : Nat := 4
      let Offset : Int := wrapI32 (Offset + InstrOffs * Scale)
      if (toU32 Offset &&& (Scale - 1)) ≠ 0 then Except.error Abort.CantEncodeOffset
      else
        let ImmedOffset : Int := toI32 (toU32 Offset / Scale)
        let Mask : Nat := (1 <<< NumBits) - 1
        if toU32 Offset ≤ Mask * Scale then
          Except.ok [(MI.ChangeToRegister i FrameReg false false).ChangeToImmediate ImmIdx
            ImmedOffset]
        else
          let isThumSpillRestore : Bool :=
            Opc == Opcode.tRestore || Opc == Opcode.tSpill
          let Mask : Nat := (1 <<< 5) - 1
          let MI : MachineInstr :=
            if isThumSpillRestore then MI.ChangeToImmediate ImmIdx 0
            else MI.ChangeToImmediate ImmIdx (toI32 (toU32 ImmedOffset &&& Mask))
          let Offset : Int :=
            if isThumSpillRestore then Offset
            else toI32 (toU32 Offset &&& not32 (Mask * Scale))
          if Offset = 0 then Except.error Abort.OffsetAlreadyHandled
          else if Desc.mayLoad then
            match MI.getReg 0 with
            | Except.error e => Except.error e
            | Except.ok TmpReg =>
              match materializeFrameAddress (Opc == Opcode.tRestore) TmpReg FrameReg
                  Offset with
              | Except.error e => Except.error e
              | Except.ok (Before, UseRR) =>
                let MI : MachineInstr :=
                  (MI.setDesc Opcode.tLDR).ChangeToRegister i TmpReg false true
                let MI : MachineInstr :=
                  if UseRR then MI.addOperandCreateReg FrameReg
                  else MI.addOperandCreateReg Reg.NoReg
                Except.ok (Before ++ [MI])
          else if Desc.mayStore then
            match MI.getReg 0 with
            | Except.error e => Except.error e
            | Except.ok ValReg =>
              let TmpReg : Reg := if ValReg = Reg.R3 then Reg.R2 else Reg.R3
              let SaveR2 : List MachineInstr :=
                if ValReg = Reg.R3 then
                  [(BuildMI Opcode.tMOVlor2hir Reg.R12).addReg Reg.R2 Kill]
                else []
              let SaveR3 : List MachineInstr :=
                if TmpReg = Reg.R3 ∧ MF.Info.R3IsLiveIn = true then
                  [(BuildMI Opcode.tMOVlor2hir Reg.R12).addReg Reg.R3 Kill]
                else []
              match materializeFrameAddress (Opc == Opcode.tSpill) TmpReg FrameReg
                  Offset with
              | Except.error e => Except.error e
              | Except.ok (Before, UseRR) =>
                let MI : MachineInstr :=
                  (MI.setDesc Opcode.tSTR).ChangeToRegister i TmpReg false true
                let MI : MachineInstr :=
                  if UseRR then MI.addOperandCreateReg FrameReg
                  else MI.addOperandCreateReg Reg.NoReg
                let RestoreR2 : List MachineInstr :=
                  if ValReg = Reg.R3 then
                    [(BuildMI Opcode.tMOVhir2lor Reg.R2).addReg Reg.R12 Kill]
                  else []
                let RestoreR3 : List MachineInstr :=
                  if TmpReg = Reg.R3 ∧ MF.Info.R3IsLiveIn = true then
                    [(BuildMI Opcode.tMOVhir2lor Reg.R3).addReg Reg.R12 Kill]
                  else []
                Except.ok (SaveR2 ++ SaveR3 ++ Before ++ [MI] ++ RestoreR2 ++ RestoreR3)
          else Except.error Abort.UnexpectedOpcode

/-- The method `Thumb2RegisterInfo::eliminateFrameIndex`.  The result is the
list of instructions that stand, after the call, where `MI` stood: the
instructions inserted before it, the rewritten `MI` unless it was erased, and
the instructions inserted after it. -/
def eliminateFrameIndex (TRI : Thumb2RegisterInfo) (MF : MachineFunction)
    (MI : MachineInstr) (SPAdj : Int) : Except Abort (List MachineInstr) :=
  match resolveFrameIndex MF MI SPAdj with
  | Except.error e => Except.error e
  | Except.ok (i, FrameReg, Offset) =>
    if MI.Opcode = Opcode.tADDrSPi then eliminateFrameIndexADDrSPi MI i FrameReg Offset
    else eliminateFrameIndexMem TRI MF MI i FrameReg Offset

/-! ## Prologue and epilogue -/

/-- The setter `AFI->addGPRCalleeSavedArea1Frame(FI)`. -/
def ARMFunctionInfo.addGPRCalleeSavedArea1Frame (AFI : ARMFunctionInfo) (FI : Int) :
    ARMFunctionInfo :=
  { AFI with GPRCalleeSavedArea1Frames := AFI.GPRCalleeSavedArea1Frames ++ [FI] }

/-- The setter `AFI->addGPRCalleeSavedArea2Frame(FI)`. -/
def ARMFunctionInfo.addGPRCalleeSavedArea2Frame (AFI : ARMFunctionInfo) (FI : Int) :
    ARMFunctionInfo :=
  { AFI with GPRCalleeSavedArea2Frames := AFI.GPRCalleeSavedArea2Frames ++ [FI] }

/-- The setter `AFI->addDPRCalleeSavedAreaFrame(FI)`. -/
def ARMFunctionInfo.addDPRCalleeSavedAreaFrame (AFI : ARMFunctionInfo) (FI : Int) :
    ARMFunctionInfo :=
  { AFI with DPRCalleeSavedAreaFrames := AFI.DPRCalleeSavedAreaFrames ++ [FI] }

/-- The local variables of `emitPrologue` that the loop over the callee-saved
registers updates, with the function information it writes to. -/
structure SpillAreas where
  GPRCS1Size : Nat
  GPRCS2Size : Nat
  DPRCSSize : Nat
  FramePtrSpillFI : Int
  AFI : ARMFunctionInfo

/-- One iteration of the loop over `CSI` in `emitPrologue`: the `switch (Reg)`. -/
def classifyCalleeSaved (TRI : Thumb2RegisterInfo) (S : SpillAreas) (CS : CalleeSavedInfo) :
    SpillAreas :=
  let FI := CS.FrameIdx
  let FramePtrSpillFI : Int := if CS.Reg = TRI.FramePtr then FI else S.FramePtrSpillFI
  match CS.Reg with
  | Reg.R4 | Reg.R5 | Reg.R6 | Reg.R7 | Reg.LR =>
    { S with FramePtrSpillFI := FramePtrSpillFI,
             AFI := S.AFI.addGPRCalleeSavedArea1Frame FI,
             GPRCS1Size := u32 (S.GPRCS1Size + 4) }
  | Reg.R8 | Reg.R9 | Reg.R10 | Reg.R11 =>
    if TRI.isTargetDarwin then
      { S with FramePtrSpillFI := FramePtrSpillFI,
               AFI := S.AFI.addGPRCalleeSavedArea2Frame FI,
               GPRCS2Size := u32 (S.GPRCS2Size + 4) }
    else
      { S with FramePtrSpillFI := FramePtrSpillFI,
               AFI := S.AFI.addGPRCalleeSavedArea1Frame FI,
               GPRCS1Size := u32 (S.GPRCS1Size + 4) }
  | _ =>
    { S with AFI := S.AFI.addDPRCalleeSavedAreaFrame FI,
             DPRCSSize := u32 (S.DPRCSSize + 8) }

/-- A call of `emitSPUpdate` that is made only under a condition: `none` when
the call is not made, `some NumBytes` when it is made with argument `NumBytes`. -/
def emitSPUpdateIf : Option Int → Except Abort (List MachineInstr)
  | none => Except.ok []
  | some NumBytes => emitSPUpdate NumBytes

/-- What `emitPrologue` leaves behind: the function with its updated frame
information, function information and entry block, and the arguments of its
two calls of `emitSPUpdate` (`none` for a call that is not made): the one for
the variable-argument register save area and the one for the frame. -/
structure PrologueResult where
  MF : MachineFunction
  VarArgsSPUpdate : Option Int
  FrameSPUpdate : Option Int

/-- The method `Thumb2RegisterInfo::emitPrologue`. -/
def emitPrologue (TRI : Thumb2RegisterInfo) (MF : MachineFunction) :
    Except Abort PrologueResult :=
  let MFI := MF.FrameInfo
  let AFI := MF.Info
  let VARegSaveSize : Nat := u32 AFI.VarArgsRegSaveSize
  let NumBytes : Nat := u32 MFI.StackSize
  let CSI := MFI.CalleeSavedInfo
  let AFI : ARMFunctionInfo :=
    if MF.LiveIns.contains Reg.R3 then { AFI with R3IsLiveIn := true } else AFI
  let NumBytes : Nat := u32 (NumBytes + 3) &&& 4294967292
  let MFI : MachineFrameInfo := { MFI with StackSize := NumBytes }
  let VarArgsSPUpdate : Option Int :=
    if VARegSaveSize ≠ 0 then some (wrapI32 (-(VARegSaveSize : Int))) else none
  match emitSPUpdateIf VarArgsSPUpdate with
  | Except.error e => Except.error e
  | Except.ok VarArgsInsts =>
    if AFI.HasStackFrame = false then
      let FrameSPUpdate : Option Int :=
        if NumBytes ≠ 0 then some (wrapI32 (-(NumBytes : Int))) else none
      match emitSPUpdateIf FrameSPUpdate with
      | Except.error e => Except.error e
      | Except.ok FrameInsts =>
        Except.ok
          ⟨{ MF with FrameInfo := MFI, Info := AFI,
                     Front := VarArgsInsts ++ FrameInsts ++ MF.Front },
           VarArgsSPUpdate, FrameSPUpdate⟩
    else
      let S : SpillAreas := CSI.foldl (classifyCalleeSaved TRI) ⟨0, 0, 0, 0, AFI⟩
      let AFI := S.AFI
      let Pushed : List MachineInstr :=
        match MF.Front with
        | First :: _ => if First.Opcode = Opcode.tPUSH then [First] else []
        | [] => []
      let Rest : List MachineInstr := MF.Front.drop Pushed.length
      let FramePtrInsts : List MachineInstr :=
        if TRI.isTargetDarwin || MF.hasFP then
          [((BuildMI Opcode.tADDrSPi TRI.FramePtr).addFrameIndex S.FramePtrSpillFI).addImm 0]
        else []
      let DPRCSOffset : Nat :=
        toU32 ((NumBytes : Int) - (u32 (u32 (S.GPRCS1Size + S.GPRCS2Size) + S.DPRCSSize) : Nat))
      let GPRCS2Offset : Nat := u32 (DPRCSOffset + S.DPRCSSize)
      let GPRCS1Offset : Nat := u32 (GPRCS2Offset + S.GPRCS2Size)
      let AFI : ARMFunctionInfo :=
        { AFI with
          FramePtrSpillOffset := toU32 (MFI.ObjectOffset S.FramePtrSpillFI + (NumBytes : Int)),
          GPRCalleeSavedArea1Offset := GPRCS1Offset,
          GPRCalleeSavedArea2Offset := GPRCS2Offset,
          DPRCalleeSavedAreaOffset := DPRCSOffset }
      let NumBytes : Nat := DPRCSOffset
      let FrameSPUpdate : Option Int :=
        if NumBytes ≠ 0 then some (wrapI32 (-(NumBytes : Int))) else none
      match emitSPUpdateIf FrameSPUpdate with
      | Except.error e => Except.error e
      | Except.ok FrameInsts =>
        let MFI : MachineFrameInfo :=
          if TRI.isTargetELF && MF.hasFP then
            { MFI with OffsetAdjustment :=
                MFI.OffsetAdjustment - (AFI.FramePtrSpillOffset : Int) }
          else MFI
        let AFI : ARMFunctionInfo :=
          { AFI with
            GPRCalleeSavedArea1Size := S.GPRCS1Size,
            GPRCalleeSavedArea2Size := S.GPRCS2Size,
            DPRCalleeSavedAreaSize := S.DPRCSSize }
        Except.ok
          ⟨{ MF with FrameInfo := MFI, Info := AFI,
                     Front := VarArgsInsts ++ Pushed ++ FramePtrInsts ++ FrameInsts ++ Rest },
           VarArgsSPUpdate, FrameSPUpdate⟩

/-- The function `isCalleeSavedRegister`: `Reg` occurs in the list `CSRegs`. -/
def isCalleeSavedRegister (R : Reg) (CSRegs : List Reg) : Bool :=
  CSRegs.contains R

/-- The function `isCSRestore`: a `tRestore` whose operand 1 is a frame index
and whose operand 0 is a callee-saved register (false when such an operand is
missing). -/
def isCSRestore (MI : MachineInstr) (CSRegs : List Reg) : Bool :=
  MI.Opcode == Opcode.tRestore &&
  (match MI.Operands.get? 1 with
   | some Op => Op.isFI
   | none => false) &&
  (match MI.Operands.get? 0 with
   | some (MachineOperand.Register R _ _) => isCalleeSavedRegister R CSRegs
   | _ => false)

/-- The test `isCSRestore(MBBI)` for the iterator at position `k` of the block. -/
def isCSRestoreAt (MBB : List MachineInstr) (CSRegs : List Reg) (k : Nat) : Bool :=
  match MBB.get? k with
  | some MI => isCSRestore MI CSRegs
  | none => false

/-- The loop `do --MBBI; while (MBBI != MBB.begin() && isCSRestore(MBBI, CSRegs));`
of `emitEpilogue`, started with the iterator at a position other than the
beginning: the position at which it stops. -/
def unwindCSRestores (MBB : List MachineInstr) (CSRegs : List Reg) : Nat → Nat
  | 0 => 0
  | k + 1 => if k ≠ 0 ∧ isCSRestoreAt MBB CSRegs k = true then unwindCSRestores MBB CSRegs k else k

/-- Insertion of instructions before the iterator at position `Pos`. -/
def insertBefore (MBB : List MachineInstr) (Pos : Nat) (New : List MachineInstr) :
    List MachineInstr :=
  MBB.take Pos ++ New ++ MBB.drop Pos

/-- The opcode of the instruction at position `k` of the block. -/
def opcodeAt (MBB : List MachineInstr) (k : Nat) : Option Opcode :=
  (MBB.get? k).map (fun MI => MI.Opcode)

/-- What `emitEpilogue` leaves behind: the block, and the arguments of its two
calls of `emitSPUpdate` (`none` for a call that is not made): the one that
releases the frame and the one for the variable-argument register save area. -/
structure EpilogueResult where
  MBB : List MachineInstr
  FrameSPUpdate : Option Int
  VarArgsSPUpdate : Option Int

/-- The method `Thumb2RegisterInfo::emitEpilogue`. -/
def emitEpilogue (TRI : Thumb2RegisterInfo) (MF : MachineFunction)
    (MBB : List MachineInstr) : Except Abort EpilogueResult :=
  let MBBI : Nat := MBB.length - 1
  if ¬ (opcodeAt MBB MBBI = some Opcode.tBX_RET ∨ opcodeAt MBB MBBI = some Opcode.tPOP_RET) then
    Except.error Abort.NotReturningBlock
  else
    let MFI := MF.FrameInfo
    let AFI := MF.Info
    let VARegSaveSize : Nat := u32 AFI.VarArgsRegSaveSize
    let NumBytes : Int := toI32 MFI.StackSize
    let Part : Except Abort (List MachineInstr × Nat × Option Int) :=
      if AFI.HasStackFrame = false then
        let FrameSPUpdate : Option Int := if NumBytes ≠ 0 then some NumBytes else none
        match emitSPUpdateIf FrameSPUpdate with
        | Except.error e => Except.error e
        | Except.ok Insts =>
          Except.ok (insertBefore MBB MBBI Insts, MBBI + Insts.length, FrameSPUpdate)
      else
        let CSRegs := TRI.CalleeSavedRegs
        let MBBI : Nat :=
          if MBBI ≠ 0 then
            let k := unwindCSRestores MBB CSRegs MBBI
            if isCSRestoreAt MBB CSRegs k = false then k + 1 else k
          else MBBI
        let NumBytes : Int :=
          toI32 (toU32 (NumBytes -
            (u32 (u32 (AFI.GPRCalleeSavedArea1Size + AFI.GPRCalleeSavedArea2Size) +
              AFI.DPRCalleeSavedAreaSize) : Nat)))
        if MF.hasFP then
          let NumBytes : Int := toI32 (toU32 ((AFI.FramePtrSpillOffset : Int) - NumBytes))
          if NumBytes ≠ 0 then
            match emitThumbRegPlusImmediate Reg.SP TRI.FramePtr (wrapI32 (-NumBytes)) with
            | Except.error e => Except.error e
            | Except.ok Insts =>
              Except.ok (insertBefore MBB MBBI Insts, MBBI + Insts.length, none)
          else
            Except.ok (insertBefore MBB MBBI
              [(BuildMI Opcode.tMOVlor2hir Reg.SP).addReg TRI.FramePtr false], MBBI + 1, none)
        else
          match emitSPUpdate NumBytes with
          | Except.error e => Except.error e
          | Except.ok Insts =>
            if opcodeAt MBB MBBI = some Opcode.tBX_RET ∧ MBBI ≠ 0 ∧
                opcodeAt MBB (MBBI - 1) = some Opcode.tPOP then
              Except.ok (insertBefore MBB (MBBI - 1) Insts, MBBI + Insts.length, some NumBytes)
            else
              Except.ok (insertBefore MBB MBBI Insts, MBBI + Insts.length, some NumBytes)
    match Part with
    | Except.error e => Except.error e
    | Except.ok (MBB, MBBI, FrameSPUpdate) =>
      if VARegSaveSize ≠ 0 then
        match emitSPUpdate (toI32 VARegSaveSize) with
        | Except.error e => Except.error e
        | Except.ok Insts =>
          let New : List MachineInstr :=
            [(BuildMI0 Opcode.tPOP).addReg Reg.R3 false] ++ Insts ++
              [(BuildMI0 Opcode.tBX_RET_vararg).addReg Reg.R3 false]
          Except.ok
            ⟨(insertBefore MBB MBBI New).eraseIdx (MBBI + New.length), FrameSPUpdate,
              some (toI32 VARegSaveSize)⟩
      else Except.ok ⟨MBB, FrameSPUpdate, none⟩

/-- The amount, as a 32-bit quantity, by which a call `emitSPUpdate(NumBytes)`
lowers the stack pointer; 0 for a call that is not made. -/
def decrementOf : Option Int → Nat
  | none => 0
  | some NumBytes => toU32 (-NumBytes)

/-- The amount, as a 32-bit quantity, by which a call `emitSPUpdate(NumBytes)`
raises the stack pointer; 0 for a call that is not made. -/
def incrementOf : Option Int → Nat
  | none => 0
  | some NumBytes => toU32 NumBytes

/-- The argument of a call of `emitSPUpdate`, the signed number of bytes it adds
to the stack pointer; 0 for a call that is not made. -/
def requestedUpdate : Option Int → Int
  | none => 0
  | some NumBytes => NumBytes

/-! ## Simulated execution of emitted instructions -/

/-- Modelled from the spec: the machine state of the simulated execution, the
32-bit value held by each register (the instruction semantics are those of the
target description, which is not part of the file). -/
abbrev RegFile : Type := Reg → Nat

/-- Write of a 32-bit value to a register. -/
def RegFile.set (S : RegFile) (R : Reg) (v : Int) : RegFile :=
  fun r => if r = R then toU32 v else S r

/-- Modelled from the spec: simulated execution of one of the instructions the
planner emits: immediate adds and subtracts (the stack-pointer forms scale the
immediate by 4), register moves, the 8-bit move, negation, the constant-pool
load and the register-register add and subtract.  Other shapes do not execute. -/
def execInstr (S : RegFile) (MI : MachineInstr) : Option RegFile :=
  match MI.Opcode, MI.Operands with
  | Opcode.tADDspi, [MachineOperand.Register d _ _, MachineOperand.Register b _ _,
      MachineOperand.Immediate i] => some (S.set d ((S b : Int) + 4 * i))
  | Opcode.tSUBspi, [MachineOperand.Register d _ _, MachineOperand.Register b _ _,
      MachineOperand.Immediate i] => some (S.set d ((S b : Int) - 4 * i))
  | Opcode.tADDrSPi, [MachineOperand.Register d _ _, MachineOperand.Register b _ _,
      MachineOperand.Immediate i] => some (S.set d ((S b : Int) + 4 * i))
  | Opcode.tADDi3, [MachineOperand.Register d _ _, MachineOperand.Register b _ _,
      MachineOperand.Immediate i] => some (S.set d ((S b : Int) + i))
  | Opcode.tADDi8, [MachineOperand.Register d _ _, MachineOperand.Register b _ _,
      MachineOperand.Immediate i] => some (S.set d ((S b : Int) + i))
  | Opcode.tSUBi3, [MachineOperand.Register d _ _, MachineOperand.Register b _ _,
      MachineOperand.Immediate i] => some (S.set d ((S b : Int) - i))
  | Opcode.tSUBi8, [MachineOperand.Register d _ _, MachineOperand.Register b _ _,
      MachineOperand.Immediate i] => some (S.set d ((S b : Int) - i))
  | Opcode.tMOVr, [MachineOperand.Register d _ _, MachineOperand.Register b _ _] =>
      some (S.set d (S b))
  | Opcode.tMOVlor2hir, [MachineOperand.Register d _ _, MachineOperand.Register b _ _] =>
      some (S.set d (S b))
  | Opcode.tMOVhir2lor, [MachineOperand.Register d _ _, MachineOperand.Register b _ _] =>
      some (S.set d (S b))
  | Opcode.tMOVi8, [MachineOperand.Register d _ _, MachineOperand.Immediate i] =>
      some (S.set d i)
  | Opcode.tNEG, [MachineOperand.Register d _ _, MachineOperand.Register b _ _] =>
      some (S.set d (-(S b : Int)))
  | Opcode.tLDRcp, [MachineOperand.Register d _ _, MachineOperand.ConstantPoolIndex v] =>
      some (S.set d v)
  | Opcode.tADDrr, [MachineOperand.Register d _ _, MachineOperand.Register a _ _,
      MachineOperand.Register b _ _] => some (S.set d ((S a : Int) + (S b : Int)))
  | Opcode.tADDhirr, [MachineOperand.Register d _ _, MachineOperand.Register a _ _,
      MachineOperand.Register b _ _] => some (S.set d ((S a : Int) + (S b : Int)))
  | Opcode.tSUBrr, [MachineOperand.Register d _ _, MachineOperand.Register a _ _,
      MachineOperand.Register b _ _] => some (S.set d ((S a : Int) - (S b : Int)))
  | _, _ => none

/-- Simulated execution of an instruction sequence, in order. -/
def execSeq (S : RegFile) : List MachineInstr → Option RegFile
  | [] => some S
  | MI :: Rest =>
    match execInstr S MI with
    | some T => execSeq T Rest
    | none => none

/-- The value a register holds after the simulated execution of a sequence. -/
def valueAfter (S : RegFile) (L : List MachineInstr) (R : Reg) : Option Nat :=
  Option.map (fun T => T R) (execSeq S L)

/-- A register file holding `v` in every register. -/
def RegFile.const (v : Nat) : RegFile := fun _ => v

/-! ## Encoding legality -/

/-- Modelled from the spec: the largest value of the unsigned immediate field
of the opcodes that carry one (7 bits for the stack-pointer add and subtract,
8 bits for `tADDrSPi`, `tADDi8`, `tSUBi8` and `tMOVi8`, 3 bits for `tADDi3` and
`tSUBi3`); the encodings are in the target description, not in the file. -/
def immFieldMax : Opcode → Option Int
  | Opcode.tADDspi => some 127
  | Opcode.tSUBspi => some 127
  | Opcode.tADDrSPi => some 255
  | Opcode.tADDi8 => some 255
  | Opcode.tSUBi8 => some 255
  | Opcode.tADDi3 => some 7
  | Opcode.tSUBi3 => some 7
  | Opcode.tMOVi8 => some 255
  | _ => none

/-- Every immediate operand of the instruction lies in the immediate field of
its opcode; an opcode without an immediate field carries no immediate. -/
def immediatesFit (MI : MachineInstr) : Bool :=
  MI.Operands.all fun Op =>
    match Op with
    | MachineOperand.Immediate v =>
      match immFieldMax MI.Opcode with
      | some m => decide (0 ≤ v ∧ v ≤ m)
      | none => false
    | _ => true

/-- The loop parameters that `emitThumbRegPlusImmediate` hands to the loop. -/
def ChunkParams (Opc : Opcode) (Scale Chunk : Nat) (isTwoAddr : Bool) : Prop :=
  ((Opc = Opcode.tADDspi ∨ Opc = Opcode.tSUBspi) ∧ Scale = 4 ∧ Chunk = 508 ∧ isTwoAddr = true) ∨
  (Opc = Opcode.tADDrSPi ∧ Scale = 4 ∧ Chunk = 1020 ∧ isTwoAddr = false) ∨
  ((Opc = Opcode.tADDi8 ∨ Opc = Opcode.tSUBi8) ∧ Scale = 1 ∧ Chunk = 255 ∧ isTwoAddr = true)

/-- Shape of the classification: the three instruction forms. -/
def CaseShape (n : Int) (c : RegPlusImmCase) : Prop :=
  c.Bytes ≤ n.natAbs ∧
  ((c.NumBits = 7 ∧ c.Scale = 4 ∧ (c.Opc = Opcode.tADDspi ∨ c.Opc = Opcode.tSUBspi) ∧
      c.ExtraOpc = none ∧ c.isTwoAddr = true ∧ c.DstNotEqBase = false) ∨
   (c.NumBits = 8 ∧ c.Scale = 4 ∧ c.Opc = Opcode.tADDrSPi ∧
      (c.ExtraOpc = none ∨ c.ExtraOpc = some Opcode.tADDi3) ∧ c.isTwoAddr = false ∧
      c.DstNotEqBase = false) ∨
   (c.NumBits = 8 ∧ c.Scale = 1 ∧ (c.Opc = Opcode.tADDi8 ∨ c.Opc = Opcode.tSUBi8) ∧
      c.ExtraOpc = none ∧ c.isTwoAddr = true))

/-- Instruction descriptions used in the examples: `tSpill` stores and
`tRestore` loads with `AddrModeT1_s`; no other opcode accesses memory. -/
def exampleDesc (Opc : Opcode) : TargetInstrDesc :=
  match Opc with
  | Opcode.tSpill => ⟨AddrMode.AddrModeT1_s, false, true⟩
  | Opcode.tRestore => ⟨AddrMode.AddrModeT1_s, true, false⟩
  | _ => ⟨AddrMode.Other 0, false, false⟩

/-- Register information used in the examples: frame pointer `R7`, an ELF
target with stack alignment 4. -/
def exampleTRI : Thumb2RegisterInfo :=
  ⟨Reg.R7, false, true, 4, exampleDesc, [Reg.LR, Reg.R7, Reg.R6, Reg.R5, Reg.R4]⟩

/-- Function state used in the examples: frame size `StackSize`, every object at
offset `ObjOffset`, no callee-saved registers, no frame pointer. -/
def exampleMF (StackSize : Nat) (ObjOffset : Int) : MachineFunction :=
  ⟨⟨StackSize, fun _ => ObjOffset, [], 0, 0, false⟩,
   ⟨0, false, false, 0, 0, 0, 0, 0, 0, 0, [], [], []⟩, [], [], false, Reg.SP⟩

/-- The frame size after the rounding `NumBytes = (NumBytes + 3) & ~3` of
`emitPrologue`. -/
def roundedStackSize (MF : MachineFunction) : Nat :=
  u32 (u32 MF.FrameInfo.StackSize + 3) &&& 4294967292

/-- The function information after the live-in check of `emitPrologue`. -/
def liveInChecked (MF : MachineFunction) : ARMFunctionInfo :=
  if MF.LiveIns.contains Reg.R3 then { MF.Info with R3IsLiveIn := true } else MF.Info

/-- The result of the loop over the callee-saved registers in `emitPrologue`. -/
def spillAreasOf (TRI : Thumb2RegisterInfo) (MF : MachineFunction) : SpillAreas :=
  MF.FrameInfo.CalleeSavedInfo.foldl (classifyCalleeSaved TRI) ⟨0, 0, 0, 0, liveInChecked MF⟩

/-- The value `DPRCSOffset` computed by `emitPrologue`. -/
def dprcsOffsetOf (TRI : Thumb2RegisterInfo) (MF : MachineFunction) : Nat :=
  toU32 ((roundedStackSize MF : Int) -
    (u32 (u32 ((spillAreasOf TRI MF).GPRCS1Size + (spillAreasOf TRI MF).GPRCS2Size) +
      (spillAreasOf TRI MF).DPRCSSize) : Nat))

/-- The argument of a conditional call `if (NumBytes) emitSPUpdate(-NumBytes)`. -/
def negatedUpdate (NumBytes : Nat) : Option Int :=
  if NumBytes ≠ 0 then some (wrapI32 (-(NumBytes : Int))) else none

/-- The three outcomes of one classification step. -/
def ClassifiedInto (S T : SpillAreas) (FI : Int) : Prop :=
  (T.GPRCS1Size = u32 (S.GPRCS1Size + 4) ∧ T.GPRCS2Size = S.GPRCS2Size ∧
    T.DPRCSSize = S.DPRCSSize ∧
    T.AFI.GPRCalleeSavedArea1Frames = S.AFI.GPRCalleeSavedArea1Frames ++ [FI] ∧
    T.AFI.GPRCalleeSavedArea2Frames = S.AFI.GPRCalleeSavedArea2Frames ∧
    T.AFI.DPRCalleeSavedAreaFrames = S.AFI.DPRCalleeSavedAreaFrames) ∨
  (T.GPRCS1Size = S.GPRCS1Size ∧ T.GPRCS2Size = u32 (S.GPRCS2Size + 4) ∧
    T.DPRCSSize = S.DPRCSSize ∧
    T.AFI.GPRCalleeSavedArea1Frames = S.AFI.GPRCalleeSavedArea1Frames ∧
    T.AFI.GPRCalleeSavedArea2Frames = S.AFI.GPRCalleeSavedArea2Frames ++ [FI] ∧
    T.AFI.DPRCalleeSavedAreaFrames = S.AFI.DPRCalleeSavedAreaFrames) ∨
  (T.GPRCS1Size = S.GPRCS1Size ∧ T.GPRCS2Size = S.GPRCS2Size ∧
    T.DPRCSSize = u32 (S.DPRCSSize + 8) ∧
    T.AFI.GPRCalleeSavedArea1Frames = S.AFI.GPRCalleeSavedArea1Frames ∧
    T.AFI.GPRCalleeSavedArea2Frames = S.AFI.GPRCalleeSavedArea2Frames ∧
    T.AFI.DPRCalleeSavedAreaFrames = S.AFI.DPRCalleeSavedAreaFrames ++ [FI])

/-- Function state used in the examples of the prologue: a function with a stack
frame, frame size `StackSize`, callee-saved registers `CSI`, a register save
area of `VarArgs` bytes for variable arguments, and no frame pointer. -/
def exampleFramedMF (StackSize : Nat) (CSI : List CalleeSavedInfo) (VarArgs : Nat) :
    MachineFunction :=
  ⟨⟨StackSize, fun _ => 0, CSI, 0, 0, false⟩,
   ⟨VarArgs, true, false, 0, 0, 0, 0, 0, 0, 0, [], [], []⟩,
   [], [⟨Opcode.tPUSH, []⟩, ⟨Opcode.tBX_RET, []⟩], false, Reg.SP⟩

/-! ## Call-frame pseudo instructions -/
/-- The method `Thumb2RegisterInfo::hasReservedCallFrame`. -/
def hasReservedCallFrame (MF : MachineFunction) : Bool :=
  let CFSize : Nat := u32 MF.FrameInfo.MaxCallFrameSize
  if CFSize ≥ ((1 <<< 8) - 1) * 4 / 2 then false
  else !MF.FrameInfo.HasVarSizedObjects

/-- The part of `eliminateCallFramePseudoInstr` that decides the call of
`emitSPUpdate` for the pseudo instruction `Old`: `none` when no call is made,
`some NumBytes` when `emitSPUpdate` is called with argument `NumBytes`.  The
rounding divides by the stack alignment; with an alignment of 0 the division
traps. -/
def callFrameSPUpdate (TRI : Thumb2RegisterInfo) (MF : MachineFunction)
    (Old : MachineInstr) : Except Abort (Option Int) :=
  if hasReservedCallFrame MF = false then
    match Old.getImm 0 with
    | Except.error e => Except.error e
    | Except.ok Imm =>
      let Amount : Nat := toU32 Imm
      if Amount ≠ 0 then
        let Align : Nat := u32 TRI.StackAlignment
        if Align = 0 then Except.error Abort.DivisionByZero
        else
          let Amount : Nat := u32 (toU32 ((Amount : Int) + (Align : Int) - 1) / Align * Align)
          let Opc := Old.Opcode
          if Opc = Opcode.ADJCALLSTACKDOWN ∨ Opc = Opcode.tADJCALLSTACKDOWN then
            Except.ok (some (wrapI32 (-(Amount : Int))))
          else if Opc = Opcode.ADJCALLSTACKUP ∨ Opc = Opcode.tADJCALLSTACKUP then
            Except.ok (some (toI32 Amount))
          else Except.error Abort.NotCallFramePseudo
      else Except.ok none
  else Except.ok none

/-- What `eliminateCallFramePseudoInstr` leaves behind: the block, and the
argument of its call of `emitSPUpdate` (`none` when the call is not made). -/
structure CallFrameResult where
  MBB : List MachineInstr
  SPUpdate : Option Int

/-- The method `Thumb2RegisterInfo::eliminateCallFramePseudoInstr` on the
instruction at position `I` of the block `MBB`. -/
def eliminateCallFramePseudoInstr (TRI : Thumb2RegisterInfo) (MF : MachineFunction)
    (MBB : List MachineInstr) (I : Nat) : Except Abort CallFrameResult :=
  match MBB.get? I with
  | none => Except.error Abort.BadOperand
  | some Old =>
    match callFrameSPUpdate TRI MF Old with
    | Except.error e => Except.error e
    | Except.ok SPUpdate =>
      match emitSPUpdateIf SPUpdate with
      | Except.error e => Except.error e
      | Except.ok Insts =>
        Except.ok ⟨(insertBefore MBB I Insts).eraseIdx (I + Insts.length), SPUpdate⟩

/-- The test `NumMIs > Threshold` of `emitThumbRegPlusImmediate`: the direct
sequence is abandoned for the fallback `emitThumbRegPlusImmInReg`. -/
def abandonsDirectSequence (DestReg BaseReg : Reg) (NumBytes : Int) : Bool :=
  match classifyRegPlusImm DestReg BaseReg NumBytes with
  | Except.error _ => false
  | Except.ok c =>
    decide (calcNumMI c.Opc c.ExtraOpc c.Bytes c.NumBits c.Scale >
      (if DestReg = Reg.SP then 3 else 2))

/-- Function state used in the examples of call-frame lowering: maximum
call-frame size `MaxCallFrameSize` and `HasVarSizedObjects`. -/
def exampleCallMF (MaxCallFrameSize : Nat) (HasVarSizedObjects : Bool) : MachineFunction :=
  ⟨⟨0, fun _ => 0, [], 0, MaxCallFrameSize, HasVarSizedObjects⟩,
   ⟨0, false, false, 0, 0, 0, 0, 0, 0, 0, [], [], []⟩, [], [], false, Reg.SP⟩

/-- Function state used in the example of an epilogue with a stack frame:
rounded frame size 48, a first general region of 8 bytes and a wide region of
8 bytes, and a register save area of `VarArgs` bytes for variable arguments. -/
def exampleEpilogueMF (VarArgs : Nat) : MachineFunction :=
  ⟨⟨48, fun _ => 0, [⟨Reg.R4, 0⟩, ⟨Reg.LR, 1⟩, ⟨Reg.D 8, 2⟩], 0, 0, false⟩,
   ⟨VarArgs, true, false, 48, 40, 40, 32, 8, 0, 8, [0, 1], [], [2]⟩,
   [], [], false, Reg.SP⟩

/-- Function state used in the example of a store with a live-in R3: the state
`exampleMF 2048 (-48)` with R3 recorded as live-in. -/
def exampleLiveR3MF : MachineFunction :=
  ⟨⟨2048, fun _ => -48, [], 0, 0, false⟩,
   ⟨0, false, true, 0, 0, 0, 0, 0, 0, 0, [], [], []⟩, [Reg.R3], [], false, Reg.SP⟩

/-- The register an instruction defines: its first operand when that is a
register definition. -/
def MachineInstr.definedReg (MI : MachineInstr) : Option Reg :=
  match MI.Operands.head? with
  | some (MachineOperand.Register R true _) => some R
  | _ => none

/-- The instruction has a stack-pointer operand that carries the kill flag. -/
def MachineInstr.killsSP (MI : MachineInstr) : Bool :=
  MI.Operands.any (fun Op =>
    match Op with
    | MachineOperand.Register R _ isKill => decide (R = Reg.SP) && isKill
    | _ => false)

/-- Instruction descriptions used in the example of a folded immediate:
`Other 0` stands for an SP-relative load and `Other 1` for an SP-relative
store with `AddrModeT1_s` that are not `tSpill`/`tRestore`; every other opcode
is described by `exampleDesc`. -/
def exampleSpRelDesc (Opc : Opcode) : TargetInstrDesc :=
  match Opc with
  | Opcode.Other 0 => ⟨AddrMode.AddrModeT1_s, true, false⟩
  | Opcode.Other 1 => ⟨AddrMode.AddrModeT1_s, false, true⟩
  | _ => exampleDesc Opc

/-- The target of the examples with the descriptions `exampleSpRelDesc`. -/
def exampleSpRelTRI : Thumb2RegisterInfo :=
  ⟨Reg.R7, false, true, 4, exampleSpRelDesc, [Reg.LR, Reg.R7, Reg.R6, Reg.R5, Reg.R4]⟩

/-! # Theorems -/

/-! ## Arithmetic and loop lemmas -/

theorem toU32_lt (x : Int) : toU32 x < 4294967296 := by
  unfold toU32; omega

theorem toU32_of_nonneg (x : Int) (h0 : 0 ≤ x) (h1 : x < 4294967296) : toU32 x = x.natAbs := by
  unfold toU32; omega

theorem toU32_neg_of_neg (x : Int) (h0 : x < 0) (h1 : -4294967296 < x) :
    toU32 (-x) = x.natAbs := by
  unfold toU32; omega

theorem and_three (n : Nat) : n &&& 3 = n % 4 := by
  have := Nat.and_pow_two_sub_one_eq_mod n 2
  simpa using this

theorem emitChunksLoop_zero (DestReg : Reg) (isSub : Bool) (Fuel : Nat) (BaseReg : Reg)
    (Opc : Opcode) (Scale Chunk : Nat) (isTwoAddr : Bool) :
    emitChunksLoop DestReg isSub Fuel 0 BaseReg Opc Scale Chunk isTwoAddr = [] := by
  cases Fuel <;> simp [emitChunksLoop]

theorem emitChunksLoop_fuel_eq (DestReg : Reg) (isSub : Bool) (F1 : Nat) :
    ∀ (F2 Bytes : Nat) (BaseReg : Reg) (Opc : Opcode) (Scale Chunk : Nat) (isTwoAddr : Bool),
      0 < Chunk → Bytes ≤ F1 → Bytes ≤ F2 →
      emitChunksLoop DestReg isSub F1 Bytes BaseReg Opc Scale Chunk isTwoAddr =
        emitChunksLoop DestReg isSub F2 Bytes BaseReg Opc Scale Chunk isTwoAddr := by
  induction F1 with
  | zero =>
    intro F2 Bytes BaseReg Opc Scale Chunk isTwoAddr _ h1 _
    have : Bytes = 0 := by omega
    subst this
    rw [emitChunksLoop_zero, emitChunksLoop_zero]
  | succ F ih =>
    intro F2 Bytes BaseReg Opc Scale Chunk isTwoAddr hC h1 h2
    cases F2 with
    | zero =>
      have : Bytes = 0 := by omega
      subst this
      rw [emitChunksLoop_zero, emitChunksLoop_zero]
    | succ G =>
      by_cases hB : Bytes = 0
      · subst hB
        rw [emitChunksLoop_zero, emitChunksLoop_zero]
      · have hlt : Bytes - (if Bytes > Chunk then Chunk else Bytes) ≤ F := by
          split <;> omega
        have hlt2 : Bytes - (if Bytes > Chunk then Chunk else Bytes) ≤ G := by
          split <;> omega
        simp only [emitChunksLoop]
        rw [ih G _ BaseReg Opc Scale Chunk isTwoAddr hC hlt hlt2,
            ih G _ DestReg Opc Scale Chunk isTwoAddr hC hlt hlt2,
            ih G _ DestReg (if isSub then Opcode.tSUBi8 else Opcode.tADDi8) 1
              (((1 <<< 8) - 1) * 1) true (by decide) hlt hlt2]

theorem emitChunks_zero (DestReg : Reg) (isSub : Bool) (BaseReg : Reg)
    (Opc : Opcode) (Scale Chunk : Nat) (isTwoAddr : Bool) :
    emitChunks DestReg isSub 0 BaseReg Opc Scale Chunk isTwoAddr = [] := rfl

/-- One iteration of the loop in two-address mode. -/
theorem emitChunks_twoAddr (DestReg : Reg) (isSub : Bool) (Bytes : Nat) (BaseReg : Reg)
    (Opc : Opcode) (Scale Chunk : Nat) (hB : Bytes ≠ 0) (hC : 0 < Chunk) :
    emitChunks DestReg isSub Bytes BaseReg Opc Scale Chunk true =
      ((BuildMI Opc DestReg).addReg DestReg false).addImm
          (((if Bytes > Chunk then Chunk else Bytes) / Scale : Nat) : Int) ::
        emitChunks DestReg isSub (Bytes - (if Bytes > Chunk then Chunk else Bytes)) BaseReg Opc
          Scale Chunk true := by
  unfold emitChunks
  obtain ⟨B, rfl⟩ := Nat.exists_eq_succ_of_ne_zero hB
  have hlt : B + 1 - (if B + 1 > Chunk then Chunk else B + 1) ≤ B := by
    split <;> omega
  simp only [emitChunksLoop, Nat.succ_eq_add_one]
  rw [if_neg (by omega), if_pos trivial]
  rw [emitChunksLoop_fuel_eq DestReg isSub B _ _ BaseReg Opc Scale Chunk true hC hlt le_rfl]

/-- The first iteration of the loop for `tADDrSPi`, which then switches to the
two-address 8-bit form. -/
theorem emitChunks_tADDrSPi (DestReg : Reg) (isSub : Bool) (Bytes : Nat) (BaseReg : Reg)
    (Scale Chunk : Nat) (hB : Bytes ≠ 0) (hC : 0 < Chunk) :
    emitChunks DestReg isSub Bytes BaseReg Opcode.tADDrSPi Scale Chunk false =
      ((BuildMI Opcode.tADDrSPi DestReg).addReg BaseReg
            (getKillRegState (BaseReg != Reg.SP))).addImm
          (((if Bytes > Chunk then Chunk else Bytes) / Scale : Nat) : Int) ::
        emitChunks DestReg isSub (Bytes - (if Bytes > Chunk then Chunk else Bytes)) DestReg
          (if isSub then Opcode.tSUBi8 else Opcode.tADDi8) 1 255 true := by
  unfold emitChunks
  obtain ⟨B, rfl⟩ := Nat.exists_eq_succ_of_ne_zero hB
  have hlt : B + 1 - (if B + 1 > Chunk then Chunk else B + 1) ≤ B := by
    split <;> omega
  simp only [emitChunksLoop, Nat.succ_eq_add_one]
  rw [if_neg (by omega), if_neg (by decide), if_pos trivial]
  rw [emitChunksLoop_fuel_eq DestReg isSub B _ _ DestReg _ 1 _ true (by decide) hlt le_rfl]
  rfl


theorem calcNumMI_sp (Opc : Opcode) (hOpc : Opc ≠ Opcode.tADDrSPi) (Bytes : Nat)
    (hB : Bytes < 4294967296) :
    calcNumMI Opc none Bytes 7 4 = (Bytes + 507) / 508 := by
  simp only [calcNumMI, u32, if_neg hOpc, Option.isSome_none, Nat.shiftLeft_eq]
  norm_num
  split <;> omega

theorem bytes_eq_natAbs (n : Int) (hlo : -4294967296 < n) (hhi : n < 4294967296) :
    (if decide (n < 0) = true then toU32 (-n) else toU32 n) = n.natAbs := by
  by_cases hn : n < 0
  · simp only [hn, decide_True, if_true]; exact toU32_neg_of_neg n hn hlo
  · simp only [hn, decide_False]; exact toU32_of_nonneg n (by omega) hhi

theorem bytes_eq_natAbs_prop (n : Int) (hlo : -4294967296 < n) (hhi : n < 4294967296) :
    (if n < 0 then toU32 (-n) else toU32 n) = n.natAbs := by
  by_cases hn : n < 0
  · simp only [hn, if_true]; exact toU32_neg_of_neg n hn hlo
  · simp only [hn, if_false]; exact toU32_of_nonneg n (by omega) hhi

theorem classifyRegPlusImm_sp (n : Int) (hlo : -4294967296 < n) (hhi : n < 4294967296)
    (h4 : n.natAbs % 4 = 0) :
    classifyRegPlusImm Reg.SP Reg.SP n = Except.ok
      ⟨n.natAbs, 7, 4, if n < 0 then Opcode.tSUBspi else Opcode.tADDspi, none, true, false⟩ := by
  simp [classifyRegPlusImm, bytes_eq_natAbs_prop n hlo hhi, and_three, h4]

theorem emitSPUpdate_direct (n : Int) (hlo : -4294967296 < n) (hhi : n < 4294967296)
    (h4 : n.natAbs % 4 = 0) (hle : n.natAbs ≤ 1524) :
    emitSPUpdate n = Except.ok
      (emitChunks Reg.SP (decide (n < 0)) n.natAbs Reg.SP
        (if n < 0 then Opcode.tSUBspi else Opcode.tADDspi) 4 508 true) := by
  have hOpc : (if n < 0 then Opcode.tSUBspi else Opcode.tADDspi) ≠ Opcode.tADDrSPi := by
    split <;> decide
  simp only [emitSPUpdate, emitThumbRegPlusImmediate, classifyRegPlusImm_sp n hlo hhi h4,
    calcNumMI_sp _ hOpc _ (show n.natAbs < 4294967296 by omega)]
  rw [if_neg (by simp; omega)]
  simp [Nat.shiftLeft_eq]


theorem emitChunks_sp_cases (isSub : Bool) (Opc : Opcode) (B : Nat) (hB0 : 0 < B)
    (hB : B ≤ 1524) :
    emitChunks Reg.SP isSub B Reg.SP Opc 4 508 true =
      List.map (fun i : Nat => ((BuildMI Opc Reg.SP).addReg Reg.SP false).addImm (i : Int))
        (if B ≤ 508 then [B / 4]
         else if B ≤ 1016 then [127, (B - 508) / 4]
         else [127, 127, (B - 1016) / 4]) := by
  by_cases h1 : B ≤ 508
  · rw [emitChunks_twoAddr _ _ _ _ _ _ _ (by omega) (by decide), if_neg (by omega),
      Nat.sub_self, emitChunks_zero, if_pos h1]
    rfl
  · by_cases h2 : B ≤ 1016
    · rw [emitChunks_twoAddr _ _ _ _ _ _ _ (by omega) (by decide), if_pos (by omega),
        emitChunks_twoAddr _ _ _ _ _ _ _ (by omega) (by decide), if_neg (by omega),
        Nat.sub_self, emitChunks_zero, if_neg h1, if_pos h2]
      rfl
    · rw [emitChunks_twoAddr _ _ _ _ _ _ _ (by omega) (by decide), if_pos (by omega),
        emitChunks_twoAddr _ _ _ _ _ _ _ (by omega) (by decide), if_pos (by omega),
        emitChunks_twoAddr _ _ _ _ _ _ _ (by omega) (by decide), if_neg (by omega),
        Nat.sub_self, emitChunks_zero, if_neg h1, if_neg h2]
      have : B - 508 - 508 = B - 1016 := by omega
      rw [this]
      rfl

/-- Claim C3: for every offset `n` that is a multiple of 4 with `0 < |n| <= 1524`,
`emitSPUpdate(n)` succeeds and emits exactly `ceil(|n| / 508)` instructions, each
of the form `Opc SP, SP, #imm` with `Opc = tADDspi` when `n > 0` and `tSUBspi`
when `n < 0`, every immediate in `1..127`, and 4 times the sum of the immediates
equal to `|n|`. -/
theorem emitSPUpdate_small_offset (n : Int) (h4 : n % 4 = 0) (h0 : n ≠ 0)
    (hle : n.natAbs ≤ 1524) :
    ∃ Imms : List Nat,
      emitSPUpdate n = Except.ok
        (Imms.map (fun i : Nat =>
          ((BuildMI (if 0 < n then Opcode.tADDspi else Opcode.tSUBspi) Reg.SP).addReg
            Reg.SP false).addImm (i : Int))) ∧
      Imms.length = (n.natAbs + 507) / 508 ∧
      (∀ i ∈ Imms, 1 ≤ i ∧ i ≤ 127) ∧
      4 * Imms.sum = n.natAbs := by
  have hOpc : (if n < 0 then Opcode.tSUBspi else Opcode.tADDspi) =
      (if 0 < n then Opcode.tADDspi else Opcode.tSUBspi) := by
    by_cases hn : n < 0
    · rw [if_pos hn, if_neg (by omega)]
    · rw [if_neg hn, if_pos (by omega)]
  have hm : n.natAbs % 4 = 0 := by omega
  have hpos : 0 < n.natAbs := by omega
  rw [emitSPUpdate_direct n (by omega) (by omega) hm hle,
    emitChunks_sp_cases _ _ _ hpos hle, hOpc]
  refine ⟨_, rfl, ?_, ?_, ?_⟩
  · split
    · simp; omega
    · split
      · simp; omega
      · simp; omega
  · intro i hi
    split at hi
    · simp at hi; omega
    · split at hi
      · simp at hi; omega
      · simp at hi; omega
  · split
    · simp; omega
    · split
      · simp; omega
      · simp; omega

theorem emitSPUpdate_small_offset_witness :
    ∃ Imms : List Nat,
      emitSPUpdate (-1000) = Except.ok
        (Imms.map (fun i : Nat =>
          ((BuildMI (if (0 : Int) < -1000 then Opcode.tADDspi else Opcode.tSUBspi) Reg.SP).addReg
            Reg.SP false).addImm (i : Int))) ∧
      Imms.length = ((-1000 : Int).natAbs + 507) / 508 ∧
      (∀ i ∈ Imms, 1 ≤ i ∧ i ≤ 127) ∧
      4 * Imms.sum = (-1000 : Int).natAbs :=
  emitSPUpdate_small_offset (-1000) (by decide) (by decide) (by decide)


theorem immediatesFit_reg_imm (Opc : Opcode) (D R : Reg) (k : Bool) (i m : Int)
    (hm : immFieldMax Opc = some m) (h0 : 0 ≤ i) (h1 : i ≤ m) :
    immediatesFit (((BuildMI Opc D).addReg R k).addImm i) = true := by
  simp [immediatesFit, BuildMI, MachineInstr.addReg, MachineInstr.addImm, hm, h0, h1]

theorem immediatesFit_reg_reg (Opc : Opcode) (D R : Reg) (k : Bool) :
    immediatesFit ((BuildMI Opc D).addReg R k) = true := by
  simp [immediatesFit, BuildMI, MachineInstr.addReg]

theorem immediatesFit_reg_reg_reg (Opc : Opcode) (D R : Reg) (k : Bool) (R' : Reg) (k' : Bool) :
    immediatesFit (((BuildMI Opc D).addReg R k).addReg R' k') = true := by
  simp [immediatesFit, BuildMI, MachineInstr.addReg]

theorem emitChunksLoop_immediatesFit (DestReg : Reg) (isSub : Bool) (Fuel : Nat) :
    ∀ (Bytes : Nat) (BaseReg : Reg) (Opc : Opcode) (Scale Chunk : Nat) (isTwoAddr : Bool),
      ChunkParams Opc Scale Chunk isTwoAddr →
      ∀ MI ∈ emitChunksLoop DestReg isSub Fuel Bytes BaseReg Opc Scale Chunk isTwoAddr,
        immediatesFit MI = true := by
  induction Fuel with
  | zero => intro _ _ _ _ _ _ _ MI hMI; simp [emitChunksLoop] at hMI
  | succ F ih =>
    intro Bytes BaseReg Opc Scale Chunk isTwoAddr hP MI hMI
    have hnext : ChunkParams (if isSub then Opcode.tSUBi8 else Opcode.tADDi8) 1
        (((1 <<< 8) - 1) * 1) true := by
      right; right
      cases isSub <;> simp [Nat.shiftLeft_eq]
    simp only [emitChunksLoop] at hMI
    split at hMI
    · simp at hMI
    · rcases hP with ⟨hO, rfl, rfl, rfl⟩ | ⟨rfl, rfl, rfl, rfl⟩ | ⟨hO, rfl, rfl, rfl⟩
      · rw [if_pos rfl] at hMI
        rcases List.mem_cons.mp hMI with rfl | hrest
        · rcases hO with rfl | rfl
          · exact immediatesFit_reg_imm _ _ _ _ _ 127 rfl (by omega) (by split <;> omega)
          · exact immediatesFit_reg_imm _ _ _ _ _ 127 rfl (by omega) (by split <;> omega)
        · exact ih _ _ _ _ _ _ (Or.inl ⟨hO, rfl, rfl, rfl⟩) MI hrest
      · rw [if_neg (by decide), if_pos rfl] at hMI
        rcases List.mem_cons.mp hMI with rfl | hrest
        · exact immediatesFit_reg_imm _ _ _ _ _ 255 rfl (by omega) (by split <;> omega)
        · exact ih _ _ _ _ _ _ hnext MI hrest
      · rw [if_pos rfl] at hMI
        rcases List.mem_cons.mp hMI with rfl | hrest
        · rcases hO with rfl | rfl
          · exact immediatesFit_reg_imm _ _ _ _ _ 255 rfl (by omega) (by split <;> omega)
          · exact immediatesFit_reg_imm _ _ _ _ _ 255 rfl (by omega) (by split <;> omega)
        · exact ih _ _ _ _ _ _ (Or.inr (Or.inr ⟨hO, rfl, rfl, rfl⟩)) MI hrest

/-! ## Encoding legality of the planner -/

theorem and_mask_le (n : Nat) : n &&& 4294967292 ≤ n := Nat.and_le_left

theorem classifyRegPlusImm_shape (DestReg BaseReg : Reg) (n : Int)
    (hlo : -4294967296 < n) (hhi : n < 4294967296) (c : RegPlusImmCase)
    (h : classifyRegPlusImm DestReg BaseReg n = Except.ok c) : CaseShape n c := by
  have hB := bytes_eq_natAbs n hlo hhi
  simp only [classifyRegPlusImm, hB] at h
  split at h
  · split at h
    · cases h
      refine ⟨le_rfl, Or.inl ⟨rfl, rfl, ?_, rfl, rfl, rfl⟩⟩
      by_cases hn : n < 0 <;> simp [hn]
    · cases h
  · split at h
    · split at h
      · cases h
        exact ⟨le_rfl, Or.inr (Or.inl ⟨rfl, rfl, rfl, Or.inl rfl, rfl, rfl⟩)⟩
      · cases h
        exact ⟨and_mask_le _, Or.inr (Or.inl ⟨rfl, rfl, rfl, Or.inr rfl, rfl, rfl⟩)⟩
    · cases h
      refine ⟨le_rfl, Or.inr (Or.inr ⟨rfl, rfl, ?_, rfl, rfl⟩)⟩
      by_cases hn : n < 0 <;> simp [hn]

theorem calcNumMI_gt_two (n : Int) (c : RegPlusImmCase) (hc : CaseShape n c)
    (hn : n.natAbs < 4294967296)
    (h : 2 < calcNumMI c.Opc c.ExtraOpc c.Bytes c.NumBits c.Scale) : 255 < n.natAbs := by
  obtain ⟨hle, h1 | h2 | h3⟩ := hc
  · obtain ⟨hb, hs, hO, hE, _, _⟩ := h1
    have hOpc : c.Opc ≠ Opcode.tADDrSPi := by rcases hO with h | h <;> rw [h] <;> decide
    rw [hb, hs, hE, calcNumMI_sp _ hOpc _ (by omega)] at h
    omega
  · obtain ⟨hb, hs, hO, hE, _, _⟩ := h2
    rw [hb, hs, hO] at h
    simp only [calcNumMI, u32, if_true, Nat.shiftLeft_eq] at h
    norm_num at h
    by_contra hcon
    have h0 : c.Bytes - (if 1020 < c.Bytes then 1020 else c.Bytes) = 0 := by
      split <;> omega
    rw [h0] at h
    rcases hE with hE | hE <;> rw [hE] at h <;> simp at h
  · obtain ⟨hb, hs, hO, hE, _⟩ := h3
    have hOpc : c.Opc ≠ Opcode.tADDrSPi := by rcases hO with h | h <;> rw [h] <;> decide
    rw [hb, hs, hE] at h
    simp only [calcNumMI, u32, if_neg hOpc, Option.isSome_none, Nat.shiftLeft_eq] at h
    norm_num at h
    split at h <;> omega


theorem wrapI32_neg_large (n : Int) (hlo : -2147483648 ≤ n) (hn : n < -255) :
    ¬ (wrapI32 (-n) ≤ 255 ∧ wrapI32 (-n) ≥ 0) ∧ ¬ (wrapI32 (-n) < 0 ∧ wrapI32 (-n) ≥ -255) := by
  unfold wrapI32 toI32 toU32
  split <;> omega

theorem emitThumbRegPlusImmInReg_immediatesFit (DestReg BaseReg : Reg) (n : Int)
    (CanChangeCC : Bool) (hlo : -2147483648 ≤ n) (hhi : n ≤ 2147483647)
    (hbig : 255 < n.natAbs) (L : List MachineInstr)
    (h : emitThumbRegPlusImmInReg DestReg BaseReg n CanChangeCC = Except.ok L) :
    ∀ MI ∈ L, immediatesFit MI = true := by
  unfold emitThumbRegPlusImmInReg at h
  simp only [] at h
  split at h
  · cases h
  · have hload : ∀ (b : Bool) (R : Reg), ∀ MI ∈
        (if (if b = true then wrapI32 (-n) else n) ≤ 255 ∧
              (if b = true then wrapI32 (-n) else n) ≥ 0 then
            [(BuildMI Opcode.tMOVi8 R).addImm (if b = true then wrapI32 (-n) else n)]
          else if (if b = true then wrapI32 (-n) else n) < 0 ∧
              (if b = true then wrapI32 (-n) else n) ≥ -255 then
            [(BuildMI Opcode.tMOVi8 R).addImm (if b = true then wrapI32 (-n) else n),
             (BuildMI Opcode.tNEG R).addReg R Kill]
          else emitLoadConstPool R (if b = true then wrapI32 (-n) else n)),
        (b = true → n < 0) → immediatesFit MI = true := by
      intro b R MI hMI hb
      have hno : ¬ ((if b = true then wrapI32 (-n) else n) ≤ 255 ∧
              (if b = true then wrapI32 (-n) else n) ≥ 0) ∧
          ¬ ((if b = true then wrapI32 (-n) else n) < 0 ∧
              (if b = true then wrapI32 (-n) else n) ≥ -255) := by
        cases b
        · simp only [Bool.false_eq_true, if_false]; omega
        · simp only [if_true]
          exact wrapI32_neg_large n hlo (by have := hb rfl; omega)
      rw [if_neg hno.1, if_neg hno.2] at hMI
      simp only [emitLoadConstPool, List.mem_singleton] at hMI
      subst hMI
      simp [immediatesFit, BuildMI, MachineInstr.addConstantPoolIndex]
    cases h
    intro MI hMI
    simp only [List.mem_append, List.mem_singleton] at hMI
    rcases hMI with ((hS | hL) | hA) | hR
    · split at hS
      · simp only [List.mem_singleton] at hS; subst hS; exact immediatesFit_reg_reg _ _ _ _
      · simp at hS
    · refine hload _ _ MI hL ?_
      intro hb
      simp only [Bool.and_eq_true, decide_eq_true_eq] at hb
      exact hb.1.1
    · subst hA
      split
      · exact immediatesFit_reg_reg_reg _ _ _ _ _ _
      · exact immediatesFit_reg_reg_reg _ _ _ _ _ _
    · split at hR
      · simp only [List.mem_singleton] at hR; subst hR; exact immediatesFit_reg_reg _ _ _ _
      · simp at hR


theorem chunkParams_of_shape (n : Int) (c : RegPlusImmCase) (hc : CaseShape n c) :
    ChunkParams c.Opc c.Scale (((1 <<< c.NumBits) - 1) * c.Scale) c.isTwoAddr := by
  obtain ⟨_, h1 | h2 | h3⟩ := hc
  · obtain ⟨hb, hs, hO, _, ht, _⟩ := h1
    rw [hb, hs, ht]; exact Or.inl ⟨hO, rfl, by simp [Nat.shiftLeft_eq], rfl⟩
  · obtain ⟨hb, hs, hO, _, ht, _⟩ := h2
    rw [hb, hs, ht]; exact Or.inr (Or.inl ⟨hO, rfl, by simp [Nat.shiftLeft_eq], rfl⟩)
  · obtain ⟨hb, hs, hO, _, ht⟩ := h3
    rw [hb, hs, ht]; exact Or.inr (Or.inr ⟨hO, rfl, by simp [Nat.shiftLeft_eq], rfl⟩)

/-- Claim C4: for every `DestReg`, `BaseReg` and signed 32-bit `NumBytes`, every
instruction emitted by `emitThumbRegPlusImmediate` (on the direct path and on
the fallback) has each immediate operand inside the field of its opcode:
`0..127` for `tADDspi`/`tSUBspi`, `0..255` for `tADDrSPi`, `tADDi8`, `tSUBi8` and
`tMOVi8`, `0..7` for `tADDi3`/`tSUBi3`, and no immediate on any other opcode. -/
theorem emitThumbRegPlusImmediate_immediatesFit (DestReg BaseReg : Reg) (NumBytes : Int)
    (hlo : -2147483648 ≤ NumBytes) (hhi : NumBytes ≤ 2147483647) (L : List MachineInstr)
    (h : emitThumbRegPlusImmediate DestReg BaseReg NumBytes = Except.ok L) :
    ∀ MI ∈ L, immediatesFit MI = true := by
  unfold emitThumbRegPlusImmediate at h
  split at h
  · cases h
  · rename_i c hcl
    have hshape := classifyRegPlusImm_shape DestReg BaseReg NumBytes (by omega) (by omega) c hcl
    simp only [] at h
    by_cases hgt : calcNumMI c.Opc c.ExtraOpc c.Bytes c.NumBits c.Scale >
        (if DestReg = Reg.SP then 3 else 2)
    · rw [if_pos hgt] at h
      have hbig : 255 < NumBytes.natAbs := by
        apply calcNumMI_gt_two NumBytes c hshape (by omega)
        have : 2 ≤ (if DestReg = Reg.SP then 3 else 2) := by split <;> omega
        omega
      exact emitThumbRegPlusImmInReg_immediatesFit DestReg BaseReg NumBytes true hlo hhi hbig L h
    · rw [if_neg hgt] at h
      cases h
      intro MI hMI
      simp only [List.mem_append] at hMI
      rcases hMI with (hF | hC) | hE
      · split at hF
        · split at hF
          · simp only [List.mem_singleton] at hF
            subst hF
            have h7 : (1 <<< 3) - 1 = 7 := by decide
            rw [h7]
            by_cases hs : decide (NumBytes < 0) = true
            · rw [if_pos hs]
              exact immediatesFit_reg_imm _ _ _ _ _ 7 rfl (by omega) (by split <;> omega)
            · rw [if_neg hs]
              exact immediatesFit_reg_imm _ _ _ _ _ 7 rfl (by omega) (by split <;> omega)
          · simp only [List.mem_singleton] at hF
            subst hF
            exact immediatesFit_reg_reg _ _ _ _
        · simp at hF
      · exact emitChunksLoop_immediatesFit _ _ _ _ _ _ _ _ _
          (chunkParams_of_shape NumBytes c hshape) MI hC
      · obtain ⟨_, h1 | h2 | h3⟩ := hshape
        · rw [h1.2.2.2.1] at hE; simp at hE
        · rcases h2.2.2.2.1 with hx | hx
          · rw [hx] at hE; simp at hE
          · rw [hx] at hE
            simp only [List.mem_singleton] at hE
            subst hE
            rw [and_three]
            exact immediatesFit_reg_imm _ _ _ _ _ 7 rfl (by omega) (by omega)
        · rw [h3.2.2.2.1] at hE; simp at hE

theorem emitThumbRegPlusImmediate_immediatesFit_witness :
    ((-2147483648 : Int) ≤ 403 ∧ (403 : Int) ≤ 2147483647) ∧
    emitThumbRegPlusImmediate Reg.R4 Reg.SP 403 = Except.ok
      [((BuildMI Opcode.tADDrSPi Reg.R4).addReg Reg.SP false).addImm 100,
       ((BuildMI Opcode.tADDi3 Reg.R4).addReg Reg.R4 Kill).addImm 3] ∧
    ∀ MI ∈ [((BuildMI Opcode.tADDrSPi Reg.R4).addReg Reg.SP false).addImm 100,
            ((BuildMI Opcode.tADDi3 Reg.R4).addReg Reg.R4 Kill).addImm 3],
      immediatesFit MI = true :=
  ⟨by decide, rfl,
    emitThumbRegPlusImmediate_immediatesFit Reg.R4 Reg.SP 403 (by decide) (by decide) _ rfl⟩

/-! ## Materialisation: evaluation at concrete inputs -/

/-- Claim C1, evaluated on the code at `DestReg = BaseReg = R0`, `NumBytes = 1000`:
`calcNumMI` gives 4 instructions, above the threshold 2, so the fallback is
taken; it loads 1000 into `R0` itself, which is also the base, and then adds
`R0` to `R0`.  Whatever `R0` held before, it holds 2000 afterwards; with 5 in
`R0` the claimed value would be 1005.  On the direct path, at `DestReg = R0`,
`BaseReg = SP`, `NumBytes = 3`, the only instruction emitted adds 3 to `R0` and
never reads `SP`. -/
theorem emitThumbRegPlusImmediate_fallback_overwrites_base :
    emitThumbRegPlusImmediate Reg.R0 Reg.R0 1000 = Except.ok
      [(BuildMI Opcode.tLDRcp Reg.R0).addConstantPoolIndex 1000,
       ((BuildMI Opcode.tADDrr Reg.R0).addReg Reg.R0 false).addReg Reg.R0 Kill] ∧
    (∀ S : RegFile, valueAfter S
      [(BuildMI Opcode.tLDRcp Reg.R0).addConstantPoolIndex 1000,
       ((BuildMI Opcode.tADDrr Reg.R0).addReg Reg.R0 false).addReg Reg.R0 Kill]
      Reg.R0 = some 2000) ∧
    toU32 (((RegFile.const 5) Reg.R0 : Int) + 1000) = 1005 ∧
    emitThumbRegPlusImmediate Reg.R0 Reg.SP 3 = Except.ok
      [((BuildMI Opcode.tADDi3 Reg.R0).addReg Reg.R0 Kill).addImm 3] := by
  refine ⟨rfl, ?_, by decide, rfl⟩
  intro S
  simp [valueAfter, execSeq, execInstr, BuildMI, MachineInstr.addReg,
    MachineInstr.addConstantPoolIndex, RegFile.set, toU32]

/-- Claim C2, evaluated on the code at `DestReg = R0`, `Imm = -1000`: the emitted
sequence is `tMOVi8 R0, 255`, then the fallback of
`emitThumbRegPlusImmediate(R0, R0, 745)`, which loads 745 into `R0` and adds `R0`
to itself, then `tNEG`.  Executed from any state it leaves `-1490` (as a 32-bit
value, `2^32 - 1490`) in `R0`, not `-1000` (`2^32 - 1000`).  This is the call
`eliminateFrameIndex` makes for a `tADDrSPi` whose resolved offset from `SP` is
-1000. -/
theorem emitThumbConstant_minus_1000_leaves_minus_1490 :
    emitThumbConstant Reg.R0 (-1000) = Except.ok
      [(BuildMI Opcode.tMOVi8 Reg.R0).addImm 255,
       (BuildMI Opcode.tLDRcp Reg.R0).addConstantPoolIndex 745,
       ((BuildMI Opcode.tADDrr Reg.R0).addReg Reg.R0 false).addReg Reg.R0 Kill,
       (BuildMI Opcode.tNEG Reg.R0).addReg Reg.R0 Kill] ∧
    (∀ S : RegFile, valueAfter S
      [(BuildMI Opcode.tMOVi8 Reg.R0).addImm 255,
       (BuildMI Opcode.tLDRcp Reg.R0).addConstantPoolIndex 745,
       ((BuildMI Opcode.tADDrr Reg.R0).addReg Reg.R0 false).addReg Reg.R0 Kill,
       (BuildMI Opcode.tNEG Reg.R0).addReg Reg.R0 Kill]
      Reg.R0 = some (4294967296 - 1490)) ∧
    toU32 (-1000) = 4294967296 - 1000 ∧
    eliminateFrameIndex exampleTRI (exampleMF 16 (-1016))
      ⟨Opcode.tADDrSPi, [MachineOperand.Register Reg.R0 true false,
        MachineOperand.FrameIndex 2, MachineOperand.Immediate 0]⟩ 0 = Except.ok
      [(BuildMI Opcode.tMOVi8 Reg.R0).addImm 255,
       (BuildMI Opcode.tLDRcp Reg.R0).addConstantPoolIndex 745,
       ((BuildMI Opcode.tADDrr Reg.R0).addReg Reg.R0 false).addReg Reg.R0 Kill,
       (BuildMI Opcode.tNEG Reg.R0).addReg Reg.R0 Kill,
       ⟨Opcode.tADDhirr, [MachineOperand.Register Reg.R0 true false,
         MachineOperand.Register Reg.R0 false true,
         MachineOperand.Register Reg.SP false false]⟩] := by
  refine ⟨rfl, ?_, by decide, by rfl⟩
  intro S
  simp [valueAfter, execSeq, execInstr, BuildMI, MachineInstr.addReg, MachineInstr.addImm,
    MachineInstr.addConstantPoolIndex, RegFile.set, toU32]

/-- Claim C5, evaluated on the code at `DestReg = R0`, `BaseReg = SP`,
`NumBytes = -4`, `CanChangeCC = false`: no subtract is allowed, `NumBytes` stays
negative, and the branch for `-255 <= NumBytes < 0` emits `tMOVi8 R0, -4`
followed by `tNEG`: the `tMOVi8` immediate is -4, outside 0..255.  This is the
call `eliminateFrameIndex` makes for a `tRestore` whose resolved offset from `SP`
is -4. -/
theorem emitThumbRegPlusImmInReg_negative_tMOVi8_immediate :
    emitThumbRegPlusImmInReg Reg.R0 Reg.SP (-4) false = Except.ok
      [(BuildMI Opcode.tMOVi8 Reg.R0).addImm (-4),
       (BuildMI Opcode.tNEG Reg.R0).addReg Reg.R0 Kill,
       ((BuildMI Opcode.tADDhirr Reg.R0).addReg Reg.R0 false).addReg Reg.SP Kill] ∧
    immediatesFit ((BuildMI Opcode.tMOVi8 Reg.R0).addImm (-4)) = false ∧
    eliminateFrameIndex exampleTRI (exampleMF 0 (-4))
      ⟨Opcode.tRestore, [MachineOperand.Register Reg.R0 true false,
        MachineOperand.FrameIndex 2, MachineOperand.Immediate 0]⟩ 0 = Except.ok
      [(BuildMI Opcode.tMOVi8 Reg.R0).addImm (-4),
       (BuildMI Opcode.tNEG Reg.R0).addReg Reg.R0 Kill,
       ((BuildMI Opcode.tADDhirr Reg.R0).addReg Reg.R0 false).addReg Reg.SP Kill,
       ⟨Opcode.tLDR, [MachineOperand.Register Reg.R0 true false,
         MachineOperand.Register Reg.R0 false true, MachineOperand.Immediate 0,
         MachineOperand.Register Reg.NoReg false false]⟩] := by
  refine ⟨rfl, by decide, by rfl⟩

/-! ## Frame-index elimination leaves no frame index -/

theorem hasFI_build_reg (Opc : Opcode) (D R : Reg) (k : Bool) :
    ((BuildMI Opc D).addReg R k).hasFrameIndexOperand = false := by
  simp [MachineInstr.hasFrameIndexOperand, BuildMI, MachineInstr.addReg, MachineOperand.isFI]

theorem hasFI_build_reg_reg (Opc : Opcode) (D R : Reg) (k : Bool) (R' : Reg) (k' : Bool) :
    (((BuildMI Opc D).addReg R k).addReg R' k').hasFrameIndexOperand = false := by
  simp [MachineInstr.hasFrameIndexOperand, BuildMI, MachineInstr.addReg, MachineOperand.isFI]

theorem hasFI_build_reg_imm (Opc : Opcode) (D R : Reg) (k : Bool) (v : Int) :
    (((BuildMI Opc D).addReg R k).addImm v).hasFrameIndexOperand = false := by
  simp [MachineInstr.hasFrameIndexOperand, BuildMI, MachineInstr.addReg, MachineInstr.addImm,
    MachineOperand.isFI]

theorem hasFI_build_imm (Opc : Opcode) (D : Reg) (v : Int) :
    ((BuildMI Opc D).addImm v).hasFrameIndexOperand = false := by
  simp [MachineInstr.hasFrameIndexOperand, BuildMI, MachineInstr.addImm, MachineOperand.isFI]

theorem hasFI_build_cpi (Opc : Opcode) (D : Reg) (v : Int) :
    ((BuildMI Opc D).addConstantPoolIndex v).hasFrameIndexOperand = false := by
  simp [MachineInstr.hasFrameIndexOperand, BuildMI, MachineInstr.addConstantPoolIndex,
    MachineOperand.isFI]

theorem emitChunksLoop_noFI (DestReg : Reg) (isSub : Bool) (Fuel : Nat) :
    ∀ (Bytes : Nat) (BaseReg : Reg) (Opc : Opcode) (Scale Chunk : Nat) (isTwoAddr : Bool),
      ∀ MI ∈ emitChunksLoop DestReg isSub Fuel Bytes BaseReg Opc Scale Chunk isTwoAddr,
        MI.hasFrameIndexOperand = false := by
  induction Fuel with
  | zero => intro _ _ _ _ _ _ MI hMI; simp [emitChunksLoop] at hMI
  | succ F ih =>
    intro Bytes BaseReg Opc Scale Chunk isTwoAddr MI hMI
    simp only [emitChunksLoop] at hMI
    split at hMI
    · simp at hMI
    · split at hMI
      · rcases List.mem_cons.mp hMI with rfl | hrest
        · exact hasFI_build_reg_imm _ _ _ _ _
        · exact ih _ _ _ _ _ _ MI hrest
      · split at hMI
        · rcases List.mem_cons.mp hMI with rfl | hrest
          · exact hasFI_build_reg_imm _ _ _ _ _
          · exact ih _ _ _ _ _ _ MI hrest
        · rcases List.mem_cons.mp hMI with rfl | hrest
          · exact hasFI_build_reg_imm _ _ _ _ _
          · exact ih _ _ _ _ _ _ MI hrest

theorem emitLoadConstPool_noFI (DestReg : Reg) (Val : Int) :
    ∀ MI ∈ emitLoadConstPool DestReg Val, MI.hasFrameIndexOperand = false := by
  intro MI hMI
  simp only [emitLoadConstPool, List.mem_singleton] at hMI
  subst hMI
  exact hasFI_build_cpi _ _ _

theorem emitThumbRegPlusImmInReg_noFI (DestReg BaseReg : Reg) (n : Int) (CanChangeCC : Bool)
    (L : List MachineInstr)
    (h : emitThumbRegPlusImmInReg DestReg BaseReg n CanChangeCC = Except.ok L) :
    ∀ MI ∈ L, MI.hasFrameIndexOperand = false := by
  unfold emitThumbRegPlusImmInReg at h
  simp only [] at h
  by_cases hE : DestReg = Reg.SP ∧ BaseReg ≠ Reg.SP
  · rw [if_pos hE] at h; cases h
  · rw [if_neg hE] at h
    cases h
    intro MI hMI
    simp only [List.mem_append, List.mem_singleton] at hMI
    rcases hMI with ((hS | hL) | hA) | hR
    · split_ifs at hS <;> simp at hS
      subst hS; exact hasFI_build_reg _ _ _ _
    · split_ifs at hL <;> simp [emitLoadConstPool] at hL
      all_goals first
        | (subst hL
           first
             | exact hasFI_build_imm _ _ _
             | exact hasFI_build_cpi _ _ _)
        | (rcases hL with rfl | rfl
           · exact hasFI_build_imm _ _ _
           · exact hasFI_build_reg _ _ _ _)
    · subst hA
      split_ifs <;> exact hasFI_build_reg_reg _ _ _ _ _ _
    · split_ifs at hR <;> simp at hR
      subst hR; exact hasFI_build_reg _ _ _ _

theorem emitThumbRegPlusImmediate_noFI (DestReg BaseReg : Reg) (n : Int)
    (L : List MachineInstr) (h : emitThumbRegPlusImmediate DestReg BaseReg n = Except.ok L) :
    ∀ MI ∈ L, MI.hasFrameIndexOperand = false := by
  unfold emitThumbRegPlusImmediate at h
  split at h
  · cases h
  · rename_i c hcl
    simp only [] at h
    by_cases hgt : calcNumMI c.Opc c.ExtraOpc c.Bytes c.NumBits c.Scale >
        (if DestReg = Reg.SP then 3 else 2)
    · rw [if_pos hgt] at h
      exact emitThumbRegPlusImmInReg_noFI DestReg BaseReg n true L h
    · rw [if_neg hgt] at h
      cases h
      intro MI hMI
      simp only [List.mem_append] at hMI
      rcases hMI with (hF | hC) | hE
      · split at hF
        · split at hF
          · simp only [List.mem_singleton] at hF; subst hF; exact hasFI_build_reg_imm _ _ _ _ _
          · simp only [List.mem_singleton] at hF; subst hF; exact hasFI_build_reg _ _ _ _
        · simp at hF
      · exact emitChunksLoop_noFI _ _ _ _ _ _ _ _ _ MI hC
      · split at hE
        · simp only [List.mem_singleton] at hE; subst hE; exact hasFI_build_reg_imm _ _ _ _ _
        · simp at hE

theorem emitThumbConstant_noFI (DestReg : Reg) (Imm : Int) (L : List MachineInstr)
    (h : emitThumbConstant DestReg Imm = Except.ok L) :
    ∀ MI ∈ L, MI.hasFrameIndexOperand = false := by
  unfold emitThumbConstant at h
  simp only [] at h
  have hneg : ∀ MI ∈ (if decide (Imm < 0) = true then
      [(BuildMI Opcode.tNEG DestReg).addReg DestReg Kill] else []),
      MI.hasFrameIndexOperand = false := by
    intro MI hMI
    split_ifs at hMI <;> simp at hMI
    subst hMI; exact hasFI_build_reg _ _ _ _
  generalize hI : wrapI32 ((if decide (Imm < 0) = true then wrapI32 (-Imm) else Imm) -
      (if (if decide (Imm < 0) = true then wrapI32 (-Imm) else Imm) > ((1 <<< 8 : Nat) : Int) - 1
        then ((1 <<< 8 : Nat) : Int) - 1
        else (if decide (Imm < 0) = true then wrapI32 (-Imm) else Imm))) = I at h
  by_cases hpos : I > 0
  · rw [if_pos hpos] at h
    cases hR : emitThumbRegPlusImmediate DestReg DestReg I with
    | error e => rw [hR] at h; cases h
    | ok Rest =>
      rw [hR] at h
      cases h
      intro MI hMI
      simp only [List.cons_append, List.mem_cons, List.mem_append] at hMI
      rcases hMI with rfl | hR' | hN
      · exact hasFI_build_imm _ _ _
      · exact emitThumbRegPlusImmediate_noFI _ _ _ _ hR MI hR'
      · exact hneg MI hN
  · rw [if_neg hpos] at h
    cases h
    intro MI hMI
    rcases List.mem_cons.mp hMI with rfl | hN
    · exact hasFI_build_imm _ _ _
    · exact hneg MI hN

theorem materializeFrameAddress_noFI (b : Bool) (TmpReg FrameReg : Reg) (Offset : Int)
    (L : List MachineInstr) (UseRR : Bool)
    (h : materializeFrameAddress b TmpReg FrameReg Offset = Except.ok (L, UseRR)) :
    ∀ MI ∈ L, MI.hasFrameIndexOperand = false := by
  unfold materializeFrameAddress at h
  split at h
  · split at h
    · split at h
      · cases h
      · rename_i L' hL
        cases h
        exact emitThumbRegPlusImmInReg_noFI _ _ _ _ _ hL
    · cases h
      exact emitLoadConstPool_noFI _ _
  · split at h
    · cases h
    · rename_i L' hL
      cases h
      exact emitThumbRegPlusImmediate_noFI _ _ _ _ hL

theorem any_isFI_set (Ops : List MachineOperand) (j : Nat) (x : MachineOperand)
    (h : Ops.any MachineOperand.isFI = false) (hx : x.isFI = false) :
    (Ops.set j x).any MachineOperand.isFI = false := by
  induction Ops generalizing j with
  | nil => simp
  | cons Op Rest ih =>
    simp only [List.any_cons, Bool.or_eq_false_iff] at h
    cases j with
    | zero => simp [hx, h.2]
    | succ k => simp only [List.set_cons_succ, List.any_cons, h.1, ih k h.2, Bool.or_self]

theorem any_isFI_eraseIdx (Ops : List MachineOperand) (j : Nat)
    (h : Ops.any MachineOperand.isFI = false) :
    (Ops.eraseIdx j).any MachineOperand.isFI = false := by
  induction Ops generalizing j with
  | nil => simp
  | cons Op Rest ih =>
    simp only [List.any_cons, Bool.or_eq_false_iff] at h
    cases j with
    | zero => simpa using h.2
    | succ k => simp only [List.eraseIdx_cons_succ, List.any_cons, h.1, ih k h.2, Bool.or_self]

theorem countP_isFI_zero (Ops : List MachineOperand)
    (h : Ops.countP MachineOperand.isFI = 0) : Ops.any MachineOperand.isFI = false := by
  induction Ops with
  | nil => simp
  | cons Op Rest ih =>
    by_cases hOp : Op.isFI = true
    · rw [List.countP_cons_of_pos _ _ hOp] at h; omega
    · rw [List.countP_cons_of_neg _ _ hOp] at h
      simp only [List.any_cons, Bool.or_eq_false_iff]
      exact ⟨by simpa using hOp, ih h⟩

theorem any_isFI_set_found (Ops : List MachineOperand) (i : Nat) (x : MachineOperand)
    (hfind : findFrameIndexOperand Ops = some i)
    (hcount : Ops.countP MachineOperand.isFI = 1) (hx : x.isFI = false) :
    (Ops.set i x).any MachineOperand.isFI = false := by
  induction Ops generalizing i with
  | nil => simp [findFrameIndexOperand] at hfind
  | cons Op Rest ih =>
    by_cases hOp : Op.isFI = true
    · rw [List.countP_cons_of_pos _ _ hOp] at hcount
      have h0 : Rest.any MachineOperand.isFI = false := countP_isFI_zero Rest (by omega)
      simp only [findFrameIndexOperand, hOp, if_true, Option.some.injEq] at hfind
      subst hfind
      simp [hx, h0]
    · rw [List.countP_cons_of_neg _ _ hOp] at hcount
      simp only [findFrameIndexOperand, hOp] at hfind
      cases hR : findFrameIndexOperand Rest with
      | none => rw [hR] at hfind; simp at hfind
      | some k =>
        rw [hR] at hfind
        simp only [Bool.false_eq_true, if_false, Option.some.injEq] at hfind
        subst hfind
        simp only [List.set_cons_succ, List.any_cons, ih k hR hcount]
        simpa using hOp

theorem resolveFrameIndex_index (MF : MachineFunction) (MI : MachineInstr) (SPAdj : Int)
    (i : Nat) (FrameReg : Reg) (Offset : Int)
    (h : resolveFrameIndex MF MI SPAdj = Except.ok (i, FrameReg, Offset)) :
    findFrameIndexOperand MI.Operands = some i := by
  unfold resolveFrameIndex at h
  cases hf : findFrameIndexOperand MI.Operands with
  | none => rw [hf] at h; cases h
  | some j =>
    rw [hf] at h
    simp only [] at h
    cases hI : MI.getIndex j with
    | error e => rw [hI] at h; cases h
    | ok FI =>
      rw [hI] at h
      simp only [] at h
      split_ifs at h <;> cases h <;> rfl

theorem ops_set_set_any (Ops : List MachineOperand) (i : Nat) (x y : MachineOperand)
    (hfind : findFrameIndexOperand Ops = some i)
    (hcount : Ops.countP MachineOperand.isFI = 1) (hx : x.isFI = false) (hy : y.isFI = false) :
    ((Ops.set i x).set (i + 1) y).any MachineOperand.isFI = false :=
  any_isFI_set _ _ _ (any_isFI_set_found Ops i x hfind hcount hx) hy

theorem ops_set_set_any_comm (Ops : List MachineOperand) (i : Nat) (x y : MachineOperand)
    (hfind : findFrameIndexOperand Ops = some i)
    (hcount : Ops.countP MachineOperand.isFI = 1) (hx : x.isFI = false) (hy : y.isFI = false) :
    ((Ops.set (i + 1) y).set i x).any MachineOperand.isFI = false := by
  rw [List.set_comm _ _ _ (by omega)]
  exact ops_set_set_any Ops i x y hfind hcount hx hy

theorem eliminateFrameIndexADDrSPi_noFI (MI : MachineInstr) (i : Nat) (FrameReg : Reg)
    (Offset : Int) (L : List MachineInstr)
    (hfind : findFrameIndexOperand MI.Operands = some i)
    (hcount : MI.numFrameIndexOperands = 1)
    (h : eliminateFrameIndexADDrSPi MI i FrameReg Offset = Except.ok L) :
    ∀ M ∈ L, M.hasFrameIndexOperand = false := by
  unfold MachineInstr.numFrameIndexOperands at hcount
  unfold eliminateFrameIndexADDrSPi at h
  cases hImm : MI.getImm (i + 1) with
  | error e => rw [hImm] at h; cases h
  | ok Imm =>
    rw [hImm] at h
    simp only [] at h
    generalize hM : (if FrameReg ≠ Reg.SP then MI.setDesc Opcode.tADDi3 else MI) = M0 at h
    have hMops : M0.Operands = MI.Operands := by
      subst hM; split_ifs <;> rfl
    generalize (if FrameReg ≠ Reg.SP then 3 else 8) = NumBits at h
    generalize (if FrameReg ≠ Reg.SP then 1 else 4) = Scale at h
    generalize (if FrameReg ≠ Reg.SP then Opcode.tADDi3 else Opcode.tADDrSPi) = Opc at h
    generalize wrapI32 (Offset + Imm) = Off at h
    generalize (if Off > 0 then toU32 Off else toU32 (-Off)) = Bytes at h
    have hrw : ∀ (R : Reg) (d k : Bool) (y : MachineOperand), y.isFI = false →
        ((MI.Operands.set i (MachineOperand.Register R d k)).set (i + 1) y).any
          MachineOperand.isFI = false :=
      fun R d k y hy => ops_set_set_any _ i _ y hfind hcount rfl hy
    split at h
    · cases h
    · split at h
      · cases h
        intro M hM'
        simp only [List.mem_singleton] at hM'
        subst hM'
        simp only [MachineInstr.hasFrameIndexOperand, MachineInstr.RemoveOperand,
          MachineInstr.ChangeToRegister, MachineInstr.setDesc, hMops]
        exact any_isFI_eraseIdx _ _ (any_isFI_set_found _ i _ hfind hcount rfl)
      · split at h
        · cases h
          intro M hM'
          simp only [List.mem_singleton] at hM'
          subst hM'
          simp only [MachineInstr.hasFrameIndexOperand,
            MachineInstr.ChangeToRegister, MachineInstr.ChangeToImmediate, hMops]
          exact hrw _ _ _ _ rfl
        · split at h
          · cases h
          · rename_i DestReg hReg
            split at h
            · exact emitThumbRegPlusImmediate_noFI _ _ _ _ h
            · split at h
              · split at h
                · cases h
                · rename_i After hA
                  cases h
                  intro M hM'
                  rcases List.mem_cons.mp hM' with rfl | hrest
                  · simp only [MachineInstr.hasFrameIndexOperand,
                      MachineInstr.ChangeToRegister, MachineInstr.ChangeToImmediate, hMops]
                    exact hrw _ _ _ _ rfl
                  · exact emitThumbRegPlusImmediate_noFI _ _ _ _ hA M hrest
              · split at h
                · cases h
                · rename_i Before hB
                  cases h
                  intro M hM'
                  simp only [List.mem_append, List.mem_singleton] at hM'
                  rcases hM' with hb | rfl
                  · exact emitThumbConstant_noFI _ _ _ hB M hb
                  · simp only [MachineInstr.hasFrameIndexOperand,
                      MachineInstr.ChangeToRegister, MachineInstr.setDesc, hMops]
                    exact hrw _ _ _ _ rfl

theorem rewritten_reg_imm_noFI (MI : MachineInstr) (i : Nat) (R : Reg) (d k : Bool) (v : Int)
    (hfind : findFrameIndexOperand MI.Operands = some i)
    (hcount : MI.Operands.countP MachineOperand.isFI = 1) :
    ((MI.ChangeToRegister i R d k).ChangeToImmediate (i + 1) v).hasFrameIndexOperand = false :=
  ops_set_set_any MI.Operands i _ _ hfind hcount rfl rfl

theorem rewritten_mem_noFI (MI : MachineInstr) (i : Nat) (v : Int) (Opc : Opcode)
    (TmpReg R : Reg) (UseRR : Bool)
    (hfind : findFrameIndexOperand MI.Operands = some i)
    (hcount : MI.Operands.countP MachineOperand.isFI = 1) :
    (if UseRR = true then
        (((MI.ChangeToImmediate (i + 1) v).setDesc Opc).ChangeToRegister i TmpReg false
          true).addOperandCreateReg R
      else
        (((MI.ChangeToImmediate (i + 1) v).setDesc Opc).ChangeToRegister i TmpReg false
          true).addOperandCreateReg Reg.NoReg).hasFrameIndexOperand = false := by
  have hops := ops_set_set_any_comm MI.Operands i
    (MachineOperand.Register TmpReg false true) (MachineOperand.Immediate v) hfind hcount rfl rfl
  split_ifs <;>
    simp [MachineInstr.hasFrameIndexOperand, MachineInstr.addOperandCreateReg,
      MachineInstr.ChangeToRegister, MachineInstr.ChangeToImmediate, MachineInstr.setDesc,
      List.any_append, hops, MachineOperand.isFI]

theorem eliminateFrameIndexMem_noFI (TRI : Thumb2RegisterInfo) (MF : MachineFunction)
    (MI : MachineInstr) (i : Nat) (FrameReg : Reg)
    (Offset : Int) (L : List MachineInstr)
    (hfind : findFrameIndexOperand MI.Operands = some i)
    (hcount : MI.numFrameIndexOperands = 1)
    (h : eliminateFrameIndexMem TRI MF MI i FrameReg Offset = Except.ok L) :
    ∀ M ∈ L, M.hasFrameIndexOperand = false := by
  unfold MachineInstr.numFrameIndexOperands at hcount
  unfold eliminateFrameIndexMem at h
  simp only [] at h
  split at h
  · cases h
  · cases hImm : MI.getImm (i + 1) with
    | error e => rw [hImm] at h; cases h
    | ok Imm =>
      rw [hImm] at h
      simp only [] at h
      generalize (if FrameReg = Reg.SP then 8 else 5) = NumBits at h
      generalize wrapI32 (Offset + wrapI32 Imm * ((4 : Nat) : Int)) = Off at h
      generalize hSR : (MI.Opcode == Opcode.tRestore || MI.Opcode == Opcode.tSpill) = SR at h
      generalize hM : (if SR = true then MI.ChangeToImmediate (i + 1) 0
        else MI.ChangeToImmediate (i + 1)
          (toI32 (toU32 (toI32 (toU32 Off / 4)) &&& (1 <<< 5 - 1)))) = M1 at h
      generalize (if SR = true then Off
        else toI32 (toU32 Off &&& not32 ((1 <<< 5 - 1) * 4))) = Off1 at h
      have hM1 : ∃ v, M1 = MI.ChangeToImmediate (i + 1) v := by
        subst hM; split_ifs
        · exact ⟨_, rfl⟩
        · exact ⟨_, rfl⟩
      obtain ⟨v, rfl⟩ := hM1
      by_cases hA : (toU32 Off &&& (4 - 1)) ≠ 0
      · rw [if_pos hA] at h; cases h
      · rw [if_neg hA] at h
        by_cases hFit : toU32 Off ≤ (1 <<< NumBits - 1) * 4
        · rw [if_pos hFit] at h
          cases h
          intro M hM'
          have hMeq := List.eq_of_mem_singleton hM'
          subst hMeq
          exact rewritten_reg_imm_noFI MI i _ _ _ _ hfind hcount
        · rw [if_neg hFit] at h
          by_cases hZ : Off1 = 0
          · rw [if_pos hZ] at h; cases h
          · rw [if_neg hZ] at h
            cases hReg : (MI.ChangeToImmediate (i + 1) v).getReg 0 with
            | error e =>
              rw [hReg] at h
              simp only [] at h
              split_ifs at h
            | ok Rg =>
              rw [hReg] at h
              simp only [] at h
              by_cases hLd : (TRI.Desc MI.Opcode).mayLoad = true
              · rw [if_pos hLd] at h
                cases hB : materializeFrameAddress (MI.Opcode == Opcode.tRestore) Rg FrameReg
                    Off1 with
                | error e => rw [hB] at h; cases h
                | ok p =>
                  obtain ⟨Before, UseRR⟩ := p
                  rw [hB] at h
                  cases h
                  intro M hM'
                  rcases List.mem_append.mp hM' with hb | hm
                  · exact materializeFrameAddress_noFI _ _ _ _ _ _ hB M hb
                  · have hMeq := List.eq_of_mem_singleton hm
                    subst hMeq
                    exact rewritten_mem_noFI MI i v _ _ _ _ hfind hcount
              · rw [if_neg hLd] at h
                by_cases hSt : (TRI.Desc MI.Opcode).mayStore = true
                · rw [if_pos hSt] at h
                  cases hB : materializeFrameAddress (MI.Opcode == Opcode.tSpill)
                      (if Rg = Reg.R3 then Reg.R2 else Reg.R3) FrameReg Off1 with
                  | error e => rw [hB] at h; cases h
                  | ok p =>
                    obtain ⟨Before, UseRR⟩ := p
                    rw [hB] at h
                    cases h
                    intro M hM'
                    simp only [List.mem_append] at hM'
                    rcases hM' with ((((h1 | h2) | hb) | hm) | h3) | h4
                    · split_ifs at h1 <;> simp at h1
                      all_goals (subst h1; exact hasFI_build_reg _ _ _ _)
                    · split_ifs at h2 <;> simp at h2
                      all_goals (subst h2; exact hasFI_build_reg _ _ _ _)
                    · exact materializeFrameAddress_noFI _ _ _ _ _ _ hB M hb
                    · have hMeq := List.eq_of_mem_singleton hm
                      subst hMeq
                      exact rewritten_mem_noFI MI i v _ _ _ _ hfind hcount
                    · split_ifs at h3 <;> simp at h3
                      all_goals (subst h3; exact hasFI_build_reg _ _ _ _)
                    · split_ifs at h4 <;> simp at h4
                      all_goals (subst h4; exact hasFI_build_reg _ _ _ _)
                · rw [if_neg hSt] at h; cases h

/-- Claim C6: for every instruction with exactly one frame-index operand, every
function state and every `SPAdj`, whenever `eliminateFrameIndex` returns, none of
the instructions that then stand in the place of the original one (those
inserted before it, the rewritten instruction when it is kept, those inserted
after it) has a frame-index operand.  This covers `tADDrSPi` and the
`AddrModeT1_s` loads and stores; on any other instruction the call does not
return. -/
theorem eliminateFrameIndex_leaves_no_frame_index (TRI : Thumb2RegisterInfo)
    (MF : MachineFunction) (MI : MachineInstr) (SPAdj : Int) (L : List MachineInstr)
    (hcount : MI.numFrameIndexOperands = 1)
    (h : eliminateFrameIndex TRI MF MI SPAdj = Except.ok L) :
    ∀ M ∈ L, M.hasFrameIndexOperand = false := by
  unfold eliminateFrameIndex at h
  split at h
  · cases h
  · rename_i i FrameReg Offset hres
    have hfind := resolveFrameIndex_index MF MI SPAdj i FrameReg Offset hres
    split at h
    · exact eliminateFrameIndexADDrSPi_noFI MI i FrameReg Offset L hfind hcount h
    · exact eliminateFrameIndexMem_noFI TRI MF MI i FrameReg Offset L hfind hcount h

theorem eliminateFrameIndex_leaves_no_frame_index_witness :
    MachineInstr.numFrameIndexOperands
      ⟨Opcode.tSpill, [MachineOperand.Register Reg.R3 false false,
        MachineOperand.FrameIndex 2, MachineOperand.Immediate 0]⟩ = 1 ∧
    eliminateFrameIndex exampleTRI (exampleMF 2048 (-48))
      ⟨Opcode.tSpill, [MachineOperand.Register Reg.R3 false false,
        MachineOperand.FrameIndex 2, MachineOperand.Immediate 0]⟩ 0 = Except.ok
      [(BuildMI Opcode.tMOVlor2hir Reg.R12).addReg Reg.R2 Kill,
       (BuildMI Opcode.tLDRcp Reg.R2).addConstantPoolIndex 2000,
       ((BuildMI Opcode.tADDhirr Reg.R2).addReg Reg.R2 false).addReg Reg.SP Kill,
       ⟨Opcode.tSTR, [MachineOperand.Register Reg.R3 false false,
         MachineOperand.Register Reg.R2 false true, MachineOperand.Immediate 0,
         MachineOperand.Register Reg.NoReg false false]⟩,
       (BuildMI Opcode.tMOVhir2lor Reg.R2).addReg Reg.R12 Kill] ∧
    ∀ M ∈ [(BuildMI Opcode.tMOVlor2hir Reg.R12).addReg Reg.R2 Kill,
           (BuildMI Opcode.tLDRcp Reg.R2).addConstantPoolIndex 2000,
           ((BuildMI Opcode.tADDhirr Reg.R2).addReg Reg.R2 false).addReg Reg.SP Kill,
           ⟨Opcode.tSTR, [MachineOperand.Register Reg.R3 false false,
             MachineOperand.Register Reg.R2 false true, MachineOperand.Immediate 0,
             MachineOperand.Register Reg.NoReg false false]⟩,
           (BuildMI Opcode.tMOVhir2lor Reg.R2).addReg Reg.R12 Kill],
      M.hasFrameIndexOperand = false :=
  ⟨by decide, by rfl,
    eliminateFrameIndex_leaves_no_frame_index exampleTRI (exampleMF 2048 (-48))
      ⟨Opcode.tSpill, [MachineOperand.Register Reg.R3 false false,
        MachineOperand.FrameIndex 2, MachineOperand.Immediate 0]⟩ 0 _ (by decide) (by rfl)⟩

theorem emitPrologue_noFrame (TRI : Thumb2RegisterInfo) (MF : MachineFunction)
    (r : PrologueResult) (hF : MF.Info.HasStackFrame = false)
    (h : emitPrologue TRI MF = Except.ok r) :
    r.MF.FrameInfo.StackSize = roundedStackSize MF ∧
    r.MF.hasFP = MF.hasFP ∧
    r.MF.Info.VarArgsRegSaveSize = MF.Info.VarArgsRegSaveSize ∧
    r.MF.Info.HasStackFrame = false ∧
    r.VarArgsSPUpdate = negatedUpdate (u32 MF.Info.VarArgsRegSaveSize) ∧
    r.FrameSPUpdate = negatedUpdate (roundedStackSize MF) := by
  unfold emitPrologue at h
  simp only [] at h
  split at h
  · cases h
  · have hF' : (if MF.LiveIns.contains Reg.R3 = true then
        { MF.Info with R3IsLiveIn := true } else MF.Info).HasStackFrame = false := by
      split <;> exact hF
    rw [if_pos hF'] at h
    split at h
    · cases h
    · cases h
      refine ⟨rfl, rfl, ?_, hF', rfl, rfl⟩
      split <;> rfl

theorem classifyCalleeSaved_cases (TRI : Thumb2RegisterInfo) (S : SpillAreas)
    (CS : CalleeSavedInfo) :
    ClassifiedInto S (classifyCalleeSaved TRI S CS) CS.FrameIdx := by
  unfold classifyCalleeSaved ClassifiedInto
  simp only []
  split <;> (try split) <;>
    first
      | exact Or.inl ⟨rfl, rfl, rfl, rfl, rfl, rfl⟩
      | exact Or.inr (Or.inl ⟨rfl, rfl, rfl, rfl, rfl, rfl⟩)
      | exact Or.inr (Or.inr ⟨rfl, rfl, rfl, rfl, rfl, rfl⟩)

theorem classifyCalleeSaved_info (TRI : Thumb2RegisterInfo) (S : SpillAreas)
    (CS : CalleeSavedInfo) :
    (classifyCalleeSaved TRI S CS).AFI.VarArgsRegSaveSize = S.AFI.VarArgsRegSaveSize ∧
    (classifyCalleeSaved TRI S CS).AFI.HasStackFrame = S.AFI.HasStackFrame := by
  unfold classifyCalleeSaved
  simp only []
  split <;> (try split) <;> exact ⟨rfl, rfl⟩

theorem foldl_classifyCalleeSaved_info (TRI : Thumb2RegisterInfo)
    (CSI : List CalleeSavedInfo) (S : SpillAreas) :
    (CSI.foldl (classifyCalleeSaved TRI) S).AFI.VarArgsRegSaveSize = S.AFI.VarArgsRegSaveSize ∧
    (CSI.foldl (classifyCalleeSaved TRI) S).AFI.HasStackFrame = S.AFI.HasStackFrame := by
  induction CSI generalizing S with
  | nil => exact ⟨rfl, rfl⟩
  | cons CS Rest ih =>
    have h1 := classifyCalleeSaved_info TRI S CS
    have h2 := ih (classifyCalleeSaved TRI S CS)
    simp only [List.foldl_cons]
    exact ⟨h2.1.trans h1.1, h2.2.trans h1.2⟩

theorem liveInChecked_info (MF : MachineFunction) :
    (liveInChecked MF).VarArgsRegSaveSize = MF.Info.VarArgsRegSaveSize ∧
    (liveInChecked MF).HasStackFrame = MF.Info.HasStackFrame := by
  unfold liveInChecked
  split <;> exact ⟨rfl, rfl⟩

theorem emitPrologue_frame (TRI : Thumb2RegisterInfo) (MF : MachineFunction)
    (r : PrologueResult) (hF : MF.Info.HasStackFrame = true)
    (h : emitPrologue TRI MF = Except.ok r) :
    r.MF.FrameInfo.StackSize = roundedStackSize MF ∧
    r.MF.hasFP = MF.hasFP ∧
    r.MF.Info.VarArgsRegSaveSize = MF.Info.VarArgsRegSaveSize ∧
    r.MF.Info.HasStackFrame = true ∧
    r.MF.Info.GPRCalleeSavedArea1Size = (spillAreasOf TRI MF).GPRCS1Size ∧
    r.MF.Info.GPRCalleeSavedArea2Size = (spillAreasOf TRI MF).GPRCS2Size ∧
    r.MF.Info.DPRCalleeSavedAreaSize = (spillAreasOf TRI MF).DPRCSSize ∧
    r.MF.Info.DPRCalleeSavedAreaOffset = dprcsOffsetOf TRI MF ∧
    r.MF.Info.GPRCalleeSavedArea2Offset =
      u32 (dprcsOffsetOf TRI MF + (spillAreasOf TRI MF).DPRCSSize) ∧
    r.MF.Info.GPRCalleeSavedArea1Offset =
      u32 (u32 (dprcsOffsetOf TRI MF + (spillAreasOf TRI MF).DPRCSSize) +
        (spillAreasOf TRI MF).GPRCS2Size) ∧
    r.MF.Info.GPRCalleeSavedArea1Frames = (spillAreasOf TRI MF).AFI.GPRCalleeSavedArea1Frames ∧
    r.MF.Info.GPRCalleeSavedArea2Frames = (spillAreasOf TRI MF).AFI.GPRCalleeSavedArea2Frames ∧
    r.MF.Info.DPRCalleeSavedAreaFrames = (spillAreasOf TRI MF).AFI.DPRCalleeSavedAreaFrames ∧
    r.VarArgsSPUpdate = negatedUpdate (u32 MF.Info.VarArgsRegSaveSize) ∧
    r.FrameSPUpdate = negatedUpdate (dprcsOffsetOf TRI MF) := by
  have hinfo := foldl_classifyCalleeSaved_info TRI MF.FrameInfo.CalleeSavedInfo
    ⟨0, 0, 0, 0, liveInChecked MF⟩
  have hlive := liveInChecked_info MF
  unfold emitPrologue at h
  simp only [] at h
  split at h
  · cases h
  · have hF' : ¬ ((if MF.LiveIns.contains Reg.R3 = true then
        { MF.Info with R3IsLiveIn := true } else MF.Info).HasStackFrame = false) := by
      have := hlive.2
      unfold liveInChecked at this
      rw [this, hF]; decide
    rw [if_neg hF'] at h
    split at h
    · cases h
    · cases h
      refine ⟨?_, rfl, ?_, ?_, rfl, rfl, rfl, rfl, rfl, rfl, rfl, rfl, rfl, rfl, rfl⟩
      · split <;> rfl
      · exact hinfo.1.trans hlive.1
      · exact (hinfo.2.trans hlive.2).trans hF

theorem and_mask_eq (x : Nat) (hx : x < 4294967296) : x &&& 4294967292 = x - x % 4 := by
  have hm : (4294967292 : Nat) = 2 ^ 32 - (3 + 1) := by norm_num
  have h3 : (3 : Nat) = 2 ^ 2 - 1 := by norm_num
  have hr : x - x % 4 = 2 ^ 2 * (x / 4) := by omega
  apply Nat.eq_of_testBit_eq
  intro i
  rw [Nat.testBit_and, hm, Nat.testBit_two_pow_sub_succ (by norm_num), hr,
    Nat.testBit_mul_pow_two]
  conv_lhs => rw [h3, Nat.testBit_two_pow_sub_one]
  by_cases h2 : i < 2
  · have : ¬ i ≥ 2 := by omega
    simp [h2, this]
  · have hge : i ≥ 2 := by omega
    have hdiv : x / 4 = x >>> 2 := by rw [Nat.shiftRight_eq_div_pow]
    rw [hdiv, Nat.testBit_shiftRight]
    have hi : 2 + (i - 2) = i := by omega
    rw [hi]
    by_cases h32 : i < 32
    · simp [h2, hge, h32]
    · have hlt : x < 2 ^ i := by
        calc x < 2 ^ 32 := by norm_num; exact hx
          _ ≤ 2 ^ i := Nat.pow_le_pow_right (by norm_num) (by omega)
      simp [Nat.testBit_lt_two_pow hlt]

theorem roundedStackSize_eq (MF : MachineFunction) :
    roundedStackSize MF =
      (MF.FrameInfo.StackSize % 4294967296 + 3) % 4294967296 -
        (MF.FrameInfo.StackSize % 4294967296 + 3) % 4294967296 % 4 := by
  unfold roundedStackSize u32
  exact and_mask_eq _ (Nat.mod_lt _ (by norm_num))

theorem roundedStackSize_mod (MF : MachineFunction) :
    roundedStackSize MF % 4 = 0 ∧ roundedStackSize MF < 4294967296 := by
  rw [roundedStackSize_eq]
  omega

theorem wrapI32_range (x : Int) : -2147483648 ≤ wrapI32 x ∧ wrapI32 x ≤ 2147483647 := by
  unfold wrapI32 toI32 toU32
  split <;> omega

theorem wrapI32_mod4 (x : Int) (h : x % 4 = 0) : wrapI32 x % 4 = 0 := by
  unfold wrapI32 toI32 toU32
  split <;> omega

theorem toI32_range (n : Nat) : -2147483648 ≤ toI32 n ∧ toI32 n ≤ 2147483647 := by
  unfold toI32
  split <;> omega

theorem toI32_mod4 (n : Nat) (h : n % 4 = 0) : toI32 n % 4 = 0 := by
  unfold toI32
  split <;> omega

theorem emitThumbRegPlusImmInReg_sp_isOk (n : Int) (CanChangeCC : Bool) :
    ∃ L, emitThumbRegPlusImmInReg Reg.SP Reg.SP n CanChangeCC = Except.ok L :=
  ⟨_, rfl⟩

theorem emitSPUpdate_isOk (n : Int) (hlo : -2147483648 ≤ n) (hhi : n ≤ 2147483647)
    (h4 : n % 4 = 0) : ∃ L, emitSPUpdate n = Except.ok L := by
  have hm : n.natAbs % 4 = 0 := by omega
  unfold emitSPUpdate emitThumbRegPlusImmediate
  rw [classifyRegPlusImm_sp n (by omega) (by omega) hm]
  simp only []
  by_cases hgt : calcNumMI (if n < 0 then Opcode.tSUBspi else Opcode.tADDspi) none n.natAbs 7 4 >
      (if True then 3 else 2)
  · rw [if_pos hgt]
    exact emitThumbRegPlusImmInReg_sp_isOk n true
  · rw [if_neg hgt]
    exact ⟨_, rfl⟩

theorem emitSPUpdateIf_negatedUpdate_isOk (N : Nat) (h4 : N % 4 = 0) :
    ∃ L, emitSPUpdateIf (negatedUpdate N) = Except.ok L := by
  unfold negatedUpdate
  split
  · have hr := wrapI32_range (-(N : Int))
    exact emitSPUpdate_isOk _ hr.1 hr.2 (wrapI32_mod4 _ (by omega))
  · exact ⟨[], rfl⟩

theorem foldl_classifyCalleeSaved_sizes (TRI : Thumb2RegisterInfo)
    (CSI : List CalleeSavedInfo) (S : SpillAreas)
    (b1 : S.GPRCS1Size < 4294967296) (b2 : S.GPRCS2Size < 4294967296)
    (b3 : S.DPRCSSize < 4294967296) :
    ∃ n1 n2 nd : Nat,
      (CSI.foldl (classifyCalleeSaved TRI) S).GPRCS1Size = u32 (S.GPRCS1Size + 4 * n1) ∧
      (CSI.foldl (classifyCalleeSaved TRI) S).GPRCS2Size = u32 (S.GPRCS2Size + 4 * n2) ∧
      (CSI.foldl (classifyCalleeSaved TRI) S).DPRCSSize = u32 (S.DPRCSSize + 8 * nd) ∧
      (CSI.foldl (classifyCalleeSaved TRI) S).AFI.GPRCalleeSavedArea1Frames.length =
        S.AFI.GPRCalleeSavedArea1Frames.length + n1 ∧
      (CSI.foldl (classifyCalleeSaved TRI) S).AFI.GPRCalleeSavedArea2Frames.length =
        S.AFI.GPRCalleeSavedArea2Frames.length + n2 ∧
      (CSI.foldl (classifyCalleeSaved TRI) S).AFI.DPRCalleeSavedAreaFrames.length =
        S.AFI.DPRCalleeSavedAreaFrames.length + nd ∧
      n1 + n2 + nd = CSI.length := by
  induction CSI generalizing S with
  | nil =>
    refine ⟨0, 0, 0, ?_, ?_, ?_, rfl, rfl, rfl, rfl⟩
    all_goals (simp only [List.foldl_nil]; unfold u32; omega)
  | cons CS Rest ih =>
    have hu : ∀ x : Nat, u32 x < 4294967296 := fun x => Nat.mod_lt _ (by norm_num)
    rcases classifyCalleeSaved_cases TRI S CS with
      ⟨c1, c2, c3, c4, c5, c6⟩ | ⟨c1, c2, c3, c4, c5, c6⟩ | ⟨c1, c2, c3, c4, c5, c6⟩
    · obtain ⟨n1, n2, nd, h1, h2, h3, h4, h5, h6, h7⟩ := ih (classifyCalleeSaved TRI S CS)
        (by rw [c1]; exact hu _) (by rw [c2]; exact b2) (by rw [c3]; exact b3)
      simp only [List.foldl_cons, List.length_cons]
      refine ⟨n1 + 1, n2, nd, ?_, ?_, ?_, ?_, ?_, ?_, by omega⟩
      · rw [h1, c1]; unfold u32; omega
      · rw [h2, c2]
      · rw [h3, c3]
      · rw [h4, c4, List.length_append, List.length_singleton]; omega
      · rw [h5, c5]
      · rw [h6, c6]
    · obtain ⟨n1, n2, nd, h1, h2, h3, h4, h5, h6, h7⟩ := ih (classifyCalleeSaved TRI S CS)
        (by rw [c1]; exact b1) (by rw [c2]; exact hu _) (by rw [c3]; exact b3)
      simp only [List.foldl_cons, List.length_cons]
      refine ⟨n1, n2 + 1, nd, ?_, ?_, ?_, ?_, ?_, ?_, by omega⟩
      · rw [h1, c1]
      · rw [h2, c2]; unfold u32; omega
      · rw [h3, c3]
      · rw [h4, c4]
      · rw [h5, c5, List.length_append, List.length_singleton]; omega
      · rw [h6, c6]
    · obtain ⟨n1, n2, nd, h1, h2, h3, h4, h5, h6, h7⟩ := ih (classifyCalleeSaved TRI S CS)
        (by rw [c1]; exact b1) (by rw [c2]; exact b2) (by rw [c3]; exact hu _)
      simp only [List.foldl_cons, List.length_cons]
      refine ⟨n1, n2, nd + 1, ?_, ?_, ?_, ?_, ?_, ?_, by omega⟩
      · rw [h1, c1]
      · rw [h2, c2]
      · rw [h3, c3]; unfold u32; omega
      · rw [h4, c4]
      · rw [h5, c5]
      · rw [h6, c6, List.length_append, List.length_singleton]; omega

/-- The sizes recorded by `emitPrologue` in terms of the number of frame indices
added to each of the three areas. -/
theorem spillAreasOf_sizes (TRI : Thumb2RegisterInfo) (MF : MachineFunction) :
    (spillAreasOf TRI MF).GPRCS1Size =
      u32 (4 * ((spillAreasOf TRI MF).AFI.GPRCalleeSavedArea1Frames.length -
        MF.Info.GPRCalleeSavedArea1Frames.length)) ∧
    (spillAreasOf TRI MF).GPRCS2Size =
      u32 (4 * ((spillAreasOf TRI MF).AFI.GPRCalleeSavedArea2Frames.length -
        MF.Info.GPRCalleeSavedArea2Frames.length)) ∧
    (spillAreasOf TRI MF).DPRCSSize =
      u32 (8 * ((spillAreasOf TRI MF).AFI.DPRCalleeSavedAreaFrames.length -
        MF.Info.DPRCalleeSavedAreaFrames.length)) := by
  obtain ⟨n1, n2, nd, h1, h2, h3, h4, h5, h6, _⟩ :=
    foldl_classifyCalleeSaved_sizes TRI MF.FrameInfo.CalleeSavedInfo
      ⟨0, 0, 0, 0, liveInChecked MF⟩ (by norm_num) (by norm_num) (by norm_num)
  have hl : (liveInChecked MF).GPRCalleeSavedArea1Frames = MF.Info.GPRCalleeSavedArea1Frames ∧
      (liveInChecked MF).GPRCalleeSavedArea2Frames = MF.Info.GPRCalleeSavedArea2Frames ∧
      (liveInChecked MF).DPRCalleeSavedAreaFrames = MF.Info.DPRCalleeSavedAreaFrames := by
    unfold liveInChecked
    split <;> exact ⟨rfl, rfl, rfl⟩
  simp only [hl.1, hl.2.1, hl.2.2] at h4 h5 h6
  unfold spillAreasOf
  rw [h4, h5, h6, h1, h2, h3]
  simp only [Nat.zero_add, Nat.add_sub_cancel_left]
  exact ⟨trivial, trivial, trivial⟩

theorem spillAreasOf_bounds (TRI : Thumb2RegisterInfo) (MF : MachineFunction) :
    ((spillAreasOf TRI MF).GPRCS1Size < 4294967296 ∧ (spillAreasOf TRI MF).GPRCS1Size % 4 = 0) ∧
    ((spillAreasOf TRI MF).GPRCS2Size < 4294967296 ∧ (spillAreasOf TRI MF).GPRCS2Size % 4 = 0) ∧
    ((spillAreasOf TRI MF).DPRCSSize < 4294967296 ∧ (spillAreasOf TRI MF).DPRCSSize % 4 = 0) := by
  obtain ⟨h1, h2, h3⟩ := spillAreasOf_sizes TRI MF
  rw [h1, h2, h3]
  unfold u32
  omega

theorem dprcsOffsetOf_mod (TRI : Thumb2RegisterInfo) (MF : MachineFunction) :
    dprcsOffsetOf TRI MF % 4 = 0 ∧ dprcsOffsetOf TRI MF < 4294967296 := by
  obtain ⟨⟨_, m1⟩, ⟨_, m2⟩, ⟨_, m3⟩⟩ := spillAreasOf_bounds TRI MF
  obtain ⟨mN, _⟩ := roundedStackSize_mod MF
  unfold dprcsOffsetOf u32 toU32
  omega

theorem emitPrologue_isOk (TRI : Thumb2RegisterInfo) (MF : MachineFunction)
    (hVA : MF.Info.VarArgsRegSaveSize % 4 = 0) :
    ∃ r, emitPrologue TRI MF = Except.ok r := by
  have hVA' : u32 MF.Info.VarArgsRegSaveSize % 4 = 0 := by unfold u32; omega
  obtain ⟨L1, h1⟩ := emitSPUpdateIf_negatedUpdate_isOk _ hVA'
  obtain ⟨L2, h2⟩ := emitSPUpdateIf_negatedUpdate_isOk _ (roundedStackSize_mod MF).1
  obtain ⟨L3, h3⟩ := emitSPUpdateIf_negatedUpdate_isOk _ (dprcsOffsetOf_mod TRI MF).1
  unfold negatedUpdate at h1 h2 h3
  unfold dprcsOffsetOf spillAreasOf liveInChecked at h3
  unfold roundedStackSize at h2 h3
  unfold emitPrologue
  simp only []
  rw [h1]
  simp only []
  have hlive : (if MF.LiveIns.contains Reg.R3 = true then
      { MF.Info with R3IsLiveIn := true } else MF.Info).HasStackFrame =
      MF.Info.HasStackFrame := by
    split <;> rfl
  by_cases hF : MF.Info.HasStackFrame = false
  · rw [if_pos (hlive.trans hF), h2]
    exact ⟨_, rfl⟩
  · rw [if_neg (by rw [hlive]; exact hF), h3]
    exact ⟨_, rfl⟩

theorem emitEpilogue_updates (TRI : Thumb2RegisterInfo) (MF : MachineFunction)
    (MBB : List MachineInstr) (e : EpilogueResult) (hFP : MF.hasFP = false)
    (h : emitEpilogue TRI MF MBB = Except.ok e) :
    e.VarArgsSPUpdate =
      (if u32 MF.Info.VarArgsRegSaveSize ≠ 0 then some (toI32 (u32 MF.Info.VarArgsRegSaveSize))
       else none) ∧
    e.FrameSPUpdate =
      (if MF.Info.HasStackFrame = false then
        (if toI32 MF.FrameInfo.StackSize ≠ 0 then some (toI32 MF.FrameInfo.StackSize) else none)
       else
        some (toI32 (toU32 (toI32 MF.FrameInfo.StackSize -
          (u32 (u32 (MF.Info.GPRCalleeSavedArea1Size + MF.Info.GPRCalleeSavedArea2Size) +
            MF.Info.DPRCalleeSavedAreaSize) : Nat))))) := by
  unfold emitEpilogue at h
  simp only [hFP] at h
  by_cases hRet : ¬ (opcodeAt MBB (MBB.length - 1) = some Opcode.tBX_RET ∨
      opcodeAt MBB (MBB.length - 1) = some Opcode.tPOP_RET)
  · rw [if_pos hRet] at h; cases h
  · rw [if_neg hRet] at h
    by_cases hF : MF.Info.HasStackFrame = false
    · rw [if_pos hF] at h
      rw [if_pos hF]
      cases h1 : emitSPUpdateIf (if toI32 MF.FrameInfo.StackSize ≠ 0 then
          some (toI32 MF.FrameInfo.StackSize) else none) with
      | error e1 => rw [h1] at h; cases h
      | ok L1 =>
        rw [h1] at h
        simp only [] at h
        by_cases hVA : u32 MF.Info.VarArgsRegSaveSize ≠ 0
        · rw [if_pos hVA] at h
          rw [if_pos hVA]
          cases h2 : emitSPUpdate (toI32 (u32 MF.Info.VarArgsRegSaveSize)) with
          | error e2 => rw [h2] at h; cases h
          | ok L2 => rw [h2] at h; cases h; exact ⟨rfl, rfl⟩
        · rw [if_neg hVA] at h
          rw [if_neg hVA]
          cases h; exact ⟨rfl, rfl⟩
    · rw [if_neg hF] at h
      rw [if_neg hF]
      simp only [Bool.false_eq_true, if_false] at h
      cases h1 : emitSPUpdate (toI32 (toU32 (toI32 MF.FrameInfo.StackSize -
          (u32 (u32 (MF.Info.GPRCalleeSavedArea1Size + MF.Info.GPRCalleeSavedArea2Size) +
            MF.Info.DPRCalleeSavedAreaSize) : Nat)))) with
      | error e1 => rw [h1] at h; cases h
      | ok L1 =>
        rw [h1] at h
        simp only [] at h
        by_cases hVA : u32 MF.Info.VarArgsRegSaveSize ≠ 0
        · simp only [if_pos hVA] at h
          rw [if_pos hVA]
          cases h2 : emitSPUpdate (toI32 (u32 MF.Info.VarArgsRegSaveSize)) with
          | error e2 =>
            rw [h2] at h
            split_ifs at h
          | ok L2 =>
            rw [h2] at h
            split_ifs at h <;> cases h <;> exact ⟨rfl, rfl⟩
        · simp only [if_neg hVA] at h
          rw [if_neg hVA]
          split_ifs at h <;> cases h <;> exact ⟨rfl, rfl⟩

theorem decrementOf_negatedUpdate (N : Nat) (hN : N < 4294967296) :
    decrementOf (negatedUpdate N) = N := by
  unfold negatedUpdate
  split
  · unfold decrementOf wrapI32 toI32 toU32
    simp only []
    split <;> omega
  · have h0 : N = 0 := by omega
    subst h0
    rfl

/-- Claim C9: for every upstream frame size `s <= 2^32 - 4`, whatever the rest of
the function state (with or without a stack frame), the value `emitPrologue`
writes back with `setStackSize` is a multiple of 4, at least `s`, and no larger
than any other multiple of 4 that is at least `s`; and `emitPrologue` does
return whenever the variable-argument register save area is a multiple of 4. -/
theorem emitPrologue_stack_size_rounded (TRI : Thumb2RegisterInfo) (MF : MachineFunction)
    (hs : MF.FrameInfo.StackSize ≤ 4294967292) :
    (∀ r, emitPrologue TRI MF = Except.ok r →
      r.MF.FrameInfo.StackSize % 4 = 0 ∧
      MF.FrameInfo.StackSize ≤ r.MF.FrameInfo.StackSize ∧
      ∀ m : Nat, m % 4 = 0 → MF.FrameInfo.StackSize ≤ m → r.MF.FrameInfo.StackSize ≤ m) ∧
    (MF.Info.VarArgsRegSaveSize % 4 = 0 → ∃ r, emitPrologue TRI MF = Except.ok r) := by
  refine ⟨?_, emitPrologue_isOk TRI MF⟩
  intro r h
  have hsz : r.MF.FrameInfo.StackSize = roundedStackSize MF := by
    cases hF : MF.Info.HasStackFrame with
    | false => exact (emitPrologue_noFrame TRI MF r hF h).1
    | true => exact (emitPrologue_frame TRI MF r hF h).1
  rw [hsz, roundedStackSize_eq]
  refine ⟨by omega, by omega, ?_⟩
  intro m hm hle
  omega

theorem emitPrologue_stack_size_rounded_witness :
    (exampleFramedMF 22 [⟨Reg.R4, 0⟩, ⟨Reg.LR, 1⟩] 0).FrameInfo.StackSize ≤ 4294967292 ∧
    ((∀ r, emitPrologue exampleTRI (exampleFramedMF 22 [⟨Reg.R4, 0⟩, ⟨Reg.LR, 1⟩] 0) =
        Except.ok r →
      r.MF.FrameInfo.StackSize % 4 = 0 ∧
      (exampleFramedMF 22 [⟨Reg.R4, 0⟩, ⟨Reg.LR, 1⟩] 0).FrameInfo.StackSize ≤
        r.MF.FrameInfo.StackSize ∧
      ∀ m : Nat, m % 4 = 0 →
        (exampleFramedMF 22 [⟨Reg.R4, 0⟩, ⟨Reg.LR, 1⟩] 0).FrameInfo.StackSize ≤ m →
        r.MF.FrameInfo.StackSize ≤ m) ∧
    ((exampleFramedMF 22 [⟨Reg.R4, 0⟩, ⟨Reg.LR, 1⟩] 0).Info.VarArgsRegSaveSize % 4 = 0 →
      ∃ r, emitPrologue exampleTRI (exampleFramedMF 22 [⟨Reg.R4, 0⟩, ⟨Reg.LR, 1⟩] 0) =
        Except.ok r)) :=
  ⟨by decide, emitPrologue_stack_size_rounded exampleTRI
    (exampleFramedMF 22 [⟨Reg.R4, 0⟩, ⟨Reg.LR, 1⟩] 0) (by decide)⟩

/-- Claim C7 as stated fails: with a stack frame, frame size 0 and the single
callee-saved register `R4`, `emitPrologue` records `GPRCalleeSavedArea1Size = 4`
and, from `DPRCSOffset = 0 - 4 = 2^32 - 4`, calls `emitSPUpdate(4)`, a decrement of
`2^32 - 4` as a 32-bit amount; the sizes plus that decrement are `2^32`, while the
rounded frame size written back is 0. -/
theorem emitPrologue_region_accounting_counterexample :
    ∃ r, emitPrologue exampleTRI (exampleFramedMF 0 [⟨Reg.R4, 0⟩] 0) = Except.ok r ∧
      (exampleFramedMF 0 [⟨Reg.R4, 0⟩] 0).Info.HasStackFrame = true ∧
      r.FrameSPUpdate = some 4 ∧
      r.MF.FrameInfo.StackSize = 0 ∧
      r.MF.Info.GPRCalleeSavedArea1Size + r.MF.Info.GPRCalleeSavedArea2Size +
        r.MF.Info.DPRCalleeSavedAreaSize + decrementOf r.FrameSPUpdate = 4294967296 :=
  ⟨_, rfl, rfl, by decide, by decide, by decide⟩

/-- Claim C7, amended: for every function with a stack frame, after
`emitPrologue` the three recorded spill-region sizes plus the 32-bit amount of
the final stack-pointer decrement equal the rounded frame size modulo `2^32`,
and they equal it exactly whenever the three sizes total at most the rounded
frame size. -/
theorem emitPrologue_region_accounting (TRI : Thumb2RegisterInfo) (MF : MachineFunction)
    (r : PrologueResult) (hF : MF.Info.HasStackFrame = true)
    (h : emitPrologue TRI MF = Except.ok r) :
    (r.MF.Info.GPRCalleeSavedArea1Size + r.MF.Info.GPRCalleeSavedArea2Size +
        r.MF.Info.DPRCalleeSavedAreaSize + decrementOf r.FrameSPUpdate) % 4294967296 =
      r.MF.FrameInfo.StackSize ∧
    (r.MF.Info.GPRCalleeSavedArea1Size + r.MF.Info.GPRCalleeSavedArea2Size +
        r.MF.Info.DPRCalleeSavedAreaSize ≤ r.MF.FrameInfo.StackSize →
      r.MF.Info.GPRCalleeSavedArea1Size + r.MF.Info.GPRCalleeSavedArea2Size +
        r.MF.Info.DPRCalleeSavedAreaSize + decrementOf r.FrameSPUpdate =
      r.MF.FrameInfo.StackSize) := by
  obtain ⟨hN, _, _, _, h1, h2, h3, _, _, _, _, _, _, _, hU⟩ := emitPrologue_frame TRI MF r hF h
  obtain ⟨⟨b1, _⟩, ⟨b2, _⟩, ⟨b3, _⟩⟩ := spillAreasOf_bounds TRI MF
  obtain ⟨_, bN⟩ := roundedStackSize_mod MF
  rw [hN, h1, h2, h3, hU, decrementOf_negatedUpdate _ (dprcsOffsetOf_mod TRI MF).2]
  unfold dprcsOffsetOf u32 toU32
  constructor
  · omega
  · intro hle
    omega

theorem emitPrologue_region_accounting_witness :
    ∃ r, emitPrologue exampleTRI
        (exampleFramedMF 46 [⟨Reg.R4, 0⟩, ⟨Reg.LR, 1⟩, ⟨Reg.D 8, 2⟩] 0) = Except.ok r ∧
      (exampleFramedMF 46 [⟨Reg.R4, 0⟩, ⟨Reg.LR, 1⟩, ⟨Reg.D 8, 2⟩] 0).Info.HasStackFrame =
        true ∧
      r.FrameSPUpdate = some (-32) ∧
      ((r.MF.Info.GPRCalleeSavedArea1Size + r.MF.Info.GPRCalleeSavedArea2Size +
          r.MF.Info.DPRCalleeSavedAreaSize + decrementOf r.FrameSPUpdate) % 4294967296 =
        r.MF.FrameInfo.StackSize ∧
      (r.MF.Info.GPRCalleeSavedArea1Size + r.MF.Info.GPRCalleeSavedArea2Size +
          r.MF.Info.DPRCalleeSavedAreaSize ≤ r.MF.FrameInfo.StackSize →
        r.MF.Info.GPRCalleeSavedArea1Size + r.MF.Info.GPRCalleeSavedArea2Size +
          r.MF.Info.DPRCalleeSavedAreaSize + decrementOf r.FrameSPUpdate =
        r.MF.FrameInfo.StackSize)) :=
  ⟨_, rfl, rfl, by decide,
    emitPrologue_region_accounting exampleTRI
      (exampleFramedMF 46 [⟨Reg.R4, 0⟩, ⟨Reg.LR, 1⟩, ⟨Reg.D 8, 2⟩] 0) _ rfl rfl⟩

/-- Claim C8 as stated fails: with a stack frame, frame size 0 and the single
callee-saved register `R4`, the published offsets are all `2^32 - 4` and the
first general region has size 4, so `GPRCalleeSavedArea1Offset + GPRCS1Size` is
`2^32`, not the rounded frame size 0: the regions do not end at the top of the
frame. -/
theorem emitPrologue_region_layout_counterexample :
    ∃ r, emitPrologue exampleTRI (exampleFramedMF 0 [⟨Reg.R4, 0⟩] 0) = Except.ok r ∧
      (exampleFramedMF 0 [⟨Reg.R4, 0⟩] 0).Info.HasStackFrame = true ∧
      r.MF.Info.GPRCalleeSavedArea1Offset = 4294967292 ∧
      r.MF.Info.GPRCalleeSavedArea1Size = 4 ∧
      r.MF.FrameInfo.StackSize = 0 ∧
      r.MF.Info.GPRCalleeSavedArea1Offset + r.MF.Info.GPRCalleeSavedArea1Size ≠
        r.MF.FrameInfo.StackSize :=
  ⟨_, rfl, rfl, by decide, by decide, by decide, by decide⟩

/-- Claim C8, amended: for every function with a stack frame, writing `n1`, `n2`
and `nd` for the numbers of callee-saved registers that `emitPrologue` adds to
the first general, the second general and the wide region: modulo `2^32` the
three published regions are contiguous and end at the rounded frame size, and
the region sizes are `4 * n1`, `4 * n2` and `8 * nd`; whenever
`4 * n1 + 4 * n2 + 8 * nd` is at most the rounded frame size, all six equalities
hold exactly. -/
theorem emitPrologue_region_layout (TRI : Thumb2RegisterInfo) (MF : MachineFunction)
    (r : PrologueResult) (hF : MF.Info.HasStackFrame = true)
    (h : emitPrologue TRI MF = Except.ok r) :
    ((r.MF.Info.DPRCalleeSavedAreaOffset + r.MF.Info.DPRCalleeSavedAreaSize) % 4294967296 =
        r.MF.Info.GPRCalleeSavedArea2Offset ∧
      (r.MF.Info.GPRCalleeSavedArea2Offset + r.MF.Info.GPRCalleeSavedArea2Size) % 4294967296 =
        r.MF.Info.GPRCalleeSavedArea1Offset ∧
      (r.MF.Info.GPRCalleeSavedArea1Offset + r.MF.Info.GPRCalleeSavedArea1Size) % 4294967296 =
        r.MF.FrameInfo.StackSize ∧
      r.MF.Info.GPRCalleeSavedArea1Size =
        4 * (r.MF.Info.GPRCalleeSavedArea1Frames.length -
          MF.Info.GPRCalleeSavedArea1Frames.length) % 4294967296 ∧
      r.MF.Info.GPRCalleeSavedArea2Size =
        4 * (r.MF.Info.GPRCalleeSavedArea2Frames.length -
          MF.Info.GPRCalleeSavedArea2Frames.length) % 4294967296 ∧
      r.MF.Info.DPRCalleeSavedAreaSize =
        8 * (r.MF.Info.DPRCalleeSavedAreaFrames.length -
          MF.Info.DPRCalleeSavedAreaFrames.length) % 4294967296) ∧
    (4 * (r.MF.Info.GPRCalleeSavedArea1Frames.length -
          MF.Info.GPRCalleeSavedArea1Frames.length) +
        4 * (r.MF.Info.GPRCalleeSavedArea2Frames.length -
          MF.Info.GPRCalleeSavedArea2Frames.length) +
        8 * (r.MF.Info.DPRCalleeSavedAreaFrames.length -
          MF.Info.DPRCalleeSavedAreaFrames.length) ≤ r.MF.FrameInfo.StackSize →
      r.MF.Info.DPRCalleeSavedAreaOffset + r.MF.Info.DPRCalleeSavedAreaSize =
        r.MF.Info.GPRCalleeSavedArea2Offset ∧
      r.MF.Info.GPRCalleeSavedArea2Offset + r.MF.Info.GPRCalleeSavedArea2Size =
        r.MF.Info.GPRCalleeSavedArea1Offset ∧
      r.MF.Info.GPRCalleeSavedArea1Offset + r.MF.Info.GPRCalleeSavedArea1Size =
        r.MF.FrameInfo.StackSize ∧
      r.MF.Info.GPRCalleeSavedArea1Size =
        4 * (r.MF.Info.GPRCalleeSavedArea1Frames.length -
          MF.Info.GPRCalleeSavedArea1Frames.length) ∧
      r.MF.Info.GPRCalleeSavedArea2Size =
        4 * (r.MF.Info.GPRCalleeSavedArea2Frames.length -
          MF.Info.GPRCalleeSavedArea2Frames.length) ∧
      r.MF.Info.DPRCalleeSavedAreaSize =
        8 * (r.MF.Info.DPRCalleeSavedAreaFrames.length -
          MF.Info.DPRCalleeSavedAreaFrames.length)) := by
  obtain ⟨hN, _, _, _, h1, h2, h3, o3, o2, o1, f1, f2, f3, _, _⟩ :=
    emitPrologue_frame TRI MF r hF h
  obtain ⟨s1, s2, s3⟩ := spillAreasOf_sizes TRI MF
  obtain ⟨_, bN⟩ := roundedStackSize_mod MF
  rw [hN, h1, h2, h3, o3, o2, o1, f1, f2, f3]
  generalize (spillAreasOf TRI MF).AFI.GPRCalleeSavedArea1Frames.length -
    MF.Info.GPRCalleeSavedArea1Frames.length = n1 at s1 ⊢
  generalize (spillAreasOf TRI MF).AFI.GPRCalleeSavedArea2Frames.length -
    MF.Info.GPRCalleeSavedArea2Frames.length = n2 at s2 ⊢
  generalize (spillAreasOf TRI MF).AFI.DPRCalleeSavedAreaFrames.length -
    MF.Info.DPRCalleeSavedAreaFrames.length = nd at s3 ⊢
  unfold dprcsOffsetOf
  rw [s1, s2, s3]
  unfold u32 toU32
  constructor
  · omega
  · intro hle
    omega

theorem emitPrologue_region_layout_witness :
    ∃ r, emitPrologue exampleTRI
        (exampleFramedMF 46 [⟨Reg.R4, 0⟩, ⟨Reg.LR, 1⟩, ⟨Reg.D 8, 2⟩] 0) = Except.ok r ∧
      (exampleFramedMF 46 [⟨Reg.R4, 0⟩, ⟨Reg.LR, 1⟩, ⟨Reg.D 8, 2⟩] 0).Info.HasStackFrame =
        true ∧
      r.MF.Info.DPRCalleeSavedAreaOffset = 32 ∧
      r.MF.FrameInfo.StackSize = 48 ∧
      (r.MF.Info.DPRCalleeSavedAreaOffset + r.MF.Info.DPRCalleeSavedAreaSize =
          r.MF.Info.GPRCalleeSavedArea2Offset ∧
        r.MF.Info.GPRCalleeSavedArea2Offset + r.MF.Info.GPRCalleeSavedArea2Size =
          r.MF.Info.GPRCalleeSavedArea1Offset ∧
        r.MF.Info.GPRCalleeSavedArea1Offset + r.MF.Info.GPRCalleeSavedArea1Size =
          r.MF.FrameInfo.StackSize ∧
        r.MF.Info.GPRCalleeSavedArea1Size =
          4 * (r.MF.Info.GPRCalleeSavedArea1Frames.length -
            (exampleFramedMF 46 [⟨Reg.R4, 0⟩, ⟨Reg.LR, 1⟩,
              ⟨Reg.D 8, 2⟩] 0).Info.GPRCalleeSavedArea1Frames.length) ∧
        r.MF.Info.GPRCalleeSavedArea2Size =
          4 * (r.MF.Info.GPRCalleeSavedArea2Frames.length -
            (exampleFramedMF 46 [⟨Reg.R4, 0⟩, ⟨Reg.LR, 1⟩,
              ⟨Reg.D 8, 2⟩] 0).Info.GPRCalleeSavedArea2Frames.length) ∧
        r.MF.Info.DPRCalleeSavedAreaSize =
          8 * (r.MF.Info.DPRCalleeSavedAreaFrames.length -
            (exampleFramedMF 46 [⟨Reg.R4, 0⟩, ⟨Reg.LR, 1⟩,
              ⟨Reg.D 8, 2⟩] 0).Info.DPRCalleeSavedAreaFrames.length)) :=
  ⟨_, rfl, rfl, by decide, by decide,
    (emitPrologue_region_layout exampleTRI
      (exampleFramedMF 46 [⟨Reg.R4, 0⟩, ⟨Reg.LR, 1⟩, ⟨Reg.D 8, 2⟩] 0) _ rfl rfl).2
        (by decide)⟩

theorem incrementOf_toI32 (N : Nat) (hN : N < 4294967296) :
    incrementOf (some (toI32 N)) = N := by
  unfold incrementOf toI32 toU32
  simp only []
  split <;> omega

theorem optional_toI32 (N : Nat) (hN : N < 4294967296) :
    incrementOf (if toI32 N ≠ 0 then some (toI32 N) else none) = N ∧
    requestedUpdate (if toI32 N ≠ 0 then some (toI32 N) else none) = toI32 N := by
  split
  · exact ⟨incrementOf_toI32 N hN, rfl⟩
  · rename_i hz
    have h0 : N = 0 := by
      unfold toI32 at hz
      split at hz <;> omega
    subst h0
    exact ⟨rfl, rfl⟩

theorem optional_toI32_of_ne (N : Nat) (hN : N < 4294967296) :
    incrementOf (if N ≠ 0 then some (toI32 N) else none) = N ∧
    requestedUpdate (if N ≠ 0 then some (toI32 N) else none) = toI32 N := by
  split
  · exact ⟨incrementOf_toI32 N hN, rfl⟩
  · rename_i hz
    have h0 : N = 0 := by omega
    subst h0
    exact ⟨rfl, rfl⟩

theorem requestedUpdate_negatedUpdate (N : Nat) (hN : N < 4294967296)
    (hne : N ≠ 2147483648) : requestedUpdate (negatedUpdate N) = -toI32 N := by
  unfold negatedUpdate
  split
  · unfold requestedUpdate wrapI32 toI32 toU32
    simp only []
    split <;> split <;> omega
  · have h0 : N = 0 := by omega
    subst h0
    rfl

/-- The amounts behind the stack-pointer updates of a prologue and of the
epilogue that runs on the state the prologue left, without a frame pointer. -/
theorem prologue_epilogue_amounts (TRI : Thumb2RegisterInfo)
    (MF : MachineFunction) (MBB : List MachineInstr) (r : PrologueResult)
    (e : EpilogueResult) (hFP : MF.hasFP = false)
    (hp : emitPrologue TRI MF = Except.ok r)
    (he : emitEpilogue TRI r.MF MBB = Except.ok e) :
    ∃ V F : Nat, V < 4294967296 ∧ F < 4294967296 ∧
      r.VarArgsSPUpdate = negatedUpdate V ∧ r.FrameSPUpdate = negatedUpdate F ∧
      incrementOf e.VarArgsSPUpdate = V ∧ incrementOf e.FrameSPUpdate = F ∧
      requestedUpdate e.VarArgsSPUpdate = toI32 V ∧
      requestedUpdate e.FrameSPUpdate = toI32 F := by
  have hu : ∀ x : Nat, u32 x < 4294967296 := fun x => Nat.mod_lt _ (by norm_num)
  obtain ⟨zN, bN⟩ := roundedStackSize_mod MF
  cases hF : MF.Info.HasStackFrame with
  | false =>
    obtain ⟨hN, hfp, hva, hsf, hV, hU⟩ := emitPrologue_noFrame TRI MF r hF hp
    obtain ⟨eV, eF⟩ := emitEpilogue_updates TRI r.MF MBB e (hfp.trans hFP) he
    rw [hva] at eV
    rw [hN, if_pos hsf] at eF
    refine ⟨u32 MF.Info.VarArgsRegSaveSize, roundedStackSize MF, hu _, bN, hV, hU, ?_, ?_, ?_, ?_⟩
    · rw [eV]; exact (optional_toI32_of_ne _ (hu _)).1
    · rw [eF]; exact (optional_toI32 _ bN).1
    · rw [eV]; exact (optional_toI32_of_ne _ (hu _)).2
    · rw [eF]; exact (optional_toI32 _ bN).2
  | true =>
    obtain ⟨hN, hfp, hva, hsf, s1, s2, s3, _, _, _, _, _, _, hV, hU⟩ :=
      emitPrologue_frame TRI MF r hF hp
    obtain ⟨eV, eF⟩ := emitEpilogue_updates TRI r.MF MBB e (hfp.trans hFP) he
    obtain ⟨⟨b1, _⟩, ⟨b2, _⟩, ⟨b3, _⟩⟩ := spillAreasOf_bounds TRI MF
    have h1 : toU32 (toI32 (roundedStackSize MF) -
        (u32 (u32 ((spillAreasOf TRI MF).GPRCS1Size + (spillAreasOf TRI MF).GPRCS2Size) +
          (spillAreasOf TRI MF).DPRCSSize) : Nat)) = dprcsOffsetOf TRI MF := by
      unfold dprcsOffsetOf toI32 toU32 u32
      split <;> omega
    rw [hva] at eV
    rw [hN, s1, s2, s3, if_neg (by rw [hsf]; decide), h1] at eF
    refine ⟨u32 MF.Info.VarArgsRegSaveSize, dprcsOffsetOf TRI MF, hu _,
      (dprcsOffsetOf_mod TRI MF).2, hV, hU, ?_, ?_, ?_, ?_⟩
    · rw [eV]; exact (optional_toI32_of_ne _ (hu _)).1
    · rw [eF]; exact incrementOf_toI32 _ (dprcsOffsetOf_mod TRI MF).2
    · rw [eV]; exact (optional_toI32_of_ne _ (hu _)).2
    · rw [eF]; rfl

/-- Claim C10: for every function without a frame pointer, every frame size,
callee-saved list and `VarArgsRegSaveSize`, with or without a stack frame: when
`emitEpilogue` runs on the function state that `emitPrologue` left, the 32-bit
amounts by which its calls of `emitSPUpdate` raise the stack pointer sum to the
same total as the 32-bit amounts by which the calls made by `emitPrologue`
lowered it.  Moreover, unless one of the two amounts is exactly `2^31`, the
signed arguments the epilogue passes to `emitSPUpdate` sum to the negation of the
sum of those the prologue passed. -/
theorem emitEpilogue_undoes_prologue_updates (TRI : Thumb2RegisterInfo)
    (MF : MachineFunction) (MBB : List MachineInstr) (r : PrologueResult)
    (e : EpilogueResult) (hFP : MF.hasFP = false)
    (hp : emitPrologue TRI MF = Except.ok r)
    (he : emitEpilogue TRI r.MF MBB = Except.ok e) :
    incrementOf e.FrameSPUpdate + incrementOf e.VarArgsSPUpdate =
      decrementOf r.VarArgsSPUpdate + decrementOf r.FrameSPUpdate ∧
    (decrementOf r.VarArgsSPUpdate ≠ 2147483648 →
      decrementOf r.FrameSPUpdate ≠ 2147483648 →
      requestedUpdate e.FrameSPUpdate + requestedUpdate e.VarArgsSPUpdate =
        -(requestedUpdate r.VarArgsSPUpdate + requestedUpdate r.FrameSPUpdate)) := by
  obtain ⟨V, F, bV, bF, rV, rF, iV, iF, qV, qF⟩ :=
    prologue_epilogue_amounts TRI MF MBB r e hFP hp he
  rw [rV, rF, iV, iF, qV, qF, decrementOf_negatedUpdate V bV, decrementOf_negatedUpdate F bF]
  refine ⟨by omega, ?_⟩
  intro hV hF
  rw [requestedUpdate_negatedUpdate V bV hV, requestedUpdate_negatedUpdate F bF hF]
  omega

theorem emitEpilogue_undoes_prologue_updates_witness :
    ∃ r e, emitPrologue exampleTRI
        (exampleFramedMF 46 [⟨Reg.R4, 0⟩, ⟨Reg.LR, 1⟩, ⟨Reg.D 8, 2⟩] 16) = Except.ok r ∧
      emitEpilogue exampleTRI r.MF [⟨Opcode.tPOP, []⟩, ⟨Opcode.tBX_RET, []⟩] = Except.ok e ∧
      r.VarArgsSPUpdate = some (-16) ∧ r.FrameSPUpdate = some (-32) ∧
      e.FrameSPUpdate = some 32 ∧ e.VarArgsSPUpdate = some 16 ∧
      (incrementOf e.FrameSPUpdate + incrementOf e.VarArgsSPUpdate =
          decrementOf r.VarArgsSPUpdate + decrementOf r.FrameSPUpdate ∧
        (decrementOf r.VarArgsSPUpdate ≠ 2147483648 →
          decrementOf r.FrameSPUpdate ≠ 2147483648 →
          requestedUpdate e.FrameSPUpdate + requestedUpdate e.VarArgsSPUpdate =
            -(requestedUpdate r.VarArgsSPUpdate + requestedUpdate r.FrameSPUpdate))) :=
  ⟨_, _, rfl, rfl, by decide, by decide, by decide, by decide,
    emitEpilogue_undoes_prologue_updates exampleTRI
      (exampleFramedMF 46 [⟨Reg.R4, 0⟩, ⟨Reg.LR, 1⟩, ⟨Reg.D 8, 2⟩] 16)
      [⟨Opcode.tPOP, []⟩, ⟨Opcode.tBX_RET, []⟩] _ _ rfl rfl rfl⟩

/-! ## Reserved call frames -/

/-- Claim C12: for a function whose maximum call-frame size is a 32-bit
quantity, `hasReservedCallFrame` returns true if and only if that size is
strictly less than 510 and the function has no variable-sized objects; and two
function states that agree on these two values get the same answer. -/
theorem hasReservedCallFrame_iff (MF : MachineFunction)
    (hM : MF.FrameInfo.MaxCallFrameSize < 4294967296) :
    (hasReservedCallFrame MF = true ↔
      (MF.FrameInfo.MaxCallFrameSize < 510 ∧ MF.FrameInfo.HasVarSizedObjects = false)) ∧
    (∀ MF2 : MachineFunction,
      MF2.FrameInfo.MaxCallFrameSize = MF.FrameInfo.MaxCallFrameSize →
      MF2.FrameInfo.HasVarSizedObjects = MF.FrameInfo.HasVarSizedObjects →
      hasReservedCallFrame MF2 = hasReservedCallFrame MF) := by
  constructor
  · have hu : u32 MF.FrameInfo.MaxCallFrameSize = MF.FrameInfo.MaxCallFrameSize := by
      unfold u32; omega
    simp only [hasReservedCallFrame, hu, Nat.shiftLeft_eq]
    norm_num
  · intro MF2 h1 h2
    simp only [hasReservedCallFrame, h1, h2]

theorem hasReservedCallFrame_iff_witness :
    ((exampleCallMF 509 false).FrameInfo.MaxCallFrameSize < 4294967296) ∧
    hasReservedCallFrame (exampleCallMF 509 false) = true ∧
    hasReservedCallFrame (exampleCallMF 510 false) = false ∧
    hasReservedCallFrame (exampleCallMF 509 true) = false ∧
    ((hasReservedCallFrame (exampleCallMF 509 false) = true ↔
      ((exampleCallMF 509 false).FrameInfo.MaxCallFrameSize < 510 ∧
        (exampleCallMF 509 false).FrameInfo.HasVarSizedObjects = false)) ∧
    (∀ MF2 : MachineFunction,
      MF2.FrameInfo.MaxCallFrameSize = (exampleCallMF 509 false).FrameInfo.MaxCallFrameSize →
      MF2.FrameInfo.HasVarSizedObjects = (exampleCallMF 509 false).FrameInfo.HasVarSizedObjects →
      hasReservedCallFrame MF2 = hasReservedCallFrame (exampleCallMF 509 false))) :=
  ⟨by decide, by decide, by decide, by decide,
    hasReservedCallFrame_iff (exampleCallMF 509 false) (by decide)⟩

/-! ## Address of a stack slot: `DestReg = SP + n` -/

theorem classifyRegPlusImm_fromSP (DestReg : Reg) (hD : DestReg ≠ Reg.SP) (n : Int)
    (h0 : 0 ≤ n) (hhi : n < 4294967296) :
    classifyRegPlusImm DestReg Reg.SP n = Except.ok
      (if n.natAbs % 4 = 0 then ⟨n.natAbs, 8, 4, Opcode.tADDrSPi, none, false, false⟩
       else ⟨n.natAbs &&& 4294967292, 8, 4, Opcode.tADDrSPi, some Opcode.tADDi3,
         false, false⟩) := by
  have hn : ¬ n < 0 := by omega
  have hB : toU32 n = n.natAbs := toU32_of_nonneg n h0 hhi
  by_cases h4 : n.natAbs % 4 = 0
  · simp [classifyRegPlusImm, hD, hn, hB, and_three, h4]
  · simp [classifyRegPlusImm, hD, hn, hB, and_three, h4]

/-- Claim C15: for every offset `n` that is a multiple of 4 with `0 < n <= 1020`
and every destination register other than SP,
`emitThumbRegPlusImmediate(DestReg, SP, n)` emits exactly one instruction:
`tADDrSPi` with destination `DestReg`, base SP (not killed) and immediate
`n / 4`. -/
theorem emitThumbRegPlusImmediate_from_sp_aligned (DestReg : Reg) (n : Int)
    (hD : DestReg ≠ Reg.SP) (h4 : n % 4 = 0) (h0 : 0 < n) (hle : n ≤ 1020) :
    emitThumbRegPlusImmediate DestReg Reg.SP n = Except.ok
      [((BuildMI Opcode.tADDrSPi DestReg).addReg Reg.SP false).addImm (n / 4)] := by
  have hm : n.natAbs % 4 = 0 := by omega
  have hcalc : calcNumMI Opcode.tADDrSPi none n.natAbs 8 4 = 1 := by
    simp only [calcNumMI, u32, Nat.shiftLeft_eq, Option.isSome_none]
    norm_num
    have hz : n.natAbs - (if 1020 < n.natAbs then 1020 else n.natAbs) = 0 := by
      rw [if_neg (by omega)]; omega
    rw [hz]
    simp
  simp only [emitThumbRegPlusImmediate, classifyRegPlusImm_fromSP DestReg hD n (by omega) (by omega),
    if_pos hm, hcalc]
  rw [if_neg (by split <;> omega)]
  simp only [Bool.false_and, Nat.shiftLeft_eq]
  norm_num
  rw [emitChunks_tADDrSPi _ _ _ _ _ _ (by omega) (by decide), if_neg (by omega),
    Nat.sub_self, emitChunks_zero]
  have hi : ((n.natAbs / 4 : Nat) : Int) = n / 4 := by omega
  simp [getKillRegState, hi]

theorem emitThumbRegPlusImmediate_from_sp_aligned_witness :
    emitThumbRegPlusImmediate Reg.R4 Reg.SP 1000 = Except.ok
      [((BuildMI Opcode.tADDrSPi Reg.R4).addReg Reg.SP false).addImm 250] :=
  emitThumbRegPlusImmediate_from_sp_aligned Reg.R4 1000 (by decide) (by decide) (by decide)
    (by decide)

theorem ceil_div_step (B Chunk : Nat) (hC : 0 < Chunk) (hB : B ≠ 0) :
    (B - (if B > Chunk then Chunk else B) + (Chunk - 1)) / Chunk + 1 =
      (B + (Chunk - 1)) / Chunk := by
  by_cases h : B > Chunk
  · rw [if_pos h]
    have : B + (Chunk - 1) = (B - Chunk + (Chunk - 1)) + Chunk := by omega
    rw [this, Nat.add_div_right _ hC]
  · rw [if_neg h]
    have : B + (Chunk - 1) = (B - 1) + Chunk := by omega
    rw [this, Nat.add_div_right _ hC, Nat.sub_self, Nat.zero_add,
      Nat.div_eq_of_lt (by omega), Nat.div_eq_of_lt (by omega)]

/-- Number of iterations of the loop in two-address mode: `ceil(Bytes / Chunk)`. -/
theorem emitChunksLoop_length_twoAddr (DestReg : Reg) (isSub : Bool) (Chunk : Nat)
    (hC : 0 < Chunk) (Fuel : Nat) :
    ∀ (Bytes : Nat) (BaseReg : Reg) (Opc : Opcode) (Scale : Nat), Bytes ≤ Fuel →
      (emitChunksLoop DestReg isSub Fuel Bytes BaseReg Opc Scale Chunk true).length =
        (Bytes + (Chunk - 1)) / Chunk := by
  induction Fuel with
  | zero =>
    intro Bytes BaseReg Opc Scale hB
    have : Bytes = 0 := by omega
    subst this
    rw [emitChunksLoop_zero, Nat.zero_add, Nat.div_eq_of_lt (by omega)]
    rfl
  | succ F ih =>
    intro Bytes BaseReg Opc Scale hB
    by_cases h0 : Bytes = 0
    · subst h0
      rw [emitChunksLoop_zero, Nat.zero_add, Nat.div_eq_of_lt (by omega)]
      rfl
    · have hlt : Bytes - (if Bytes > Chunk then Chunk else Bytes) ≤ F := by
        split <;> omega
      simp only [emitChunksLoop]
      rw [if_neg h0, if_pos trivial, List.length_cons, ih _ BaseReg Opc Scale hlt]
      exact ceil_div_step Bytes Chunk hC h0

theorem emitChunks_length_twoAddr (DestReg : Reg) (isSub : Bool) (Bytes : Nat)
    (BaseReg : Reg) (Opc : Opcode) (Scale Chunk : Nat) (hC : 0 < Chunk) :
    (emitChunks DestReg isSub Bytes BaseReg Opc Scale Chunk true).length =
      (Bytes + (Chunk - 1)) / Chunk :=
  emitChunksLoop_length_twoAddr DestReg isSub Chunk hC Bytes Bytes BaseReg Opc Scale le_rfl

/-- Number of iterations of the loop that starts with `tADDrSPi`. -/
theorem emitChunks_length_tADDrSPi (DestReg : Reg) (isSub : Bool) (Bytes : Nat)
    (BaseReg : Reg) :
    (emitChunks DestReg isSub Bytes BaseReg Opcode.tADDrSPi 4 1020 false).length =
      if Bytes = 0 then 0
      else 1 + (Bytes - (if Bytes > 1020 then 1020 else Bytes) + 254) / 255 := by
  by_cases h0 : Bytes = 0
  · subst h0
    rw [emitChunks_zero]
    rfl
  · rw [if_neg h0, emitChunks_tADDrSPi _ _ _ _ _ _ h0 (by decide), List.length_cons,
      emitChunks_length_twoAddr _ _ _ _ _ _ _ (by decide)]
    omega

theorem calcNumMI_i8 (Opc : Opcode) (hOpc : Opc ≠ Opcode.tADDrSPi) (Bytes : Nat)
    (hB : Bytes < 4294967296) :
    calcNumMI Opc none Bytes 8 1 = (Bytes + 254) / 255 := by
  simp only [calcNumMI, u32, if_neg hOpc, Option.isSome_none, Nat.shiftLeft_eq]
  norm_num
  split <;> omega

theorem calcNumMI_tADDrSPi (ExtraOpc : Option Opcode) (Bytes : Nat)
    (hB : Bytes < 4294967296) :
    calcNumMI Opcode.tADDrSPi ExtraOpc Bytes 8 4 =
      1 + (Bytes - (if Bytes > 1020 then 1020 else Bytes) + 254) / 255 +
        (if ExtraOpc.isSome then 1 else 0) := by
  simp only [calcNumMI, u32, if_true, Nat.shiftLeft_eq]
  norm_num
  have hR : Bytes - (if 1020 < Bytes then 1020 else Bytes) < 4294967296 := by
    split <;> omega
  generalize (Bytes - (if 1020 < Bytes then 1020 else Bytes)) = R at *
  cases ExtraOpc <;> simp <;> split <;> omega
theorem classifyRegPlusImm_copy (DestReg BaseReg : Reg) (n : Int) (c : RegPlusImmCase)
    (h : classifyRegPlusImm DestReg BaseReg n = Except.ok c) (hc : c.DstNotEqBase = true) :
    DestReg ≠ BaseReg ∧ ¬ (0 ≤ n ∧ BaseReg = Reg.SP) := by
  unfold classifyRegPlusImm at h
  simp only [] at h
  by_cases h1 : DestReg = BaseReg ∧ BaseReg = Reg.SP
  · rw [if_pos h1] at h
    split_ifs at h <;> first | (cases h; done) | (cases h; cases hc)
  · rw [if_neg h1] at h
    by_cases h2 : decide (n < 0) = false ∧ BaseReg = Reg.SP
    · rw [if_pos h2] at h
      split_ifs at h <;> first | (cases h; done) | (cases h; cases hc)
    · rw [if_neg h2] at h
      cases h
      simp only [bne_iff_ne, ne_eq] at hc
      refine ⟨hc, ?_⟩
      intro h3
      apply h2
      refine ⟨?_, h3.2⟩
      simp only [decide_eq_false_iff_not]
      omega

theorem chunks_length_le (n : Int) (c : RegPlusImmCase) (hc : CaseShape n c)
    (hn : n.natAbs < 4294967296) (DestReg : Reg) (isSub : Bool) (Bytes : Nat) (BaseReg : Reg)
    (hB : Bytes ≤ c.Bytes) (hD : c.DstNotEqBase = false → Bytes = c.Bytes) :
    (emitChunks DestReg isSub Bytes BaseReg c.Opc c.Scale (((1 <<< c.NumBits) - 1) * c.Scale)
        c.isTwoAddr).length + (if c.ExtraOpc.isSome then 1 else 0) ≤
      calcNumMI c.Opc c.ExtraOpc c.Bytes c.NumBits c.Scale := by
  obtain ⟨hle, h1 | h2 | h3⟩ := hc
  · obtain ⟨hb, hs, hO, hE, hT, _⟩ := h1
    have hOpc : c.Opc ≠ Opcode.tADDrSPi := by rcases hO with h | h <;> rw [h] <;> decide
    rw [hb, hs, hE, hT, calcNumMI_sp _ hOpc _ (by omega),
      emitChunks_length_twoAddr _ _ _ _ _ _ _ (by decide)]
    simp only [Nat.shiftLeft_eq, Option.isSome_none]
    norm_num
    omega
  · obtain ⟨hb, hs, hO, hE, hT, hDst⟩ := h2
    rw [hD hDst, hb, hs, hO, hT, calcNumMI_tADDrSPi _ _ (by omega)]
    have h1020 : ((1 <<< 8) - 1) * 4 = 1020 := by decide
    rw [h1020, emitChunks_length_tADDrSPi]
    split <;> omega
  · obtain ⟨hb, hs, hO, hE, hT⟩ := h3
    have hOpc : c.Opc ≠ Opcode.tADDrSPi := by rcases hO with h | h <;> rw [h] <;> decide
    rw [hb, hs, hE, hT, calcNumMI_i8 _ hOpc _ (by omega),
      emitChunks_length_twoAddr _ _ _ _ _ _ _ (by decide)]
    simp only [Nat.shiftLeft_eq, Option.isSome_none]
    norm_num
    omega

/-- Claim C16 as stated fails: for `DestReg = R1`, `BaseReg = R0` and offset 300
`calcNumMI` is 2, which does not exceed the threshold 2, so the direct sequence
is kept; it has three instructions (`tADDi3 R1, R0, 7`, `tADDi8 R1, 255`,
`tADDi8 R1, 38`), one more than the threshold. -/
theorem emitThumbRegPlusImmediate_direct_length_counterexample :
    abandonsDirectSequence Reg.R1 Reg.R0 300 = false ∧
    emitThumbRegPlusImmediate Reg.R1 Reg.R0 300 = Except.ok
      [((BuildMI Opcode.tADDi3 Reg.R1).addReg Reg.R0 Kill).addImm 7,
       ((BuildMI Opcode.tADDi8 Reg.R1).addReg Reg.R1 false).addImm 255,
       ((BuildMI Opcode.tADDi8 Reg.R1).addReg Reg.R1 false).addImm 38] ∧
    ¬ (3 ≤ (if Reg.R1 = Reg.SP then 3 else 2)) :=
  ⟨by rfl, by rfl, by decide⟩

/-- Claim C16, amended: whenever `emitThumbRegPlusImmediate` keeps the direct
sequence (`calcNumMI` does not exceed the threshold), the number of
instructions it emits is at most the threshold (3 when `DestReg` is SP, 2
otherwise) plus one when the sequence starts with a copy of the base, that is
when `DestReg` differs from `BaseReg` on the third path (not an addition of a
non-negative offset to SP); without that copy it is at most the threshold. -/
theorem emitThumbRegPlusImmediate_direct_length (DestReg BaseReg : Reg) (NumBytes : Int)
    (hlo : -2147483648 ≤ NumBytes) (hhi : NumBytes ≤ 2147483647) (L : List MachineInstr)
    (h : emitThumbRegPlusImmediate DestReg BaseReg NumBytes = Except.ok L)
    (hd : abandonsDirectSequence DestReg BaseReg NumBytes = false) :
    L.length ≤ (if DestReg = Reg.SP then 3 else 2) +
      (if DestReg ≠ BaseReg ∧ ¬ (0 ≤ NumBytes ∧ BaseReg = Reg.SP) then 1 else 0) := by
  unfold emitThumbRegPlusImmediate at h
  unfold abandonsDirectSequence at hd
  split at h
  · cases h
  · rename_i c hcl
    rw [hcl] at hd
    simp only [decide_eq_false_iff_not] at hd
    have hshape := classifyRegPlusImm_shape DestReg BaseReg NumBytes (by omega) (by omega) c hcl
    simp only [] at h
    rw [if_neg hd] at h
    cases h
    simp only [List.length_append]
    have hcopy := classifyRegPlusImm_copy DestReg BaseReg NumBytes c hcl
    have hX := chunks_length_le NumBytes c hshape (by omega) DestReg (decide (NumBytes < 0))
      (if (c.DstNotEqBase && (isARMLowRegister DestReg && isARMLowRegister BaseReg)) = true then
        c.Bytes - (if c.Bytes > (1 <<< 3) - 1 then (1 <<< 3) - 1 else c.Bytes) else c.Bytes)
      (if c.DstNotEqBase = true then DestReg else BaseReg)
      (by split <;> omega) (by intro hf; rw [hf]; simp)
    have hExtra : (match c.ExtraOpc with
        | some ExtraOpc =>
          [((BuildMI ExtraOpc DestReg).addReg DestReg Kill).addImm
            (((toU32 NumBytes) &&& 3 : Nat) : Int)]
        | none => []).length = (if c.ExtraOpc.isSome then 1 else 0) := by
      cases c.ExtraOpc <;> rfl
    rw [hExtra]
    by_cases hDst : c.DstNotEqBase = true
    · rw [if_pos (hcopy hDst), if_pos hDst]
      have hFirst : ∀ (b : Bool) (x y : MachineInstr),
          (if b = true then [x] else [y]).length = 1 := by
        intro b x y; cases b <;> rfl
      rw [hFirst]
      omega
    · rw [if_neg hDst]
      simp only [List.length_nil]
      omega

theorem emitThumbRegPlusImmediate_direct_length_witness :
    ∃ L, emitThumbRegPlusImmediate Reg.R4 Reg.R7 (-263) = Except.ok L ∧
      abandonsDirectSequence Reg.R4 Reg.R7 (-263) = false ∧
      L.length = 3 ∧
      L.length ≤ (if Reg.R4 = Reg.SP then 3 else 2) +
        (if Reg.R4 ≠ Reg.R7 ∧ ¬ ((0 : Int) ≤ -263 ∧ Reg.R7 = Reg.SP) then 1 else 0) :=
  ⟨_, by rfl, by rfl, by rfl,
    emitThumbRegPlusImmediate_direct_length Reg.R4 Reg.R7 (-263) (by decide) (by decide) _
      (by rfl) (by rfl)⟩

/-! ## The stack-pointer updates of the prologue are multiples of 4 -/

theorem negatedUpdate_mod4 (N : Nat) (h4 : N % 4 = 0) :
    ∀ n, negatedUpdate N = some n → n % 4 = 0 := by
  intro n hn
  unfold negatedUpdate at hn
  split at hn
  · cases hn
    exact wrapI32_mod4 _ (by omega)
  · cases hn

/-- Claim C17: for every upstream frame size and every callee-saved register
list, the rounded frame size and `DPRCSOffset` are multiples of 4, the call of
`emitSPUpdate` that `emitPrologue` makes with either of them returns without
failing the assertion, the frame update of every run of `emitPrologue` is one
of these two calls with an argument that is a multiple of 4, and
`emitPrologue` returns whenever its earlier call for the variable-argument
save area does. -/
theorem emitPrologue_frame_update_multiple_of_4 (TRI : Thumb2RegisterInfo)
    (MF : MachineFunction) :
    roundedStackSize MF % 4 = 0 ∧ dprcsOffsetOf TRI MF % 4 = 0 ∧
    (∃ L, emitSPUpdateIf (negatedUpdate (roundedStackSize MF)) = Except.ok L) ∧
    (∃ L, emitSPUpdateIf (negatedUpdate (dprcsOffsetOf TRI MF)) = Except.ok L) ∧
    (∀ r, emitPrologue TRI MF = Except.ok r →
      r.FrameSPUpdate = negatedUpdate
        (if MF.Info.HasStackFrame = false then roundedStackSize MF else dprcsOffsetOf TRI MF) ∧
      ∀ n, r.FrameSPUpdate = some n → n % 4 = 0) ∧
    ((∃ L, emitSPUpdateIf (negatedUpdate (u32 MF.Info.VarArgsRegSaveSize)) = Except.ok L) →
      ∃ r, emitPrologue TRI MF = Except.ok r) := by
  have hN := (roundedStackSize_mod MF).1
  have hD := (dprcsOffsetOf_mod TRI MF).1
  refine ⟨hN, hD, emitSPUpdateIf_negatedUpdate_isOk _ hN,
    emitSPUpdateIf_negatedUpdate_isOk _ hD, ?_, ?_⟩
  · intro r hr
    by_cases hF : MF.Info.HasStackFrame = false
    · have hU := (emitPrologue_noFrame TRI MF r hF hr).2.2.2.2.2
      rw [if_pos hF, hU]
      exact ⟨rfl, negatedUpdate_mod4 _ hN⟩
    · have hF' : MF.Info.HasStackFrame = true := by
        cases h : MF.Info.HasStackFrame
        · exact absurd h hF
        · rfl
      have hU := (emitPrologue_frame TRI MF r hF' hr).2.2.2.2.2.2.2.2.2.2.2.2.2.2
      rw [if_neg hF, hU]
      exact ⟨rfl, negatedUpdate_mod4 _ hD⟩
  · rintro ⟨L1, h1⟩
    obtain ⟨L2, h2⟩ := emitSPUpdateIf_negatedUpdate_isOk _ hN
    obtain ⟨L3, h3⟩ := emitSPUpdateIf_negatedUpdate_isOk _ hD
    unfold negatedUpdate at h1 h2 h3
    unfold dprcsOffsetOf spillAreasOf liveInChecked at h3
    unfold roundedStackSize at h2 h3
    unfold emitPrologue
    simp only []
    rw [h1]
    simp only []
    have hlive : (if MF.LiveIns.contains Reg.R3 = true then
        { MF.Info with R3IsLiveIn := true } else MF.Info).HasStackFrame =
        MF.Info.HasStackFrame := by
      split <;> rfl
    by_cases hF : MF.Info.HasStackFrame = false
    · rw [if_pos (hlive.trans hF), h2]
      exact ⟨_, rfl⟩
    · rw [if_neg (by rw [hlive]; exact hF), h3]
      exact ⟨_, rfl⟩

/-! ## The fallback on the stack pointer with another base -/

/-- Claim C11, evaluated: in a function with a stack frame and a 16-byte
register save area for variable arguments, on the block `tRestore R4, <fi#0>`;
`tBX_RET` (`R4` callee-saved) `emitEpilogue` unwinds its iterator to the
restore, inserts the frame release and the sequence `tPOP R3`, `tADDspi 4`,
`tBX_RET_vararg R3` before it and erases the restore: the original `tBX_RET` is
still the last instruction of the block and the callee-saved restore is gone.
On the block `Other`; `tBX_RET`, where nothing is unwound, the return is
replaced and the block ends with the vararg sequence. -/
theorem emitEpilogue_vararg_erases_restore :
    (∃ r, emitEpilogue exampleTRI (exampleEpilogueMF 16)
        [⟨Opcode.tRestore, [MachineOperand.Register Reg.R4 true false,
            MachineOperand.FrameIndex 0, MachineOperand.Immediate 0]⟩,
          BuildMI0 Opcode.tBX_RET] = Except.ok r ∧
      r.MBB =
        [((BuildMI Opcode.tADDspi Reg.SP).addReg Reg.SP false).addImm 8,
         (BuildMI0 Opcode.tPOP).addReg Reg.R3 false,
         ((BuildMI Opcode.tADDspi Reg.SP).addReg Reg.SP false).addImm 4,
         (BuildMI0 Opcode.tBX_RET_vararg).addReg Reg.R3 false,
         BuildMI0 Opcode.tBX_RET] ∧
      r.MBB.getLast? = some (BuildMI0 Opcode.tBX_RET) ∧
      r.MBB.all (fun MI => decide (MI.Opcode ≠ Opcode.tRestore)) = true) ∧
    (∃ r, emitEpilogue exampleTRI (exampleEpilogueMF 16)
        [BuildMI0 (Opcode.Other 1), BuildMI0 Opcode.tBX_RET] = Except.ok r ∧
      r.MBB =
        [BuildMI0 (Opcode.Other 1),
         ((BuildMI Opcode.tADDspi Reg.SP).addReg Reg.SP false).addImm 8,
         (BuildMI0 Opcode.tPOP).addReg Reg.R3 false,
         ((BuildMI Opcode.tADDspi Reg.SP).addReg Reg.SP false).addImm 4,
         (BuildMI0 Opcode.tBX_RET_vararg).addReg Reg.R3 false]) :=
  ⟨⟨_, by rfl, by rfl, by rfl, by rfl⟩, ⟨_, by rfl, by rfl⟩⟩

/-! ## Lowering of call-frame pseudo instructions -/

theorem insertBefore_eraseIdx (MBB : List MachineInstr) (I : Nat) (Old : MachineInstr)
    (hOld : MBB.get? I = some Old) (Insts : List MachineInstr) :
    (insertBefore MBB I Insts).eraseIdx (I + Insts.length) =
      MBB.take I ++ Insts ++ MBB.drop (I + 1) := by
  have hI : I < MBB.length := by
    rw [List.get?_eq_some] at hOld
    exact hOld.1
  have hlen : (MBB.take I ++ Insts).length = I + Insts.length := by
    rw [List.length_append, List.length_take, Nat.min_eq_left (le_of_lt hI)]
  unfold insertBefore
  rw [List.eraseIdx_append_of_length_le (by omega), hlen, Nat.sub_self,
    List.drop_eq_getElem_cons hI]
  rfl

theorem emitThumbRegPlusImmInReg_ne_nil (DestReg BaseReg : Reg) (n : Int) (CanChangeCC : Bool)
    (L : List MachineInstr)
    (h : emitThumbRegPlusImmInReg DestReg BaseReg n CanChangeCC = Except.ok L) : L ≠ [] := by
  unfold emitThumbRegPlusImmInReg at h
  simp only [] at h
  split at h
  · cases h
  · cases h
    simp

theorem emitSPUpdate_ne_nil (n : Int) (hlo : -2147483648 ≤ n) (hhi : n ≤ 2147483647)
    (hn : n ≠ 0) (L : List MachineInstr) (h : emitSPUpdate n = Except.ok L) : L ≠ [] := by
  by_cases h4 : n.natAbs % 4 = 0
  · have hOpc : (if n < 0 then Opcode.tSUBspi else Opcode.tADDspi) ≠ Opcode.tADDrSPi := by
      split <;> decide
    simp only [emitSPUpdate, emitThumbRegPlusImmediate,
      classifyRegPlusImm_sp n (by omega) (by omega) h4,
      calcNumMI_sp _ hOpc _ (show n.natAbs < 4294967296 by omega)] at h
    rw [if_pos trivial] at h
    by_cases hgt : (n.natAbs + 507) / 508 > 3
    · rw [if_pos hgt] at h
      exact emitThumbRegPlusImmInReg_ne_nil _ _ _ _ L h
    · rw [if_neg hgt] at h
      cases h
      intro hnil
      have hl := congrArg List.length hnil
      simp only [List.length_append, List.length_nil, Bool.false_and] at hl
      rw [emitChunks_length_twoAddr _ _ _ _ _ _ _ (by decide)] at hl
      simp only [Nat.shiftLeft_eq] at hl
      norm_num at hl
      omega
  · have hB := bytes_eq_natAbs_prop n (by omega) (by omega)
    simp [emitSPUpdate, emitThumbRegPlusImmediate, classifyRegPlusImm, hB, and_three, h4] at h

/-- Rounding up to a multiple of the alignment: `(a + b - 1) / b * b` is the
least multiple of `b` that is at least `a`. -/
theorem roundUp_least (a b : Nat) (hb : 0 < b) :
    b ∣ (a + b - 1) / b * b ∧ a ≤ (a + b - 1) / b * b ∧ (a + b - 1) / b * b ≤ a + b - 1 ∧
    ∀ m, b ∣ m → a ≤ m → (a + b - 1) / b * b ≤ m := by
  have h1 := Nat.div_add_mod (a + b - 1) b
  have h2 := Nat.mod_lt (a + b - 1) hb
  have h3 : (a + b - 1) / b * b = b * ((a + b - 1) / b) := Nat.mul_comm _ _
  refine ⟨Dvd.intro_left _ rfl, by omega, by omega, ?_⟩
  rintro m ⟨k, rfl⟩ hk
  have hq : (a + b - 1) / b < k + 1 := by
    apply Nat.div_lt_of_lt_mul
    have : b * (k + 1) = b * k + b := Nat.mul_succ b k
    omega
  rw [Nat.mul_comm b k]
  exact Nat.mul_le_mul_right b (by omega)

/-- The decision of `eliminateCallFramePseudoInstr` when the call frame is not
reserved and the rounding of a non-zero amount does not overflow. -/
theorem callFrameSPUpdate_eq (TRI : Thumb2RegisterInfo) (MF : MachineFunction)
    (Old : MachineInstr) (Imm : Int) (hR : hasReservedCallFrame MF = false)
    (hImm : Old.getImm 0 = Except.ok Imm) (hA : toU32 Imm ≠ 0)
    (hAlign : 0 < TRI.StackAlignment)
    (hno : toU32 Imm + TRI.StackAlignment - 1 < 4294967296) :
    callFrameSPUpdate TRI MF Old =
      if Old.Opcode = Opcode.ADJCALLSTACKDOWN ∨ Old.Opcode = Opcode.tADJCALLSTACKDOWN then
        Except.ok (some (wrapI32
          (-(((toU32 Imm + TRI.StackAlignment - 1) / TRI.StackAlignment *
            TRI.StackAlignment : Nat) : Int))))
      else if Old.Opcode = Opcode.ADJCALLSTACKUP ∨ Old.Opcode = Opcode.tADJCALLSTACKUP then
        Except.ok (some (toI32
          ((toU32 Imm + TRI.StackAlignment - 1) / TRI.StackAlignment * TRI.StackAlignment)))
      else Except.error Abort.NotCallFramePseudo := by
  obtain ⟨_, _, hle, _⟩ := roundUp_least (toU32 Imm) TRI.StackAlignment hAlign
  have hu : u32 TRI.StackAlignment = TRI.StackAlignment := by unfold u32; omega
  have hs : toU32 ((toU32 Imm : Int) + (TRI.StackAlignment : Int) - 1) =
      toU32 Imm + TRI.StackAlignment - 1 := by
    generalize toU32 Imm = A at *
    unfold toU32
    omega
  have hr : u32 ((toU32 Imm + TRI.StackAlignment - 1) / TRI.StackAlignment *
      TRI.StackAlignment) =
      (toU32 Imm + TRI.StackAlignment - 1) / TRI.StackAlignment * TRI.StackAlignment := by
    unfold u32; omega
  unfold callFrameSPUpdate
  rw [if_pos hR, hImm]
  simp only []
  rw [if_pos hA, hu, if_neg (by omega), hs, hr]

theorem eliminateCallFramePseudoInstr_request (TRI : Thumb2RegisterInfo)
    (MF : MachineFunction) (MBB : List MachineInstr) (I : Nat) (Old : MachineInstr)
    (hOld : MBB.get? I = some Old) (r : CallFrameResult)
    (h : eliminateCallFramePseudoInstr TRI MF MBB I = Except.ok r) :
    callFrameSPUpdate TRI MF Old = Except.ok r.SPUpdate ∧
    ∃ Insts, emitSPUpdateIf r.SPUpdate = Except.ok Insts ∧
      r.MBB = MBB.take I ++ Insts ++ MBB.drop (I + 1) := by
  unfold eliminateCallFramePseudoInstr at h
  rw [hOld] at h
  simp only [] at h
  cases hC : callFrameSPUpdate TRI MF Old with
  | error e => rw [hC] at h; cases h
  | ok Req =>
    rw [hC] at h
    simp only [] at h
    cases hE : emitSPUpdateIf Req with
    | error e => rw [hE] at h; cases h
    | ok Insts =>
      rw [hE] at h
      cases h
      exact ⟨rfl, Insts, hE, insertBefore_eraseIdx MBB I Old hOld Insts⟩

/-- Claim C14: for every function without a reserved call frame, every
positive stack alignment and every non-zero `Amount` such that
`Amount + Align - 1` is below `2^32`, with `R` the least multiple of `Align`
that is at least `Amount`: for a call-stack-down marker
`eliminateCallFramePseudoInstr` calls `emitSPUpdate` with a decrement of `R`,
for a call-stack-up marker with an increment of `R` (as 32-bit amounts, and as
the signed values `-R` and `+R` whenever `R` is below `2^31`), so the two
requests of a down/up pair with the same `Amount` sum to zero. -/
theorem callFrameSPUpdate_down_up (TRI : Thumb2RegisterInfo) (MF : MachineFunction)
    (Down Up : MachineInstr) (Amount : Nat)
    (hR : hasReservedCallFrame MF = false)
    (hAlign : 0 < TRI.StackAlignment) (hA : Amount ≠ 0)
    (hno : Amount + TRI.StackAlignment - 1 < 4294967296)
    (hDown : Down.Opcode = Opcode.ADJCALLSTACKDOWN ∨ Down.Opcode = Opcode.tADJCALLSTACKDOWN)
    (hUp : Up.Opcode = Opcode.ADJCALLSTACKUP ∨ Up.Opcode = Opcode.tADJCALLSTACKUP)
    (hDI : Down.getImm 0 = Except.ok (Amount : Int))
    (hUI : Up.getImm 0 = Except.ok (Amount : Int)) :
    ∃ R : Nat, R = (Amount + TRI.StackAlignment - 1) / TRI.StackAlignment * TRI.StackAlignment ∧
      TRI.StackAlignment ∣ R ∧ Amount ≤ R ∧
      (∀ m, TRI.StackAlignment ∣ m → Amount ≤ m → R ≤ m) ∧
      ∃ d u : Int,
        callFrameSPUpdate TRI MF Down = Except.ok (some d) ∧
        callFrameSPUpdate TRI MF Up = Except.ok (some u) ∧
        (∀ MBB I r, MBB.get? I = some Down →
          eliminateCallFramePseudoInstr TRI MF MBB I = Except.ok r → r.SPUpdate = some d) ∧
        (∀ MBB I r, MBB.get? I = some Up →
          eliminateCallFramePseudoInstr TRI MF MBB I = Except.ok r → r.SPUpdate = some u) ∧
        decrementOf (some d) = R ∧ incrementOf (some u) = R ∧ wrapI32 (d + u) = 0 ∧
        (R < 2147483648 → d = -(R : Int) ∧ u = (R : Int) ∧ d + u = 0) := by
  have hT : toU32 (Amount : Int) = Amount := by unfold toU32; omega
  obtain ⟨hdvd, hge, hle, hleast⟩ := roundUp_least Amount TRI.StackAlignment hAlign
  have hUpNot : ¬ (Up.Opcode = Opcode.ADJCALLSTACKDOWN ∨ Up.Opcode = Opcode.tADJCALLSTACKDOWN) := by
    rcases hUp with h | h <;> rw [h] <;> decide
  have hd := callFrameSPUpdate_eq TRI MF Down Amount hR hDI (by rw [hT]; exact hA) hAlign
    (by rw [hT]; exact hno)
  have hu := callFrameSPUpdate_eq TRI MF Up Amount hR hUI (by rw [hT]; exact hA) hAlign
    (by rw [hT]; exact hno)
  rw [hT, if_pos hDown] at hd
  rw [hT, if_neg hUpNot, if_pos hUp] at hu
  refine ⟨_, rfl, hdvd, hge, hleast, _, _, hd, hu, ?_, ?_, ?_, ?_, ?_, ?_⟩
  · intro MBB I r hOld h
    have h1 := (eliminateCallFramePseudoInstr_request TRI MF MBB I Down hOld r h).1
    rw [hd] at h1
    exact (Except.ok.inj h1).symm
  · intro MBB I r hOld h
    have h1 := (eliminateCallFramePseudoInstr_request TRI MF MBB I Up hOld r h).1
    rw [hu] at h1
    exact (Except.ok.inj h1).symm
  · generalize (Amount + TRI.StackAlignment - 1) / TRI.StackAlignment * TRI.StackAlignment = R
      at *
    unfold decrementOf wrapI32 toI32 toU32
    simp only []
    split <;> omega
  · exact incrementOf_toI32 _ (by omega)
  · generalize (Amount + TRI.StackAlignment - 1) / TRI.StackAlignment * TRI.StackAlignment = R
      at *
    unfold wrapI32 toI32 toU32
    split_ifs <;> omega
  · generalize (Amount + TRI.StackAlignment - 1) / TRI.StackAlignment * TRI.StackAlignment = R
      at *
    intro hlt
    unfold wrapI32 toI32 toU32
    split_ifs <;> omega

theorem callFrameSPUpdate_down_up_witness :
    hasReservedCallFrame (exampleCallMF 600 false) = false ∧
    callFrameSPUpdate exampleTRI (exampleCallMF 600 false)
      ⟨Opcode.ADJCALLSTACKDOWN, [MachineOperand.Immediate 10]⟩ = Except.ok (some (-12)) ∧
    callFrameSPUpdate exampleTRI (exampleCallMF 600 false)
      ⟨Opcode.tADJCALLSTACKUP, [MachineOperand.Immediate 10]⟩ = Except.ok (some 12) ∧
    ∃ R : Nat, R = (10 + exampleTRI.StackAlignment - 1) / exampleTRI.StackAlignment *
        exampleTRI.StackAlignment ∧
      exampleTRI.StackAlignment ∣ R ∧ 10 ≤ R ∧
      (∀ m, exampleTRI.StackAlignment ∣ m → 10 ≤ m → R ≤ m) ∧
      ∃ d u : Int,
        callFrameSPUpdate exampleTRI (exampleCallMF 600 false)
          ⟨Opcode.ADJCALLSTACKDOWN, [MachineOperand.Immediate 10]⟩ = Except.ok (some d) ∧
        callFrameSPUpdate exampleTRI (exampleCallMF 600 false)
          ⟨Opcode.tADJCALLSTACKUP, [MachineOperand.Immediate 10]⟩ = Except.ok (some u) ∧
        (∀ MBB I r, MBB.get? I = some ⟨Opcode.ADJCALLSTACKDOWN, [MachineOperand.Immediate 10]⟩ →
          eliminateCallFramePseudoInstr exampleTRI (exampleCallMF 600 false) MBB I =
            Except.ok r → r.SPUpdate = some d) ∧
        (∀ MBB I r, MBB.get? I = some ⟨Opcode.tADJCALLSTACKUP, [MachineOperand.Immediate 10]⟩ →
          eliminateCallFramePseudoInstr exampleTRI (exampleCallMF 600 false) MBB I =
            Except.ok r → r.SPUpdate = some u) ∧
        decrementOf (some d) = R ∧ incrementOf (some u) = R ∧ wrapI32 (d + u) = 0 ∧
        (R < 2147483648 → d = -(R : Int) ∧ u = (R : Int) ∧ d + u = 0) :=
  ⟨by rfl, by rfl, by rfl,
    callFrameSPUpdate_down_up exampleTRI (exampleCallMF 600 false)
      ⟨Opcode.ADJCALLSTACKDOWN, [MachineOperand.Immediate 10]⟩
      ⟨Opcode.tADJCALLSTACKUP, [MachineOperand.Immediate 10]⟩ 10
      (by rfl) (by decide) (by decide) (by decide) (by decide) (by decide) (by rfl) (by rfl)⟩

theorem callFrameSPUpdate_isOk (TRI : Thumb2RegisterInfo) (MF : MachineFunction)
    (Old : MachineInstr) (Imm : Int)
    (hOpc : Old.Opcode = Opcode.ADJCALLSTACKDOWN ∨ Old.Opcode = Opcode.tADJCALLSTACKDOWN ∨
      Old.Opcode = Opcode.ADJCALLSTACKUP ∨ Old.Opcode = Opcode.tADJCALLSTACKUP)
    (hImm : Old.getImm 0 = Except.ok Imm) (h4 : TRI.StackAlignment % 4 = 0)
    (hpos : u32 TRI.StackAlignment ≠ 0) :
    ∃ Req, callFrameSPUpdate TRI MF Old = Except.ok Req ∧
      ∀ x, Req = some x → x % 4 = 0 ∧ -2147483648 ≤ x ∧ x ≤ 2147483647 := by
  unfold callFrameSPUpdate
  by_cases hR : hasReservedCallFrame MF = false
  · rw [if_pos hR, hImm]
    simp only []
    by_cases hA : toU32 Imm ≠ 0
    · rw [if_pos hA, if_neg hpos]
      have hdvd : 4 ∣ u32 TRI.StackAlignment := by
        unfold u32; omega
      have hm : u32 (toU32 ((toU32 Imm : Int) + (u32 TRI.StackAlignment : Int) - 1) /
          u32 TRI.StackAlignment * u32 TRI.StackAlignment) % 4 = 0 := by
        have h1 : 4 ∣ toU32 ((toU32 Imm : Int) + (u32 TRI.StackAlignment : Int) - 1) /
            u32 TRI.StackAlignment * u32 TRI.StackAlignment := Dvd.dvd.mul_left hdvd _
        generalize toU32 ((toU32 Imm : Int) + (u32 TRI.StackAlignment : Int) - 1) /
            u32 TRI.StackAlignment * u32 TRI.StackAlignment = R at *
        unfold u32; omega
      generalize u32 (toU32 ((toU32 Imm : Int) + (u32 TRI.StackAlignment : Int) - 1) /
          u32 TRI.StackAlignment * u32 TRI.StackAlignment) = R at *
      by_cases hD : Old.Opcode = Opcode.ADJCALLSTACKDOWN ∨ Old.Opcode = Opcode.tADJCALLSTACKDOWN
      · rw [if_pos hD]
        refine ⟨_, rfl, ?_⟩
        intro x hx
        cases hx
        exact ⟨wrapI32_mod4 _ (by omega), wrapI32_range _⟩
      · have hU : Old.Opcode = Opcode.ADJCALLSTACKUP ∨ Old.Opcode = Opcode.tADJCALLSTACKUP := by
          rcases hOpc with h | h | h | h
          · exact absurd (Or.inl h) hD
          · exact absurd (Or.inr h) hD
          · exact Or.inl h
          · exact Or.inr h
        rw [if_neg hD, if_pos hU]
        refine ⟨_, rfl, ?_⟩
        intro x hx
        cases hx
        exact ⟨toI32_mod4 _ hm, toI32_range _⟩
    · rw [if_neg hA]
      exact ⟨_, rfl, by intro x hx; cases hx⟩
  · rw [if_neg hR]
    exact ⟨_, rfl, by intro x hx; cases hx⟩

/-- Claim C13 as stated fails: in a function without a reserved call frame, a
call-stack-down marker whose size operand is `2^32 - 1` is erased and no
instruction is inserted, although the amount is not 0: with alignment 4 the
unsigned rounding `(Amount + 3) / 4 * 4` wraps to 0 and `emitSPUpdate(0)` emits
nothing. -/
theorem eliminateCallFramePseudoInstr_erases_pseudo_counterexample :
    hasReservedCallFrame (exampleCallMF 600 false) = false ∧
    (⟨Opcode.ADJCALLSTACKDOWN, [MachineOperand.Immediate 4294967295]⟩ : MachineInstr).getImm 0 =
      Except.ok 4294967295 ∧
    toU32 4294967295 ≠ 0 ∧
    ∃ r, eliminateCallFramePseudoInstr exampleTRI (exampleCallMF 600 false)
        [BuildMI0 (Opcode.Other 1),
         ⟨Opcode.ADJCALLSTACKDOWN, [MachineOperand.Immediate 4294967295]⟩,
         BuildMI0 (Opcode.Other 2)] 1 = Except.ok r ∧
      r.SPUpdate = some 0 ∧
      r.MBB = [BuildMI0 (Opcode.Other 1), BuildMI0 (Opcode.Other 2)] :=
  ⟨by rfl, by rfl, by decide, _, by rfl, by rfl, by rfl⟩

/-- Claim C13, amended: for every call-frame pseudo instruction with size
operand `Amount`, whenever `eliminateCallFramePseudoInstr` returns (it does
when the stack alignment is a positive 32-bit multiple of 4) the pseudo
instruction is erased, every other instruction of the block is unchanged, and
the instructions inserted in its place are those of its call of
`emitSPUpdate`; none is inserted when the function has a reserved call frame
or `Amount` is 0, and at least one is inserted when the call frame is not
reserved, `Amount` is not 0, the alignment is positive and
`Amount + Align - 1` is below `2^32`.  With an alignment of 0, no reserved call
frame and a non-zero `Amount` the call does not return: the rounding divides
by zero. -/
theorem eliminateCallFramePseudoInstr_erases_pseudo (TRI : Thumb2RegisterInfo)
    (MF : MachineFunction) (MBB : List MachineInstr) (I : Nat) (Old : MachineInstr)
    (Imm : Int) (hOld : MBB.get? I = some Old)
    (hOpc : Old.Opcode = Opcode.ADJCALLSTACKDOWN ∨ Old.Opcode = Opcode.tADJCALLSTACKDOWN ∨
      Old.Opcode = Opcode.ADJCALLSTACKUP ∨ Old.Opcode = Opcode.tADJCALLSTACKUP)
    (hImm : Old.getImm 0 = Except.ok Imm) :
    (∀ r, eliminateCallFramePseudoInstr TRI MF MBB I = Except.ok r →
      ∃ Insts, emitSPUpdateIf r.SPUpdate = Except.ok Insts ∧
        r.MBB = MBB.take I ++ Insts ++ MBB.drop (I + 1) ∧
        ((hasReservedCallFrame MF = true ∨ toU32 Imm = 0) → Insts = []) ∧
        (hasReservedCallFrame MF = false → toU32 Imm ≠ 0 → 0 < TRI.StackAlignment →
          toU32 Imm + TRI.StackAlignment - 1 < 4294967296 → Insts ≠ [])) ∧
    (0 < TRI.StackAlignment → TRI.StackAlignment < 4294967296 →
      TRI.StackAlignment % 4 = 0 →
      ∃ r, eliminateCallFramePseudoInstr TRI MF MBB I = Except.ok r) ∧
    (hasReservedCallFrame MF = false → toU32 Imm ≠ 0 → u32 TRI.StackAlignment = 0 →
      eliminateCallFramePseudoInstr TRI MF MBB I = Except.error Abort.DivisionByZero) := by
  refine ⟨?_, ?_, ?_⟩
  · intro r h
    obtain ⟨hC, Insts, hE, hB⟩ := eliminateCallFramePseudoInstr_request TRI MF MBB I Old hOld r h
    refine ⟨Insts, hE, hB, ?_, ?_⟩
    · intro hcase
      have hnone : r.SPUpdate = none := by
        unfold callFrameSPUpdate at hC
        rcases hcase with hR | hZ
        · rw [if_neg (by rw [hR]; decide)] at hC
          exact (Except.ok.inj hC).symm
        · by_cases hR : hasReservedCallFrame MF = false
          · rw [if_pos hR, hImm] at hC
            simp only [] at hC
            rw [if_neg (by rw [hZ]; decide)] at hC
            exact (Except.ok.inj hC).symm
          · rw [if_neg hR] at hC
            exact (Except.ok.inj hC).symm
      rw [hnone] at hE
      exact (Except.ok.inj hE).symm
    · intro hR hA hAlign hno
      obtain ⟨_, hge, hle, _⟩ := roundUp_least (toU32 Imm) TRI.StackAlignment hAlign
      rw [callFrameSPUpdate_eq TRI MF Old Imm hR hImm hA hAlign hno] at hC
      generalize (toU32 Imm + TRI.StackAlignment - 1) / TRI.StackAlignment *
        TRI.StackAlignment = R at *
      have hpos : 0 < toU32 Imm := Nat.pos_of_ne_zero hA
      split_ifs at hC
      · have hS := (Except.ok.inj hC).symm
        rw [hS] at hE
        refine emitSPUpdate_ne_nil _ (wrapI32_range _).1 (wrapI32_range _).2 ?_ Insts hE
        unfold wrapI32 toI32 toU32
        split_ifs <;> omega
      · have hS := (Except.ok.inj hC).symm
        rw [hS] at hE
        refine emitSPUpdate_ne_nil _ (toI32_range _).1 (toI32_range _).2 ?_ Insts hE
        unfold toI32
        split_ifs <;> omega
  · intro hpos hlt h4
    have hu : u32 TRI.StackAlignment ≠ 0 := by unfold u32; omega
    obtain ⟨Req, hC, hReq⟩ := callFrameSPUpdate_isOk TRI MF Old Imm hOpc hImm h4 hu
    have hE : ∃ Insts, emitSPUpdateIf Req = Except.ok Insts := by
      cases Req with
      | none => exact ⟨[], rfl⟩
      | some x =>
        obtain ⟨hx4, hxlo, hxhi⟩ := hReq x rfl
        exact emitSPUpdate_isOk x hxlo hxhi hx4
    obtain ⟨Insts, hE⟩ := hE
    unfold eliminateCallFramePseudoInstr
    rw [hOld]
    simp only []
    rw [hC]
    simp only []
    rw [hE]
    exact ⟨_, rfl⟩
  · intro hR hA hZ
    have hC : callFrameSPUpdate TRI MF Old = Except.error Abort.DivisionByZero := by
      unfold callFrameSPUpdate
      rw [if_pos hR, hImm]
      simp only []
      rw [if_pos hA, if_pos hZ]
    unfold eliminateCallFramePseudoInstr
    rw [hOld]
    simp only []
    rw [hC]

theorem eliminateCallFramePseudoInstr_erases_pseudo_witness :
    ∃ r, eliminateCallFramePseudoInstr exampleTRI (exampleCallMF 600 false)
        [BuildMI0 (Opcode.Other 1),
         ⟨Opcode.tADJCALLSTACKUP, [MachineOperand.Immediate 10]⟩,
         BuildMI0 (Opcode.Other 2)] 1 = Except.ok r ∧
      r.MBB = [BuildMI0 (Opcode.Other 1),
         ((BuildMI Opcode.tADDspi Reg.SP).addReg Reg.SP false).addImm 3,
         BuildMI0 (Opcode.Other 2)] ∧
      ((∀ r, eliminateCallFramePseudoInstr exampleTRI (exampleCallMF 600 false)
          [BuildMI0 (Opcode.Other 1),
           ⟨Opcode.tADJCALLSTACKUP, [MachineOperand.Immediate 10]⟩,
           BuildMI0 (Opcode.Other 2)] 1 = Except.ok r →
        ∃ Insts, emitSPUpdateIf r.SPUpdate = Except.ok Insts ∧
          r.MBB = [BuildMI0 (Opcode.Other 1),
             ⟨Opcode.tADJCALLSTACKUP, [MachineOperand.Immediate 10]⟩,
             BuildMI0 (Opcode.Other 2)].take 1 ++ Insts ++
            [BuildMI0 (Opcode.Other 1),
             ⟨Opcode.tADJCALLSTACKUP, [MachineOperand.Immediate 10]⟩,
             BuildMI0 (Opcode.Other 2)].drop (1 + 1) ∧
          ((hasReservedCallFrame (exampleCallMF 600 false) = true ∨ toU32 10 = 0) →
            Insts = []) ∧
          (hasReservedCallFrame (exampleCallMF 600 false) = false → toU32 10 ≠ 0 →
            0 < exampleTRI.StackAlignment →
            toU32 10 + exampleTRI.StackAlignment - 1 < 4294967296 → Insts ≠ [])) ∧
      (0 < exampleTRI.StackAlignment → exampleTRI.StackAlignment < 4294967296 →
        exampleTRI.StackAlignment % 4 = 0 →
        ∃ r, eliminateCallFramePseudoInstr exampleTRI (exampleCallMF 600 false)
          [BuildMI0 (Opcode.Other 1),
           ⟨Opcode.tADJCALLSTACKUP, [MachineOperand.Immediate 10]⟩,
           BuildMI0 (Opcode.Other 2)] 1 = Except.ok r) ∧
      (hasReservedCallFrame (exampleCallMF 600 false) = false → toU32 10 ≠ 0 →
        u32 exampleTRI.StackAlignment = 0 →
        eliminateCallFramePseudoInstr exampleTRI (exampleCallMF 600 false)
          [BuildMI0 (Opcode.Other 1),
           ⟨Opcode.tADJCALLSTACKUP, [MachineOperand.Immediate 10]⟩,
           BuildMI0 (Opcode.Other 2)] 1 = Except.error Abort.DivisionByZero)) :=
  ⟨_, by rfl, by rfl,
    eliminateCallFramePseudoInstr_erases_pseudo exampleTRI (exampleCallMF 600 false)
      [BuildMI0 (Opcode.Other 1),
       ⟨Opcode.tADJCALLSTACKUP, [MachineOperand.Immediate 10]⟩,
       BuildMI0 (Opcode.Other 2)] 1
      ⟨Opcode.tADJCALLSTACKUP, [MachineOperand.Immediate 10]⟩ 10 (by rfl)
      (by decide) (by rfl)⟩

/-! ## The register written by the materialisation of an address -/

theorem definedReg_build_reg (Opc : Opcode) (D R : Reg) (k : Bool) :
    ((BuildMI Opc D).addReg R k).definedReg = some D := rfl

theorem definedReg_build_reg_reg (Opc : Opcode) (D R : Reg) (k : Bool) (R' : Reg) (k' : Bool) :
    (((BuildMI Opc D).addReg R k).addReg R' k').definedReg = some D := rfl

theorem definedReg_build_reg_imm (Opc : Opcode) (D R : Reg) (k : Bool) (v : Int) :
    (((BuildMI Opc D).addReg R k).addImm v).definedReg = some D := rfl

theorem definedReg_build_imm (Opc : Opcode) (D : Reg) (v : Int) :
    ((BuildMI Opc D).addImm v).definedReg = some D := rfl

theorem definedReg_build_cpi (Opc : Opcode) (D : Reg) (v : Int) :
    ((BuildMI Opc D).addConstantPoolIndex v).definedReg = some D := rfl

theorem emitChunksLoop_definedReg (DestReg : Reg) (isSub : Bool) (Fuel : Nat) :
    ∀ (Bytes : Nat) (BaseReg : Reg) (Opc : Opcode) (Scale Chunk : Nat) (isTwoAddr : Bool),
      ∀ MI ∈ emitChunksLoop DestReg isSub Fuel Bytes BaseReg Opc Scale Chunk isTwoAddr,
        MI.definedReg = some DestReg := by
  induction Fuel with
  | zero => intro _ _ _ _ _ _ MI hMI; simp [emitChunksLoop] at hMI
  | succ F ih =>
    intro Bytes BaseReg Opc Scale Chunk isTwoAddr MI hMI
    simp only [emitChunksLoop] at hMI
    split at hMI
    · simp at hMI
    · split at hMI
      · rcases List.mem_cons.mp hMI with rfl | hrest
        · exact definedReg_build_reg_imm _ _ _ _ _
        · exact ih _ _ _ _ _ _ MI hrest
      · split at hMI
        · rcases List.mem_cons.mp hMI with rfl | hrest
          · exact definedReg_build_reg_imm _ _ _ _ _
          · exact ih _ _ _ _ _ _ MI hrest
        · rcases List.mem_cons.mp hMI with rfl | hrest
          · exact definedReg_build_reg_imm _ _ _ _ _
          · exact ih _ _ _ _ _ _ MI hrest

theorem emitThumbRegPlusImmInReg_definedReg (DestReg BaseReg : Reg) (n : Int)
    (CanChangeCC : Bool) (hD : DestReg ≠ Reg.SP) (L : List MachineInstr)
    (h : emitThumbRegPlusImmInReg DestReg BaseReg n CanChangeCC = Except.ok L) :
    ∀ MI ∈ L, MI.definedReg = some DestReg := by
  unfold emitThumbRegPlusImmInReg at h
  simp only [if_neg hD] at h
  rw [if_neg (fun hE => hD hE.1)] at h
  cases h
  intro MI hMI
  simp only [List.mem_append, List.mem_singleton, List.append_nil, List.nil_append] at hMI
  rcases hMI with hL | hA
  · split_ifs at hL <;> simp [emitLoadConstPool] at hL
    all_goals first
      | (subst hL
         first
           | exact definedReg_build_imm _ _ _
           | exact definedReg_build_cpi _ _ _)
      | (rcases hL with rfl | rfl
         · exact definedReg_build_imm _ _ _
         · exact definedReg_build_reg _ _ _ _)
  · subst hA
    split_ifs <;> exact definedReg_build_reg_reg _ _ _ _ _ _

theorem emitThumbRegPlusImmediate_definedReg (DestReg BaseReg : Reg) (n : Int)
    (hD : DestReg ≠ Reg.SP) (L : List MachineInstr)
    (h : emitThumbRegPlusImmediate DestReg BaseReg n = Except.ok L) :
    ∀ MI ∈ L, MI.definedReg = some DestReg := by
  unfold emitThumbRegPlusImmediate at h
  split at h
  · cases h
  · rename_i c hcl
    simp only [] at h
    by_cases hgt : calcNumMI c.Opc c.ExtraOpc c.Bytes c.NumBits c.Scale >
        (if DestReg = Reg.SP then 3 else 2)
    · rw [if_pos hgt] at h
      exact emitThumbRegPlusImmInReg_definedReg DestReg BaseReg n true hD L h
    · rw [if_neg hgt] at h
      cases h
      intro MI hMI
      simp only [List.mem_append] at hMI
      rcases hMI with (hF | hC) | hE
      · split at hF
        · split at hF
          · simp only [List.mem_singleton] at hF; subst hF
            exact definedReg_build_reg_imm _ _ _ _ _
          · simp only [List.mem_singleton] at hF; subst hF
            exact definedReg_build_reg _ _ _ _
        · simp at hF
      · exact emitChunksLoop_definedReg _ _ _ _ _ _ _ _ _ MI hC
      · split at hE
        · simp only [List.mem_singleton] at hE; subst hE
          exact definedReg_build_reg_imm _ _ _ _ _
        · simp at hE

theorem materializeFrameAddress_definedReg (b : Bool) (TmpReg FrameReg : Reg) (Offset : Int)
    (hT : TmpReg ≠ Reg.SP) (L : List MachineInstr) (UseRR : Bool)
    (h : materializeFrameAddress b TmpReg FrameReg Offset = Except.ok (L, UseRR)) :
    ∀ MI ∈ L, MI.definedReg = some TmpReg := by
  unfold materializeFrameAddress at h
  split at h
  · split at h
    · split at h
      · cases h
      · rename_i L' hL
        cases h
        exact emitThumbRegPlusImmInReg_definedReg _ _ _ _ hT _ hL
    · cases h
      intro MI hMI
      simp only [emitLoadConstPool, List.mem_singleton] at hMI
      subst hMI
      exact definedReg_build_cpi _ _ _
  · split at h
    · cases h
    · rename_i L' hL
      cases h
      exact emitThumbRegPlusImmediate_definedReg _ _ _ hT _ hL

/-! ## Scratch registers on the store path of frame-index elimination -/

theorem getReg_ChangeToImmediate_succ (MI : MachineInstr) (j : Nat) (v : Int) :
    (MI.ChangeToImmediate (j + 1) v).getReg 0 = MI.getReg 0 := by
  unfold MachineInstr.getReg MachineInstr.ChangeToImmediate
  cases hO : MI.Operands with
  | nil => rfl
  | cons a t => rfl

theorem stored_operand (MI : MachineInstr) (i : Nat) (v Imm : Int) (R R' : Reg)
    (hImm : MI.getImm (i + 1) = Except.ok Imm) :
    ((((MI.ChangeToImmediate (i + 1) v).setDesc Opcode.tSTR).ChangeToRegister i R false
      true).addOperandCreateReg R').Operands.get? i =
      some (MachineOperand.Register R false true) := by
  have hlen : i + 1 < MI.Operands.length := by
    unfold MachineInstr.getImm at hImm
    cases hO : MI.Operands.get? (i + 1) with
    | none => rw [hO] at hImm; cases hImm
    | some x => exact (List.get?_eq_some.mp hO).1
  simp only [MachineInstr.addOperandCreateReg, MachineInstr.ChangeToRegister,
    MachineInstr.setDesc, MachineInstr.ChangeToImmediate]
  rw [List.get?_eq_getElem?, List.getElem?_append_left (by simp; omega)]
  rw [List.getElem?_set_eq_of_lt]
  simp only [List.length_set]
  omega

/-- The store path of `eliminateFrameIndexMem`: the scratch register, the
saves into R12 before the store and the matching restores after it. -/
theorem eliminateFrameIndexMem_store_path (TRI : Thumb2RegisterInfo)
    (MF : MachineFunction) (MI : MachineInstr) (i : Nat) (FrameReg : Reg) (Offset Imm : Int)
    (ValReg : Reg) (L : List MachineInstr)
    (hImm : MI.getImm (i + 1) = Except.ok Imm)
    (hFit : ¬ toU32 (wrapI32 (Offset + wrapI32 Imm * 4)) ≤
      ((1 <<< (if FrameReg = Reg.SP then 8 else 5)) - 1) * 4)
    (hLd : (TRI.Desc MI.Opcode).mayLoad = false)
    (hVal : MI.getReg 0 = Except.ok ValReg)
    (h : eliminateFrameIndexMem TRI MF MI i FrameReg Offset = Except.ok L) :
    ∃ (TmpReg : Reg) (Off : Int) (Before : List MachineInstr) (UseRR : Bool)
      (Store : MachineInstr),
      TmpReg = (if ValReg = Reg.R3 then Reg.R2 else Reg.R3) ∧ TmpReg ≠ ValReg ∧
      (TRI.Desc MI.Opcode).AddrMode = AddrMode.AddrModeT1_s ∧
      (TRI.Desc MI.Opcode).mayStore = true ∧
      materializeFrameAddress (MI.Opcode == Opcode.tSpill) TmpReg FrameReg Off =
        Except.ok (Before, UseRR) ∧
      Store.Opcode = Opcode.tSTR ∧
      Store.Operands.get? i = some (MachineOperand.Register TmpReg false true) ∧
      L = (if ValReg = Reg.R3 then [(BuildMI Opcode.tMOVlor2hir Reg.R12).addReg Reg.R2 Kill]
            else []) ++
          (if ValReg ≠ Reg.R3 ∧ MF.Info.R3IsLiveIn = true then
            [(BuildMI Opcode.tMOVlor2hir Reg.R12).addReg Reg.R3 Kill] else []) ++
          Before ++ [Store] ++
          (if ValReg = Reg.R3 then [(BuildMI Opcode.tMOVhir2lor Reg.R2).addReg Reg.R12 Kill]
            else []) ++
          (if ValReg ≠ Reg.R3 ∧ MF.Info.R3IsLiveIn = true then
            [(BuildMI Opcode.tMOVhir2lor Reg.R3).addReg Reg.R12 Kill] else []) ∧
      ((if ValReg = Reg.R3 then [(BuildMI Opcode.tMOVlor2hir Reg.R12).addReg Reg.R2 Kill]
            else []) ++
          (if ValReg ≠ Reg.R3 ∧ MF.Info.R3IsLiveIn = true then
            [(BuildMI Opcode.tMOVlor2hir Reg.R12).addReg Reg.R3 Kill] else [])).length ≤ 1 ∧
      (∀ M ∈ Before, M.definedReg = some TmpReg ∧ M.definedReg ≠ some Reg.R12) := by
  unfold eliminateFrameIndexMem at h
  simp only [] at h
  by_cases hAM : (TRI.Desc MI.Opcode).AddrMode ≠ AddrMode.AddrModeT1_s
  · rw [if_pos hAM] at h; cases h
  · rw [if_neg hAM, hImm] at h
    simp only [] at h
    have hFit' : ¬ toU32 (wrapI32 (Offset + wrapI32 Imm * ((4 : Nat) : Int))) ≤
        ((1 <<< (if FrameReg = Reg.SP then 8 else 5)) - 1) * 4 := by
      simpa using hFit
    generalize (if FrameReg = Reg.SP then 8 else 5) = NumBits at h hFit'
    generalize wrapI32 (Offset + wrapI32 Imm * ((4 : Nat) : Int)) = Off at h hFit'
    generalize hSR : (MI.Opcode == Opcode.tRestore || MI.Opcode == Opcode.tSpill) = SR at h
    generalize hM : (if SR = true then MI.ChangeToImmediate (i + 1) 0
      else MI.ChangeToImmediate (i + 1)
        (toI32 (toU32 (toI32 (toU32 Off / 4)) &&& (1 <<< 5 - 1)))) = M1 at h
    generalize (if SR = true then Off
      else toI32 (toU32 Off &&& not32 ((1 <<< 5 - 1) * 4))) = Off1 at h
    have hM1 : ∃ v, M1 = MI.ChangeToImmediate (i + 1) v := by
      subst hM; split_ifs
      · exact ⟨_, rfl⟩
      · exact ⟨_, rfl⟩
    obtain ⟨v, rfl⟩ := hM1
    by_cases hA : (toU32 Off &&& (4 - 1)) ≠ 0
    · rw [if_pos hA] at h; cases h
    · rw [if_neg hA, if_neg hFit'] at h
      by_cases hZ : Off1 = 0
      · rw [if_pos hZ] at h; cases h
      · rw [if_neg hZ, getReg_ChangeToImmediate_succ, hVal, if_neg (by rw [hLd]; decide)] at h
        simp only [] at h
        by_cases hSt : (TRI.Desc MI.Opcode).mayStore = true
        · rw [if_pos hSt] at h
          cases hB : materializeFrameAddress (MI.Opcode == Opcode.tSpill)
              (if ValReg = Reg.R3 then Reg.R2 else Reg.R3) FrameReg Off1 with
          | error e => rw [hB] at h; cases h
          | ok p =>
            obtain ⟨Before, UseRR⟩ := p
            rw [hB] at h
            simp only [] at h
            have hL := (Except.ok.inj h).symm
            have hcond : ((if ValReg = Reg.R3 then Reg.R2 else Reg.R3) = Reg.R3 ∧
                MF.Info.R3IsLiveIn = true) ↔ (ValReg ≠ Reg.R3 ∧ MF.Info.R3IsLiveIn = true) := by
              by_cases hV : ValReg = Reg.R3
              · simp [hV]
              · simp [hV]
            refine ⟨_, Off1, Before, UseRR,
              (((MI.ChangeToImmediate (i + 1) v).setDesc Opcode.tSTR).ChangeToRegister i
                (if ValReg = Reg.R3 then Reg.R2 else Reg.R3) false true).addOperandCreateReg
                  (if UseRR = true then FrameReg else Reg.NoReg),
              rfl, ?_, not_not.mp hAM, hSt, hB, rfl, ?_, ?_, ?_, ?_⟩
            · by_cases hV : ValReg = Reg.R3
              · rw [if_pos hV, hV]; decide
              · rw [if_neg hV]; exact fun hh => hV hh.symm
            · exact stored_operand MI i v Imm _ _ hImm
            · rw [hL]
              cases UseRR <;> simp only [hcond] <;> rfl
            · by_cases hV : ValReg = Reg.R3
              · simp [hV]
              · simp [hV]; split <;> simp
            · intro M hM
              have hT : (if ValReg = Reg.R3 then Reg.R2 else Reg.R3) ≠ Reg.SP := by
                split <;> decide
              have hdef := materializeFrameAddress_definedReg _ _ _ _ hT _ _ hB M hM
              refine ⟨hdef, ?_⟩
              rw [hdef]
              split <;> decide
        · rw [if_neg hSt] at h; cases h

/-- Claim C20: on the store path of `eliminateFrameIndex` (an `AddrModeT1_s`
instruction that does not load, whose offset does not fit), for every
stored-value register `ValReg`: the address is materialised in, and the store
goes through, the scratch register `TmpReg`, which is R2 when `ValReg` is R3
and R3 otherwise and never equals `ValReg`; a move `R12 <- R2` is inserted
before and `R2 <- R12` after exactly when `ValReg` is R3; a move `R12 <- R3`
before and `R3 <- R12` after exactly when `ValReg` is not R3 and R3 is
live-in; at most one save into R12 is inserted, and the instructions that
materialise the address write `TmpReg` only, never R12. -/
theorem eliminateFrameIndex_store_scratch (TRI : Thumb2RegisterInfo)
    (MF : MachineFunction) (MI : MachineInstr) (SPAdj : Int) (i : Nat) (FrameReg : Reg)
    (Offset Imm : Int) (ValReg : Reg) (L : List MachineInstr)
    (hRes : resolveFrameIndex MF MI SPAdj = Except.ok (i, FrameReg, Offset))
    (hOpc : MI.Opcode ≠ Opcode.tADDrSPi)
    (hImm : MI.getImm (i + 1) = Except.ok Imm)
    (hFit : ¬ toU32 (wrapI32 (Offset + wrapI32 Imm * 4)) ≤
      ((1 <<< (if FrameReg = Reg.SP then 8 else 5)) - 1) * 4)
    (hLd : (TRI.Desc MI.Opcode).mayLoad = false)
    (hVal : MI.getReg 0 = Except.ok ValReg)
    (h : eliminateFrameIndex TRI MF MI SPAdj = Except.ok L) :
    ∃ (TmpReg : Reg) (Off : Int) (Before : List MachineInstr) (UseRR : Bool)
      (Store : MachineInstr),
      TmpReg = (if ValReg = Reg.R3 then Reg.R2 else Reg.R3) ∧ TmpReg ≠ ValReg ∧
      (TRI.Desc MI.Opcode).AddrMode = AddrMode.AddrModeT1_s ∧
      (TRI.Desc MI.Opcode).mayStore = true ∧
      materializeFrameAddress (MI.Opcode == Opcode.tSpill) TmpReg FrameReg Off =
        Except.ok (Before, UseRR) ∧
      Store.Opcode = Opcode.tSTR ∧
      Store.Operands.get? i = some (MachineOperand.Register TmpReg false true) ∧
      L = (if ValReg = Reg.R3 then [(BuildMI Opcode.tMOVlor2hir Reg.R12).addReg Reg.R2 Kill]
            else []) ++
          (if ValReg ≠ Reg.R3 ∧ MF.Info.R3IsLiveIn = true then
            [(BuildMI Opcode.tMOVlor2hir Reg.R12).addReg Reg.R3 Kill] else []) ++
          Before ++ [Store] ++
          (if ValReg = Reg.R3 then [(BuildMI Opcode.tMOVhir2lor Reg.R2).addReg Reg.R12 Kill]
            else []) ++
          (if ValReg ≠ Reg.R3 ∧ MF.Info.R3IsLiveIn = true then
            [(BuildMI Opcode.tMOVhir2lor Reg.R3).addReg Reg.R12 Kill] else []) ∧
      ((if ValReg = Reg.R3 then [(BuildMI Opcode.tMOVlor2hir Reg.R12).addReg Reg.R2 Kill]
            else []) ++
          (if ValReg ≠ Reg.R3 ∧ MF.Info.R3IsLiveIn = true then
            [(BuildMI Opcode.tMOVlor2hir Reg.R12).addReg Reg.R3 Kill] else [])).length ≤ 1 ∧
      (∀ M ∈ Before, M.definedReg = some TmpReg ∧ M.definedReg ≠ some Reg.R12) := by
  unfold eliminateFrameIndex at h
  rw [hRes] at h
  simp only [] at h
  rw [if_neg hOpc] at h
  exact eliminateFrameIndexMem_store_path TRI MF MI i FrameReg Offset Imm ValReg L hImm hFit
    hLd hVal h

theorem eliminateFrameIndex_store_scratch_witness :
    ∃ L, eliminateFrameIndex exampleTRI exampleLiveR3MF
        ⟨Opcode.tSpill, [MachineOperand.Register Reg.R1 false false,
          MachineOperand.FrameIndex 2, MachineOperand.Immediate 0]⟩ 0 = Except.ok L ∧
      resolveFrameIndex exampleLiveR3MF
        ⟨Opcode.tSpill, [MachineOperand.Register Reg.R1 false false,
          MachineOperand.FrameIndex 2, MachineOperand.Immediate 0]⟩ 0 =
        Except.ok (1, Reg.SP, 2000) ∧
      L = [(BuildMI Opcode.tMOVlor2hir Reg.R12).addReg Reg.R3 Kill,
           (BuildMI Opcode.tLDRcp Reg.R3).addConstantPoolIndex 2000,
           ((BuildMI Opcode.tADDhirr Reg.R3).addReg Reg.R3 false).addReg Reg.SP Kill,
           ⟨Opcode.tSTR, [MachineOperand.Register Reg.R1 false false,
             MachineOperand.Register Reg.R3 false true, MachineOperand.Immediate 0,
             MachineOperand.Register Reg.NoReg false false]⟩,
           (BuildMI Opcode.tMOVhir2lor Reg.R3).addReg Reg.R12 Kill] ∧
      ∃ (TmpReg : Reg) (Off : Int) (Before : List MachineInstr) (UseRR : Bool)
        (Store : MachineInstr),
        TmpReg = (if Reg.R1 = Reg.R3 then Reg.R2 else Reg.R3) ∧ TmpReg ≠ Reg.R1 ∧
        (exampleTRI.Desc Opcode.tSpill).AddrMode = AddrMode.AddrModeT1_s ∧
        (exampleTRI.Desc Opcode.tSpill).mayStore = true ∧
        materializeFrameAddress (Opcode.tSpill == Opcode.tSpill) TmpReg Reg.SP Off =
          Except.ok (Before, UseRR) ∧
        Store.Opcode = Opcode.tSTR ∧
        Store.Operands.get? 1 = some (MachineOperand.Register TmpReg false true) ∧
        L = (if Reg.R1 = Reg.R3 then [(BuildMI Opcode.tMOVlor2hir Reg.R12).addReg Reg.R2 Kill]
              else []) ++
            (if Reg.R1 ≠ Reg.R3 ∧ exampleLiveR3MF.Info.R3IsLiveIn = true then
              [(BuildMI Opcode.tMOVlor2hir Reg.R12).addReg Reg.R3 Kill] else []) ++
            Before ++ [Store] ++
            (if Reg.R1 = Reg.R3 then [(BuildMI Opcode.tMOVhir2lor Reg.R2).addReg Reg.R12 Kill]
              else []) ++
            (if Reg.R1 ≠ Reg.R3 ∧ exampleLiveR3MF.Info.R3IsLiveIn = true then
              [(BuildMI Opcode.tMOVhir2lor Reg.R3).addReg Reg.R12 Kill] else []) ∧
        ((if Reg.R1 = Reg.R3 then [(BuildMI Opcode.tMOVlor2hir Reg.R12).addReg Reg.R2 Kill]
              else []) ++
            (if Reg.R1 ≠ Reg.R3 ∧ exampleLiveR3MF.Info.R3IsLiveIn = true then
              [(BuildMI Opcode.tMOVlor2hir Reg.R12).addReg Reg.R3 Kill] else [])).length ≤ 1 ∧
        (∀ M ∈ Before, M.definedReg = some TmpReg ∧ M.definedReg ≠ some Reg.R12) :=
  ⟨_, by rfl, by rfl, by rfl,
    eliminateFrameIndex_store_scratch exampleTRI exampleLiveR3MF
      ⟨Opcode.tSpill, [MachineOperand.Register Reg.R1 false false,
        MachineOperand.FrameIndex 2, MachineOperand.Immediate 0]⟩ 0 1 Reg.SP 2000 0 Reg.R1 _
      (by rfl) (by decide) (by rfl) (by decide) (by rfl) (by rfl) (by rfl)⟩

/-! ## Closed form of `calcNumMI` -/

theorem div_add_rem_eq_ceil (B C : Nat) (hC : 0 < C) :
    B / C + (if B % C ≠ 0 then 1 else 0) = (B + (C - 1)) / C := by
  have key : ∀ q r, r < C →
      (C * q + r) / C + (if (C * q + r) % C ≠ 0 then 1 else 0) = (C * q + r + (C - 1)) / C := by
    intro q r hr
    have hR : (C * q + r + (C - 1)) / C = q + (r + (C - 1)) / C := by
      rw [Nat.add_assoc, Nat.mul_add_div hC]
    rw [Nat.mul_add_div hC, Nat.mul_add_mod, Nat.mod_eq_of_lt hr, Nat.div_eq_of_lt hr, hR]
    by_cases hr0 : r = 0
    · subst hr0
      rw [Nat.zero_add, Nat.div_eq_of_lt (by omega)]
      simp
    · have hsum : r + (C - 1) = (r - 1) + C := by omega
      rw [hsum, Nat.add_div_right _ hC, Nat.div_eq_of_lt (by omega), if_pos hr0]
  have h := key (B / C) (B % C) (Nat.mod_lt _ hC)
  rwa [Nat.div_add_mod] at h

theorem ceil_div_bounds (B C : Nat) (hC : 0 < C) :
    (B + (C - 1)) / C ≤ B ∧ (2 ≤ C → 2 * ((B + (C - 1)) / C) ≤ B + 1) := by
  rw [← div_add_rem_eq_ceil B C hC]
  have hle : B / C ≤ B := Nat.div_le_self B C
  have hz : B % C ≠ 0 → B ≠ 0 := by
    intro h hB
    rw [hB, Nat.zero_mod] at h
    exact h rfl
  by_cases h1 : C = 1
  · subst h1
    rw [Nat.mod_one, Nat.div_one]
    simp
  · have h2 : 2 ≤ C := by omega
    have hd2 : B / C ≤ B / 2 := Nat.div_le_div_left h2 (by norm_num)
    by_cases hc2 : C = 2
    · subst hc2
      constructor
      · split <;> omega
      · intro _
        split <;> omega
    · have hd3 : B / C ≤ B / 3 := Nat.div_le_div_left (by omega) (by norm_num)
      constructor
      · split
        · have := hz (by assumption)
          omega
        · omega
      · intro _
        split
        · have := hz (by assumption)
          omega
        · omega

/-- Claim C22: for every 32-bit `Bytes` and every `NumBits` and `Scale` on which
the source expression `Chunk = ((1 << NumBits) - 1) * Scale` is defined and
exact (`NumBits <= 30`, the product positive and below `2^32`): when `Opc` is
`tADDrSPi`, `calcNumMI` returns `1 + ceil((Bytes - min(Bytes, Chunk)) / 255)`
plus 1 if `ExtraOpc` is non-zero; when `Opc` is not `tADDrSPi` it returns
`ceil(Bytes / Chunk)` plus 1 if `ExtraOpc` is non-zero, provided that count fits
the 32-bit result, which it does when `Chunk >= 2` or `Bytes < 2^32 - 1` or
`ExtraOpc` is zero.  Every call in the file passes `NumBits` 3, 7 or 8 and
`Scale` 1 or 4, so `Chunk` is 7, 255, 508 or 1020 and all conditions hold. -/
theorem calcNumMI_closed_form (Opc : Opcode) (ExtraOpc : Option Opcode)
    (Bytes NumBits Scale : Nat) (hB : Bytes < 4294967296) (hN : NumBits ≤ 30)
    (hC0 : 0 < (2 ^ NumBits - 1) * Scale) (hC : (2 ^ NumBits - 1) * Scale < 4294967296) :
    (Opc = Opcode.tADDrSPi →
      calcNumMI Opc ExtraOpc Bytes NumBits Scale =
        1 + (Bytes - min Bytes ((2 ^ NumBits - 1) * Scale) + 254) / 255 +
          (if ExtraOpc.isSome then 1 else 0)) ∧
    (Opc ≠ Opcode.tADDrSPi →
      (2 ≤ (2 ^ NumBits - 1) * Scale ∨ Bytes < 4294967295 ∨ ExtraOpc = none) →
      calcNumMI Opc ExtraOpc Bytes NumBits Scale =
        (Bytes + ((2 ^ NumBits - 1) * Scale - 1)) / ((2 ^ NumBits - 1) * Scale) +
          (if ExtraOpc.isSome then 1 else 0)) := by
  have _hN := hN
  have hsh : (1 <<< NumBits) = 2 ^ NumBits := by rw [Nat.shiftLeft_eq, Nat.one_mul]
  have hu : u32 ((2 ^ NumBits - 1) * Scale) = (2 ^ NumBits - 1) * Scale := by
    unfold u32; omega
  constructor
  · intro hOpc
    subst hOpc
    simp only [calcNumMI, if_true, hsh, hu]
    generalize (2 ^ NumBits - 1) * Scale = Chunk at *
    have hmin : (if Bytes > Chunk then Chunk else Bytes) = min Bytes Chunk := by
      split <;> omega
    rw [hmin]
    have h255 : u32 ((1 <<< 8 - 1) * 1) = 255 := by decide
    rw [h255]
    have hR : Bytes - min Bytes Chunk < 4294967296 := by omega
    generalize Bytes - min Bytes Chunk = R at *
    unfold u32
    cases ExtraOpc <;> simp <;> split <;> omega
  · intro hOpc hcase
    have hmod : calcNumMI Opc ExtraOpc Bytes NumBits Scale =
        ((Bytes + ((2 ^ NumBits - 1) * Scale - 1)) / ((2 ^ NumBits - 1) * Scale) +
          (if ExtraOpc.isSome then 1 else 0)) % 4294967296 := by
      simp only [calcNumMI, if_neg hOpc, hsh, hu]
      generalize (2 ^ NumBits - 1) * Scale = Chunk at *
      rw [← div_add_rem_eq_ceil Bytes Chunk hC0]
      generalize Bytes / Chunk = q
      generalize Bytes % Chunk = r
      unfold u32
      cases ExtraOpc <;> simp <;> split <;> omega
    rw [hmod]
    apply Nat.mod_eq_of_lt
    obtain ⟨hle, h2⟩ := ceil_div_bounds Bytes ((2 ^ NumBits - 1) * Scale) hC0
    generalize (Bytes + ((2 ^ NumBits - 1) * Scale - 1)) / ((2 ^ NumBits - 1) * Scale) = q at *
    have he : (if ExtraOpc.isSome = true then 1 else 0) ≤ 1 := by split <;> omega
    rcases hcase with h | h | h
    · have := h2 h
      omega
    · omega
    · subst h
      simp only [Option.isSome_none, Bool.false_eq_true, if_false]
      omega

theorem calcNumMI_closed_form_witness :
    calcNumMI Opcode.tADDrSPi (some Opcode.tADDi3) 1400 8 4 = 4 ∧
    calcNumMI Opcode.tSUBspi none 1000 7 4 = 2 ∧
    calcNumMI Opcode.tADDi8 none 1000 8 1 = 4 ∧
    calcNumMI Opcode.tADDi3 none 20 3 1 = 3 ∧
    ((Opcode.tADDi8 = Opcode.tADDrSPi →
      calcNumMI Opcode.tADDi8 none 1000 8 1 =
        1 + (1000 - min 1000 ((2 ^ 8 - 1) * 1) + 254) / 255 +
          (if (none : Option Opcode).isSome then 1 else 0)) ∧
    (Opcode.tADDi8 ≠ Opcode.tADDrSPi →
      (2 ≤ (2 ^ 8 - 1) * 1 ∨ 1000 < 4294967295 ∨ (none : Option Opcode) = none) →
      calcNumMI Opcode.tADDi8 none 1000 8 1 =
        (1000 + ((2 ^ 8 - 1) * 1 - 1)) / ((2 ^ 8 - 1) * 1) +
          (if (none : Option Opcode).isSome then 1 else 0))) :=
  ⟨by rfl, by rfl, by rfl, by rfl,
    calcNumMI_closed_form Opcode.tADDi8 none 1000 8 1 (by norm_num) (by norm_num)
      (by norm_num) (by norm_num)⟩

/-! ## The fallback loads the offset from the constant pool -/

theorem emitThumbRegPlusImmInReg_constant_pool (DestReg BaseReg : Reg) (n : Int)
    (CanChangeCC : Bool) (hlo : -2147483648 ≤ n) (hhi : n ≤ 2147483647)
    (hbig : 255 < n.natAbs) (L : List MachineInstr)
    (h : emitThumbRegPlusImmInReg DestReg BaseReg n CanChangeCC = Except.ok L) :
    L.countP (fun MI => decide (MI.Opcode = Opcode.tLDRcp)) = 1 ∧
    ∀ MI ∈ L, MI.Opcode ≠ Opcode.tMOVi8 ∧ MI.Opcode ≠ Opcode.tNEG := by
  unfold emitThumbRegPlusImmInReg at h
  simp only [] at h
  generalize hb : (decide (n < 0) && !(!isARMLowRegister DestReg ||
    (BaseReg != Reg.NoReg && !isARMLowRegister BaseReg)) && CanChangeCC) = b at h
  have hbn : b = true → n < 0 := by
    intro hbt
    rw [hbt] at hb
    simp only [Bool.and_eq_true, decide_eq_true_eq] at hb
    exact hb.1.1
  have hno : ¬ ((if b = true then wrapI32 (-n) else n) ≤ 255 ∧
          (if b = true then wrapI32 (-n) else n) ≥ 0) ∧
      ¬ ((if b = true then wrapI32 (-n) else n) < 0 ∧
          (if b = true then wrapI32 (-n) else n) ≥ -255) := by
    cases b
    · simp only [Bool.false_eq_true, if_false]; omega
    · simp only [if_true]
      exact wrapI32_neg_large n hlo (by have := hbn rfl; omega)
  rw [if_neg hno.1, if_neg hno.2] at h
  by_cases hE : DestReg = Reg.SP ∧ BaseReg ≠ Reg.SP
  · rw [if_pos hE] at h; cases h
  · rw [if_neg hE] at h
    cases h
    constructor
    · split_ifs <;> simp [emitLoadConstPool, BuildMI, MachineInstr.addReg,
        MachineInstr.addConstantPoolIndex, List.countP_cons]
    · intro MI hMI
      simp only [List.mem_append, List.mem_singleton, emitLoadConstPool] at hMI
      rcases hMI with ((hS | hL) | hA) | hR
      · split_ifs at hS <;> simp at hS
        subst hS; exact ⟨by decide, by decide⟩
      · subst hL
        simp [BuildMI, MachineInstr.addConstantPoolIndex]
      · subst hA
        split_ifs <;> simp [BuildMI, MachineInstr.addReg]
      · split_ifs at hR <;> simp at hR
        subst hR; exact ⟨by decide, by decide⟩

/-- Claim C24: for every `DestReg`, `BaseReg` and (32-bit) `NumBytes`, whenever
`emitThumbRegPlusImmediate` takes the fallback (`calcNumMI` exceeds the
threshold), `|NumBytes| > 255`, the result is that of
`emitThumbRegPlusImmInReg`, and every result has exactly one `tLDRcp` and no
`tMOVi8` and no `tNEG`; the fallback returns unless `DestReg` is SP and
`BaseReg` is not. -/
theorem emitThumbRegPlusImmediate_fallback_constant_pool (DestReg BaseReg : Reg)
    (NumBytes : Int) (hlo : -2147483648 ≤ NumBytes) (hhi : NumBytes ≤ 2147483647)
    (hab : abandonsDirectSequence DestReg BaseReg NumBytes = true) :
    255 < NumBytes.natAbs ∧
    emitThumbRegPlusImmediate DestReg BaseReg NumBytes =
      emitThumbRegPlusImmInReg DestReg BaseReg NumBytes true ∧
    (∀ L, emitThumbRegPlusImmediate DestReg BaseReg NumBytes = Except.ok L →
      L.countP (fun MI => decide (MI.Opcode = Opcode.tLDRcp)) = 1 ∧
      ∀ MI ∈ L, MI.Opcode ≠ Opcode.tMOVi8 ∧ MI.Opcode ≠ Opcode.tNEG) ∧
    (¬ (DestReg = Reg.SP ∧ BaseReg ≠ Reg.SP) →
      ∃ L, emitThumbRegPlusImmediate DestReg BaseReg NumBytes = Except.ok L) := by
  unfold abandonsDirectSequence at hab
  cases hcl : classifyRegPlusImm DestReg BaseReg NumBytes with
  | error e => rw [hcl] at hab; cases hab
  | ok c =>
    rw [hcl] at hab
    simp only [decide_eq_true_eq] at hab
    have hshape := classifyRegPlusImm_shape DestReg BaseReg NumBytes (by omega) (by omega) c hcl
    have hbig : 255 < NumBytes.natAbs := by
      apply calcNumMI_gt_two NumBytes c hshape (by omega)
      have : 2 ≤ (if DestReg = Reg.SP then 3 else 2) := by split <;> omega
      omega
    have heq : emitThumbRegPlusImmediate DestReg BaseReg NumBytes =
        emitThumbRegPlusImmInReg DestReg BaseReg NumBytes true := by
      unfold emitThumbRegPlusImmediate
      rw [hcl]
      simp only []
      rw [if_pos hab]
    refine ⟨hbig, heq, ?_, ?_⟩
    · intro L hL
      rw [heq] at hL
      exact emitThumbRegPlusImmInReg_constant_pool DestReg BaseReg NumBytes true hlo hhi hbig L hL
    · intro hE
      rw [heq]
      unfold emitThumbRegPlusImmInReg
      simp only []
      rw [if_neg hE]
      exact ⟨_, rfl⟩

theorem emitThumbRegPlusImmediate_fallback_constant_pool_witness :
    abandonsDirectSequence Reg.R4 Reg.R7 (-1000) = true ∧
    emitThumbRegPlusImmediate Reg.R4 Reg.R7 (-1000) = Except.ok
      [(BuildMI Opcode.tLDRcp Reg.R4).addConstantPoolIndex 1000,
       ((BuildMI Opcode.tSUBrr Reg.R4).addReg Reg.R7 false).addReg Reg.R4 Kill] ∧
    (255 < (-1000 : Int).natAbs ∧
    emitThumbRegPlusImmediate Reg.R4 Reg.R7 (-1000) =
      emitThumbRegPlusImmInReg Reg.R4 Reg.R7 (-1000) true ∧
    (∀ L, emitThumbRegPlusImmediate Reg.R4 Reg.R7 (-1000) = Except.ok L →
      L.countP (fun MI => decide (MI.Opcode = Opcode.tLDRcp)) = 1 ∧
      ∀ MI ∈ L, MI.Opcode ≠ Opcode.tMOVi8 ∧ MI.Opcode ≠ Opcode.tNEG) ∧
    (¬ (Reg.R4 = Reg.SP ∧ Reg.R7 ≠ Reg.SP) →
      ∃ L, emitThumbRegPlusImmediate Reg.R4 Reg.R7 (-1000) = Except.ok L)) :=
  ⟨by rfl, by rfl,
    emitThumbRegPlusImmediate_fallback_constant_pool Reg.R4 Reg.R7 (-1000) (by decide)
      (by decide) (by rfl)⟩

/-! ## Kill flags on the stack pointer -/

theorem killsSP_build_reg (Opc : Opcode) (D R : Reg) (k : Bool) :
    ((BuildMI Opc D).addReg R k).killsSP = (decide (R = Reg.SP) && k) := by
  simp [MachineInstr.killsSP, BuildMI, MachineInstr.addReg]

theorem killsSP_build_reg_reg (Opc : Opcode) (D R : Reg) (k : Bool) (R' : Reg) (k' : Bool) :
    (((BuildMI Opc D).addReg R k).addReg R' k').killsSP =
      ((decide (R = Reg.SP) && k) || (decide (R' = Reg.SP) && k')) := by
  simp [MachineInstr.killsSP, BuildMI, MachineInstr.addReg]

theorem killsSP_build_reg_imm (Opc : Opcode) (D R : Reg) (k : Bool) (v : Int) :
    (((BuildMI Opc D).addReg R k).addImm v).killsSP = (decide (R = Reg.SP) && k) := by
  simp [MachineInstr.killsSP, BuildMI, MachineInstr.addReg, MachineInstr.addImm]

theorem killsSP_build_imm (Opc : Opcode) (D : Reg) (v : Int) :
    ((BuildMI Opc D).addImm v).killsSP = false := by
  simp [MachineInstr.killsSP, BuildMI, MachineInstr.addImm]

theorem killsSP_build_cpi (Opc : Opcode) (D : Reg) (v : Int) :
    ((BuildMI Opc D).addConstantPoolIndex v).killsSP = false := by
  simp [MachineInstr.killsSP, BuildMI, MachineInstr.addConstantPoolIndex]

theorem emitChunksLoop_killsSP (DestReg : Reg) (isSub : Bool) (Fuel : Nat) :
    ∀ (Bytes : Nat) (BaseReg : Reg) (Opc : Opcode) (Scale Chunk : Nat) (isTwoAddr : Bool),
      ∀ MI ∈ emitChunksLoop DestReg isSub Fuel Bytes BaseReg Opc Scale Chunk isTwoAddr,
        MI.killsSP = false := by
  have hbase : ∀ (Opc : Opcode) (B : Reg) (v : Int),
      (((BuildMI Opc DestReg).addReg B (getKillRegState (B != Reg.SP))).addImm v).killsSP =
        false := by
    intro Opc B v
    rw [killsSP_build_reg_imm]
    by_cases hB : B = Reg.SP
    · subst hB; rfl
    · simp [hB]
  induction Fuel with
  | zero => intro _ _ _ _ _ _ MI hMI; simp [emitChunksLoop] at hMI
  | succ F ih =>
    intro Bytes BaseReg Opc Scale Chunk isTwoAddr MI hMI
    simp only [emitChunksLoop] at hMI
    split at hMI
    · simp at hMI
    · split at hMI
      · rcases List.mem_cons.mp hMI with rfl | hrest
        · rw [killsSP_build_reg_imm]; simp
        · exact ih _ _ _ _ _ _ MI hrest
      · split at hMI
        · rcases List.mem_cons.mp hMI with rfl | hrest
          · exact hbase _ _ _
          · exact ih _ _ _ _ _ _ MI hrest
        · rcases List.mem_cons.mp hMI with rfl | hrest
          · exact hbase _ _ _
          · exact ih _ _ _ _ _ _ MI hrest

theorem emitThumbRegPlusImmInReg_killsSP (DestReg BaseReg : Reg) (n : Int)
    (CanChangeCC : Bool) (hDB : DestReg = Reg.SP ∨ BaseReg ≠ Reg.SP) (L : List MachineInstr)
    (h : emitThumbRegPlusImmInReg DestReg BaseReg n CanChangeCC = Except.ok L) :
    ∀ MI ∈ L, MI.killsSP = false := by
  unfold emitThumbRegPlusImmInReg at h
  simp only [] at h
  have hLd : (if DestReg = Reg.SP then Reg.R3 else DestReg) ≠ Reg.SP := by
    split
    · decide
    · assumption
  generalize (if DestReg = Reg.SP then Reg.R3 else DestReg) = LdReg at h hLd
  generalize (decide (n < 0) && !(!isARMLowRegister DestReg ||
    (BaseReg != Reg.NoReg && !isARMLowRegister BaseReg)) && CanChangeCC) = b at h
  by_cases hE : DestReg = Reg.SP ∧ BaseReg ≠ Reg.SP
  · rw [if_pos hE] at h; cases h
  · rw [if_neg hE] at h
    cases h
    intro MI hMI
    simp only [List.mem_append, List.mem_singleton] at hMI
    rcases hMI with ((hS | hL) | hA) | hR
    · split_ifs at hS <;> simp at hS
      subst hS; rfl
    · split_ifs at hL <;> simp [emitLoadConstPool] at hL
      all_goals first
        | (subst hL
           first
             | exact killsSP_build_imm _ _ _
             | exact killsSP_build_cpi _ _ _)
        | (rcases hL with rfl | rfl
           · exact killsSP_build_imm _ _ _
           · rw [killsSP_build_reg]; simp [hLd])
    · subst hA
      by_cases hc : DestReg = Reg.SP ∨ b = true
      · rw [if_pos hc, killsSP_build_reg_reg]; simp [hLd]
      · rw [if_neg hc, killsSP_build_reg_reg]
        have hB : BaseReg ≠ Reg.SP := by
          rcases hDB with hD | hB
          · exact absurd (Or.inl hD) hc
          · exact hB
        simp [hB]
    · split_ifs at hR <;> simp at hR
      subst hR; rfl

theorem classifyRegPlusImm_extra (DestReg BaseReg : Reg) (n : Int) (c : RegPlusImmCase)
    (E : Opcode) (h : classifyRegPlusImm DestReg BaseReg n = Except.ok c)
    (hc : c.ExtraOpc = some E) : DestReg ≠ Reg.SP := by
  unfold classifyRegPlusImm at h
  simp only [] at h
  by_cases h1 : DestReg = BaseReg ∧ BaseReg = Reg.SP
  · rw [if_pos h1] at h
    split_ifs at h <;> first | (cases h; done) | (cases h; cases hc)
  · rw [if_neg h1] at h
    by_cases h2 : decide (n < 0) = false ∧ BaseReg = Reg.SP
    · intro hD
      exact h1 ⟨hD.trans h2.2.symm, h2.2⟩
    · rw [if_neg h2] at h
      cases h
      cases hc

theorem emitThumbRegPlusImmediate_killsSP (DestReg BaseReg : Reg) (n : Int)
    (hDB : DestReg = Reg.SP ∨ BaseReg ≠ Reg.SP) (L : List MachineInstr)
    (h : emitThumbRegPlusImmediate DestReg BaseReg n = Except.ok L) :
    ∀ MI ∈ L, MI.killsSP = false := by
  unfold emitThumbRegPlusImmediate at h
  split at h
  · cases h
  · rename_i c hcl
    simp only [] at h
    by_cases hgt : calcNumMI c.Opc c.ExtraOpc c.Bytes c.NumBits c.Scale >
        (if DestReg = Reg.SP then 3 else 2)
    · rw [if_pos hgt] at h
      exact emitThumbRegPlusImmInReg_killsSP DestReg BaseReg n true hDB L h
    · rw [if_neg hgt] at h
      cases h
      intro MI hMI
      simp only [List.mem_append] at hMI
      rcases hMI with (hF | hC) | hE
      · split at hF
        · rename_i hDst
          have hne := (classifyRegPlusImm_copy DestReg BaseReg n c hcl hDst).1
          have hB : BaseReg ≠ Reg.SP := by
            rcases hDB with hD | hB
            · intro hB; exact hne (hD.trans hB.symm)
            · exact hB
          split at hF
          · simp only [List.mem_singleton] at hF; subst hF
            rw [killsSP_build_reg_imm]; simp [hB]
          · simp only [List.mem_singleton] at hF; subst hF
            rw [killsSP_build_reg]; simp [hB]
        · simp at hF
      · exact emitChunksLoop_killsSP _ _ _ _ _ _ _ _ _ MI hC
      · split at hE
        · rename_i E hEx
          have hD := classifyRegPlusImm_extra DestReg BaseReg n c E hcl hEx
          simp only [List.mem_singleton] at hE; subst hE
          rw [killsSP_build_reg_imm]; simp [hD]
        · simp at hE

/-- Claim C21, evaluated: `emitThumbRegPlusImmInReg(R2, SP, 2000)`, the call that
`eliminateFrameIndex` makes for a far `tSpill` off the stack pointer, emits
`tADDhirr R2, R2, SP` with the kill flag on its SP operand;
`emitThumbRegPlusImmediate(R1, SP, -4)` emits the copy `tMOVr R1, SP` with the
kill flag on SP, and `emitThumbRegPlusImmediate(R0, SP, 2000)` reaches the
same `tADDhirr` through the fallback.  Whenever `DestReg` is SP or `BaseReg`
is not SP, no instruction emitted by either function carries a kill flag on
an SP operand. -/
theorem emitThumbRegPlusImmediate_kills_sp :
    emitThumbRegPlusImmInReg Reg.R2 Reg.SP 2000 false = Except.ok
      [(BuildMI Opcode.tLDRcp Reg.R2).addConstantPoolIndex 2000,
       ((BuildMI Opcode.tADDhirr Reg.R2).addReg Reg.R2 false).addReg Reg.SP Kill] ∧
    (((BuildMI Opcode.tADDhirr Reg.R2).addReg Reg.R2 false).addReg Reg.SP Kill).killsSP = true ∧
    emitThumbRegPlusImmediate Reg.R1 Reg.SP (-4) = Except.ok
      [(BuildMI Opcode.tMOVr Reg.R1).addReg Reg.SP Kill,
       ((BuildMI Opcode.tSUBi8 Reg.R1).addReg Reg.R1 false).addImm 4] ∧
    ((BuildMI Opcode.tMOVr Reg.R1).addReg Reg.SP Kill).killsSP = true ∧
    emitThumbRegPlusImmediate Reg.R0 Reg.SP 2000 = Except.ok
      [(BuildMI Opcode.tLDRcp Reg.R0).addConstantPoolIndex 2000,
       ((BuildMI Opcode.tADDhirr Reg.R0).addReg Reg.R0 false).addReg Reg.SP Kill] ∧
    (∀ (DestReg BaseReg : Reg) (n : Int) (L : List MachineInstr),
      DestReg = Reg.SP ∨ BaseReg ≠ Reg.SP →
      emitThumbRegPlusImmediate DestReg BaseReg n = Except.ok L →
      ∀ MI ∈ L, MI.killsSP = false) ∧
    (∀ (DestReg BaseReg : Reg) (n : Int) (CanChangeCC : Bool) (L : List MachineInstr),
      DestReg = Reg.SP ∨ BaseReg ≠ Reg.SP →
      emitThumbRegPlusImmInReg DestReg BaseReg n CanChangeCC = Except.ok L →
      ∀ MI ∈ L, MI.killsSP = false) :=
  ⟨by rfl, by rfl, by rfl, by rfl, by rfl,
    fun DestReg BaseReg n L hDB h => emitThumbRegPlusImmediate_killsSP DestReg BaseReg n hDB L h,
    fun DestReg BaseReg n cc L hDB h =>
      emitThumbRegPlusImmInReg_killsSP DestReg BaseReg n cc hDB L h⟩

/-! ## Folding of a far offset into the instruction -/

theorem and_not_124 (x : Nat) (hx : x < 4294967296) (h4 : x % 4 = 0) :
    x &&& not32 ((1 <<< 5 - 1) * 4) = x - x % 128 := by
  have hm : not32 ((1 <<< 5 - 1) * 4) = 2 ^ 32 - (2 ^ 2 * (2 ^ 5 - 1) + 1) := by decide
  have hr : x - x % 128 = 2 ^ 7 * (x / 128) := by omega
  have hx4 : x = 2 ^ 2 * (x / 4) := by omega
  apply Nat.eq_of_testBit_eq
  intro i
  rw [Nat.testBit_and, hm, Nat.testBit_two_pow_sub_succ (by norm_num), hr,
    Nat.testBit_mul_pow_two, Nat.testBit_mul_pow_two, Nat.testBit_two_pow_sub_one]
  have hdiv : x / 128 = x >>> 7 := by rw [Nat.shiftRight_eq_div_pow]
  rw [hdiv, Nat.testBit_shiftRight]
  by_cases h2 : i < 2
  · have hlow : x.testBit i = false := by
      rw [hx4, Nat.testBit_mul_pow_two]
      simp [h2]
    have h7 : ¬ i ≥ 7 := by omega
    simp [hlow, h7]
  · by_cases h7 : i < 7
    · have h1 : i ≥ 2 := by omega
      have h5 : i - 2 < 5 := by omega
      have h7' : ¬ i ≥ 7 := by omega
      simp [h1, h5, h7']
    · have hge : i ≥ 7 := by omega
      have hi : 7 + (i - 7) = i := by omega
      rw [hi]
      by_cases h32 : i < 32
      · have h5 : ¬ i - 2 < 5 := by omega
        simp [hge, h32, h5]
      · have hlt : x < 2 ^ i := by
          calc x < 2 ^ 32 := by norm_num; exact hx
            _ ≤ 2 ^ i := Nat.pow_le_pow_right (by norm_num) (by omega)
        simp [Nat.testBit_lt_two_pow hlt]

theorem not_124_and_124 (x : Nat) : (x &&& not32 ((1 <<< 5 - 1) * 4)) &&& 124 = 0 := by
  have h0 : not32 ((1 <<< 5 - 1) * 4) &&& 124 = 0 := by decide
  rw [Nat.and_assoc, h0, Nat.and_zero]

/-- The split of a far offset `Off` (a multiple of 4) into the immediate kept in
the instruction and the residual offset materialised in a register. -/
theorem folded_offset (Off : Int) (hlo : -2147483648 ≤ Off) (hhi : Off ≤ 2147483647)
    (h4 : toU32 Off % 4 = 0) :
    0 ≤ toI32 (toU32 (toI32 (toU32 Off / 4)) &&& (1 <<< 5 - 1)) ∧
    toI32 (toU32 (toI32 (toU32 Off / 4)) &&& (1 <<< 5 - 1)) ≤ 31 ∧
    toU32 (toI32 (toU32 Off &&& not32 ((1 <<< 5 - 1) * 4))) &&& 124 = 0 ∧
    4 * toI32 (toU32 (toI32 (toU32 Off / 4)) &&& (1 <<< 5 - 1)) +
      toI32 (toU32 Off &&& not32 ((1 <<< 5 - 1) * 4)) = Off ∧
    (124 < toU32 Off → toI32 (toU32 Off &&& not32 ((1 <<< 5 - 1) * 4)) ≠ 0) := by
  have hU : toU32 Off < 4294967296 := toU32_lt Off
  have hOff : Off = toI32 (toU32 Off) := by unfold toI32 toU32; split <;> omega
  have hq : toU32 (toI32 (toU32 Off / 4)) = toU32 Off / 4 := by
    unfold toI32
    rw [if_pos (by omega)]
    unfold toU32
    omega
  have h31 : (1 <<< 5 - 1 : Nat) = 2 ^ 5 - 1 := by decide
  have hand : toU32 Off / 4 &&& (1 <<< 5 - 1) = toU32 Off / 4 % 32 := by
    rw [h31, Nat.and_pow_two_sub_one_eq_mod]
  have hres := and_not_124 (toU32 Off) hU h4
  have hround : toU32 (toI32 (toU32 Off &&& not32 ((1 <<< 5 - 1) * 4))) =
      toU32 Off &&& not32 ((1 <<< 5 - 1) * 4) := by
    rw [hres]
    unfold toI32 toU32
    split <;> omega
  rw [hq, hand, hround, not_124_and_124, hres]
  generalize toU32 Off = U at *
  subst hOff
  unfold toI32
  refine ⟨?_, ?_, rfl, ?_, ?_⟩
  · split <;> omega
  · split <;> omega
  · split_ifs <;> omega
  · intro hbig
    split_ifs <;> omega

theorem far_immediate (MI : MachineInstr) (i : Nat) (v Imm : Int) (X : Opcode) (R R' : Reg)
    (hImm : MI.getImm (i + 1) = Except.ok Imm) :
    ((((MI.ChangeToImmediate (i + 1) v).setDesc X).ChangeToRegister i R false
      true).addOperandCreateReg R').getImm (i + 1) = Except.ok v := by
  have hlen : i + 1 < MI.Operands.length := by
    unfold MachineInstr.getImm at hImm
    cases hO : MI.Operands.get? (i + 1) with
    | none => rw [hO] at hImm; cases hImm
    | some x => exact (List.get?_eq_some.mp hO).1
  simp only [MachineInstr.getImm, MachineInstr.addOperandCreateReg,
    MachineInstr.ChangeToRegister, MachineInstr.setDesc, MachineInstr.ChangeToImmediate]
  rw [List.get?_eq_getElem?, List.getElem?_append_left (by simp; omega),
    List.getElem?_set_ne (by omega), List.getElem?_set_eq_of_lt _ (by omega)]

/-- The path of `eliminateFrameIndexMem` for an offset that does not fit: the
offset is a multiple of 4, the address `FrameReg + residual` is materialised
before the rewritten memory instruction, which keeps the folded immediate. -/
theorem eliminateFrameIndexMem_far (TRI : Thumb2RegisterInfo) (MF : MachineFunction)
    (MI : MachineInstr) (i : Nat) (FrameReg : Reg) (Offset Imm : Int) (L : List MachineInstr)
    (hImm : MI.getImm (i + 1) = Except.ok Imm)
    (hFit : ¬ toU32 (wrapI32 (Offset + wrapI32 Imm * 4)) ≤
      ((1 <<< (if FrameReg = Reg.SP then 8 else 5)) - 1) * 4)
    (h : eliminateFrameIndexMem TRI MF MI i FrameReg Offset = Except.ok L) :
    toU32 (wrapI32 (Offset + wrapI32 Imm * 4)) % 4 = 0 ∧
    ∃ (TmpReg : Reg) (b : Bool) (Before : List MachineInstr) (UseRR : Bool)
      (Mem : MachineInstr) (Pre Post : List MachineInstr),
      (b = true → (MI.Opcode == Opcode.tRestore || MI.Opcode == Opcode.tSpill) = true) ∧
      materializeFrameAddress b TmpReg FrameReg
        (if (MI.Opcode == Opcode.tRestore || MI.Opcode == Opcode.tSpill) = true then
          wrapI32 (Offset + wrapI32 Imm * 4)
         else toI32 (toU32 (wrapI32 (Offset + wrapI32 Imm * 4)) &&&
          not32 ((1 <<< 5 - 1) * 4))) = Except.ok (Before, UseRR) ∧
      Mem.getImm (i + 1) = Except.ok
        (if (MI.Opcode == Opcode.tRestore || MI.Opcode == Opcode.tSpill) = true then 0
         else toI32 (toU32 (toI32 (toU32 (wrapI32 (Offset + wrapI32 Imm * 4)) / 4)) &&&
          (1 <<< 5 - 1))) ∧
      L = Pre ++ Before ++ [Mem] ++ Post := by
  unfold eliminateFrameIndexMem at h
  simp only [] at h
  by_cases hAM : (TRI.Desc MI.Opcode).AddrMode ≠ AddrMode.AddrModeT1_s
  · rw [if_pos hAM] at h; cases h
  · rw [if_neg hAM, hImm] at h
    simp only [] at h
    have hFit' : ¬ toU32 (wrapI32 (Offset + wrapI32 Imm * ((4 : Nat) : Int))) ≤
        ((1 <<< (if FrameReg = Reg.SP then 8 else 5)) - 1) * 4 := by
      simpa using hFit
    have hcast : wrapI32 (Offset + wrapI32 Imm * 4) =
        wrapI32 (Offset + wrapI32 Imm * ((4 : Nat) : Int)) := by simp
    rw [hcast]
    generalize (if FrameReg = Reg.SP then 8 else 5) = NumBits at h hFit'
    generalize wrapI32 (Offset + wrapI32 Imm * ((4 : Nat) : Int)) = Off at h hFit' ⊢
    generalize hSR : (MI.Opcode == Opcode.tRestore || MI.Opcode == Opcode.tSpill) = SR at h ⊢
    by_cases hA : (toU32 Off &&& (4 - 1)) ≠ 0
    · rw [if_pos hA] at h; cases h
    · rw [if_neg hA, if_neg hFit'] at h
      have h4 : toU32 Off % 4 = 0 := by
        have := and_three (toU32 Off)
        simp only [ne_eq, not_not] at hA
        have h3 : (4 - 1 : Nat) = 3 := rfl
        rw [h3] at hA
        omega
      refine ⟨h4, ?_⟩
      have hM1 : (if SR = true then MI.ChangeToImmediate (i + 1) 0
          else MI.ChangeToImmediate (i + 1)
            (toI32 (toU32 (toI32 (toU32 Off / 4)) &&& (1 <<< 5 - 1)))) =
          MI.ChangeToImmediate (i + 1) (if SR = true then 0
            else toI32 (toU32 (toI32 (toU32 Off / 4)) &&& (1 <<< 5 - 1))) := by
        split <;> rfl
      rw [hM1] at h
      generalize (if SR = true then (0 : Int)
        else toI32 (toU32 (toI32 (toU32 Off / 4)) &&& (1 <<< 5 - 1))) = v at h ⊢
      generalize (if SR = true then Off
        else toI32 (toU32 Off &&& not32 ((1 <<< 5 - 1) * 4))) = Off1 at h ⊢
      by_cases hZ : Off1 = 0
      · rw [if_pos hZ] at h; cases h
      · rw [if_neg hZ] at h
        cases hReg : (MI.ChangeToImmediate (i + 1) v).getReg 0 with
        | error e =>
          rw [hReg] at h
          simp only [] at h
          split_ifs at h
        | ok Rg =>
          rw [hReg] at h
          simp only [] at h
          by_cases hLd : (TRI.Desc MI.Opcode).mayLoad = true
          · rw [if_pos hLd] at h
            cases hB : materializeFrameAddress (MI.Opcode == Opcode.tRestore) Rg FrameReg
                Off1 with
            | error e => rw [hB] at h; cases h
            | ok p =>
              obtain ⟨Before, UseRR⟩ := p
              rw [hB] at h
              simp only [] at h
              have hL := (Except.ok.inj h).symm
              refine ⟨Rg, MI.Opcode == Opcode.tRestore, Before, UseRR,
                (((MI.ChangeToImmediate (i + 1) v).setDesc Opcode.tLDR).ChangeToRegister i
                  Rg false true).addOperandCreateReg
                    (if UseRR = true then FrameReg else Reg.NoReg),
                [], [], ?_, hB, far_immediate MI i v Imm _ _ _ hImm, ?_⟩
              · intro hb
                rw [← hSR, hb]
                rfl
              · rw [hL]
                cases UseRR <;> simp
          · rw [if_neg hLd] at h
            by_cases hSt : (TRI.Desc MI.Opcode).mayStore = true
            · rw [if_pos hSt] at h
              cases hB : materializeFrameAddress (MI.Opcode == Opcode.tSpill)
                  (if Rg = Reg.R3 then Reg.R2 else Reg.R3) FrameReg Off1 with
              | error e => rw [hB] at h; cases h
              | ok p =>
                obtain ⟨Before, UseRR⟩ := p
                rw [hB] at h
                simp only [] at h
                have hL := (Except.ok.inj h).symm
                refine ⟨_, MI.Opcode == Opcode.tSpill, Before, UseRR,
                  (((MI.ChangeToImmediate (i + 1) v).setDesc Opcode.tSTR).ChangeToRegister i
                    (if Rg = Reg.R3 then Reg.R2 else Reg.R3) false true).addOperandCreateReg
                      (if UseRR = true then FrameReg else Reg.NoReg),
                  (if Rg = Reg.R3 then
                      [(BuildMI Opcode.tMOVlor2hir Reg.R12).addReg Reg.R2 Kill] else []) ++
                    (if (if Rg = Reg.R3 then Reg.R2 else Reg.R3) = Reg.R3 ∧
                        MF.Info.R3IsLiveIn = true then
                      [(BuildMI Opcode.tMOVlor2hir Reg.R12).addReg Reg.R3 Kill] else []),
                  (if Rg = Reg.R3 then
                      [(BuildMI Opcode.tMOVhir2lor Reg.R2).addReg Reg.R12 Kill] else []) ++
                    (if (if Rg = Reg.R3 then Reg.R2 else Reg.R3) = Reg.R3 ∧
                        MF.Info.R3IsLiveIn = true then
                      [(BuildMI Opcode.tMOVhir2lor Reg.R3).addReg Reg.R12 Kill] else []),
                  ?_, hB, far_immediate MI i v Imm _ _ _ hImm, ?_⟩
                · intro hb
                  rw [← hSR, hb]
                  simp
                · rw [hL]
                  cases UseRR <;> simp only [List.append_assoc] <;> rfl
            · rw [if_neg hSt] at h; cases h

/-- Claim C23: in `eliminateFrameIndex`, for every `AddrModeT1_s` load or store
that is not a `tSpill`/`tRestore` and whose resolved offset does not fit the
instruction, whenever the call returns: the offset is a multiple of 4, the
immediate left in the instruction is in `0..31`, the residual offset handed to
`emitThumbRegPlusImmediate` has bits 2..6 clear, and 4 times the immediate
plus the residual offset equals the resolved offset as a signed 32-bit value
(also for negative offsets). -/
theorem eliminateFrameIndex_folded_immediate (TRI : Thumb2RegisterInfo)
    (MF : MachineFunction) (MI : MachineInstr) (SPAdj : Int) (i : Nat) (FrameReg : Reg)
    (Offset Imm : Int) (L : List MachineInstr)
    (hRes : resolveFrameIndex MF MI SPAdj = Except.ok (i, FrameReg, Offset))
    (hOpc : MI.Opcode ≠ Opcode.tADDrSPi)
    (hNS : MI.Opcode ≠ Opcode.tSpill) (hNR : MI.Opcode ≠ Opcode.tRestore)
    (hImm : MI.getImm (i + 1) = Except.ok Imm)
    (hFit : ¬ toU32 (wrapI32 (Offset + wrapI32 Imm * 4)) ≤
      ((1 <<< (if FrameReg = Reg.SP then 8 else 5)) - 1) * 4)
    (h : eliminateFrameIndex TRI MF MI SPAdj = Except.ok L) :
    toU32 (wrapI32 (Offset + wrapI32 Imm * 4)) % 4 = 0 ∧
    ∃ (v Residual : Int) (TmpReg : Reg) (Before : List MachineInstr) (Mem : MachineInstr)
      (Pre Post : List MachineInstr),
      0 ≤ v ∧ v ≤ 31 ∧ toU32 Residual &&& 124 = 0 ∧
      4 * v + Residual = wrapI32 (Offset + wrapI32 Imm * 4) ∧
      emitThumbRegPlusImmediate TmpReg FrameReg Residual = Except.ok Before ∧
      Mem.getImm (i + 1) = Except.ok v ∧
      L = Pre ++ Before ++ [Mem] ++ Post := by
  unfold eliminateFrameIndex at h
  rw [hRes] at h
  simp only [] at h
  rw [if_neg hOpc] at h
  obtain ⟨h4, TmpReg, b, Before, UseRR, Mem, Pre, Post, hb, hMat, hMem, hL⟩ :=
    eliminateFrameIndexMem_far TRI MF MI i FrameReg Offset Imm L hImm hFit h
  have hSR : (MI.Opcode == Opcode.tRestore || MI.Opcode == Opcode.tSpill) = false := by
    simp [hNS, hNR]
  rw [hSR] at hb hMat hMem
  simp only [Bool.false_eq_true, if_false] at hMat hMem
  have hbf : b = false := by
    cases b
    · rfl
    · exact absurd (hb rfl) (by decide)
  subst hbf
  have hEmit : emitThumbRegPlusImmediate TmpReg FrameReg
      (toI32 (toU32 (wrapI32 (Offset + wrapI32 Imm * 4)) &&& not32 ((1 <<< 5 - 1) * 4))) =
      Except.ok Before := by
    unfold materializeFrameAddress at hMat
    simp only [Bool.false_eq_true, if_false] at hMat
    cases hE : emitThumbRegPlusImmediate TmpReg FrameReg
        (toI32 (toU32 (wrapI32 (Offset + wrapI32 Imm * 4)) &&&
          not32 ((1 <<< 5 - 1) * 4))) with
    | error e => rw [hE] at hMat; cases hMat
    | ok L' =>
      rw [hE] at hMat
      simp only [Except.ok.injEq, Prod.mk.injEq] at hMat
      rw [hMat.1]
  obtain ⟨hv0, hv31, hbits, hsum, _⟩ :=
    folded_offset (wrapI32 (Offset + wrapI32 Imm * 4)) (wrapI32_range _).1 (wrapI32_range _).2 h4
  exact ⟨h4, _, _, TmpReg, Before, Mem, Pre, Post, hv0, hv31, hbits, hsum, hEmit, hMem, hL⟩

theorem eliminateFrameIndex_folded_immediate_witness :
    ∃ L, eliminateFrameIndex exampleSpRelTRI (exampleMF 2048 (-2056))
        ⟨Opcode.Other 1, [MachineOperand.Register Reg.R1 false false,
          MachineOperand.FrameIndex 2, MachineOperand.Immediate 0]⟩ 0 = Except.ok L ∧
      resolveFrameIndex (exampleMF 2048 (-2056))
        ⟨Opcode.Other 1, [MachineOperand.Register Reg.R1 false false,
          MachineOperand.FrameIndex 2, MachineOperand.Immediate 0]⟩ 0 =
        Except.ok (1, Reg.SP, -8) ∧
      L = [(BuildMI Opcode.tMOVr Reg.R3).addReg Reg.SP Kill,
           ((BuildMI Opcode.tSUBi8 Reg.R3).addReg Reg.R3 false).addImm 128,
           ⟨Opcode.tSTR, [MachineOperand.Register Reg.R1 false false,
             MachineOperand.Register Reg.R3 false true, MachineOperand.Immediate 30,
             MachineOperand.Register Reg.NoReg false false]⟩] ∧
      (toU32 (wrapI32 (-8 + wrapI32 0 * 4)) % 4 = 0 ∧
      ∃ (v Residual : Int) (TmpReg : Reg) (Before : List MachineInstr) (Mem : MachineInstr)
        (Pre Post : List MachineInstr),
        0 ≤ v ∧ v ≤ 31 ∧ toU32 Residual &&& 124 = 0 ∧
        4 * v + Residual = wrapI32 (-8 + wrapI32 0 * 4) ∧
        emitThumbRegPlusImmediate TmpReg Reg.SP Residual = Except.ok Before ∧
        Mem.getImm (1 + 1) = Except.ok v ∧
        L = Pre ++ Before ++ [Mem] ++ Post) :=
  ⟨_, by rfl, by rfl, by rfl,
    eliminateFrameIndex_folded_immediate exampleSpRelTRI (exampleMF 2048 (-2056))
      ⟨Opcode.Other 1, [MachineOperand.Register Reg.R1 false false,
        MachineOperand.FrameIndex 2, MachineOperand.Immediate 0]⟩ 0 1 Reg.SP (-8) 0 _
      (by rfl) (by decide) (by decide) (by decide) (by rfl) (by decide) (by rfl)⟩

/-! ## The residual offset of a far access is never zero -/

theorem getImm_not_handled (MI : MachineInstr) (i : Nat) :
    MI.getImm i ≠ Except.error Abort.OffsetAlreadyHandled := by
  unfold MachineInstr.getImm
  split <;> simp

theorem getReg_not_handled (MI : MachineInstr) (i : Nat) :
    MI.getReg i ≠ Except.error Abort.OffsetAlreadyHandled := by
  unfold MachineInstr.getReg
  split <;> simp

theorem getIndex_not_handled (MI : MachineInstr) (i : Nat) :
    MI.getIndex i ≠ Except.error Abort.OffsetAlreadyHandled := by
  unfold MachineInstr.getIndex
  split <;> simp

theorem emitThumbRegPlusImmInReg_not_handled (DestReg BaseReg : Reg) (n : Int)
    (CanChangeCC : Bool) :
    emitThumbRegPlusImmInReg DestReg BaseReg n CanChangeCC ≠
      Except.error Abort.OffsetAlreadyHandled := by
  unfold emitThumbRegPlusImmInReg
  simp only []
  by_cases hE : DestReg = Reg.SP ∧ BaseReg ≠ Reg.SP
  · rw [if_pos hE]; simp
  · rw [if_neg hE]; simp

theorem emitThumbRegPlusImmediate_not_handled (DestReg BaseReg : Reg) (n : Int) :
    emitThumbRegPlusImmediate DestReg BaseReg n ≠ Except.error Abort.OffsetAlreadyHandled := by
  unfold emitThumbRegPlusImmediate
  cases hcl : classifyRegPlusImm DestReg BaseReg n with
  | error e =>
    simp only []
    intro h
    have he : e = Abort.OffsetAlreadyHandled := Except.error.inj h
    subst he
    unfold classifyRegPlusImm at hcl
    simp only [] at hcl
    split_ifs at hcl <;> cases hcl
  | ok c =>
    simp only []
    by_cases hgt : calcNumMI c.Opc c.ExtraOpc c.Bytes c.NumBits c.Scale >
        (if DestReg = Reg.SP then 3 else 2)
    · rw [if_pos hgt]
      exact emitThumbRegPlusImmInReg_not_handled _ _ _ _
    · rw [if_neg hgt]; simp

theorem emitThumbConstant_not_handled (DestReg : Reg) (Imm : Int) :
    emitThumbConstant DestReg Imm ≠ Except.error Abort.OffsetAlreadyHandled := by
  unfold emitThumbConstant
  simp only []
  generalize wrapI32 ((if decide (Imm < 0) = true then wrapI32 (-Imm) else Imm) -
      (if (if decide (Imm < 0) = true then wrapI32 (-Imm) else Imm) > ((1 <<< 8 : Nat) : Int) - 1
        then ((1 <<< 8 : Nat) : Int) - 1
        else (if decide (Imm < 0) = true then wrapI32 (-Imm) else Imm))) = I
  by_cases hpos : I > 0
  · rw [if_pos hpos]
    cases hR : emitThumbRegPlusImmediate DestReg DestReg I with
    | error e =>
      simp only []
      intro h
      have h' : e = Abort.OffsetAlreadyHandled := Except.error.inj h
      subst h'
      exact emitThumbRegPlusImmediate_not_handled _ _ _ hR
    | ok Rest => simp
  · rw [if_neg hpos]; simp

theorem materializeFrameAddress_not_handled (b : Bool) (TmpReg FrameReg : Reg) (Offset : Int) :
    materializeFrameAddress b TmpReg FrameReg Offset ≠
      Except.error Abort.OffsetAlreadyHandled := by
  unfold materializeFrameAddress
  split
  · split
    · split
      · rename_i e he
        intro h
        have h' : e = Abort.OffsetAlreadyHandled := Except.error.inj h
        subst h'
        exact emitThumbRegPlusImmInReg_not_handled _ _ _ _ he
      · simp
    · simp
  · split
    · rename_i e he
      intro h
      have h' : e = Abort.OffsetAlreadyHandled := Except.error.inj h
      subst h'
      exact emitThumbRegPlusImmediate_not_handled _ _ _ he
    · simp

theorem resolveFrameIndex_not_handled (MF : MachineFunction) (MI : MachineInstr) (SPAdj : Int) :
    resolveFrameIndex MF MI SPAdj ≠ Except.error Abort.OffsetAlreadyHandled := by
  unfold resolveFrameIndex
  cases findFrameIndexOperand MI.Operands with
  | none => simp
  | some i =>
    simp only []
    cases hI : MI.getIndex i with
    | error e =>
      simp only []
      intro h
      have h' : e = Abort.OffsetAlreadyHandled := Except.error.inj h
      subst h'
      exact getIndex_not_handled _ _ hI
    | ok FI =>
      simp only []
      split_ifs <;> simp

theorem eliminateFrameIndexADDrSPi_not_handled (MI : MachineInstr) (i : Nat) (FrameReg : Reg)
    (Offset : Int) :
    eliminateFrameIndexADDrSPi MI i FrameReg Offset ≠
      Except.error Abort.OffsetAlreadyHandled := by
  unfold eliminateFrameIndexADDrSPi
  cases hImm : MI.getImm (i + 1) with
  | error e =>
    simp only []
    intro h
    have h' : e = Abort.OffsetAlreadyHandled := Except.error.inj h
    subst h'
    exact getImm_not_handled _ _ hImm
  | ok Imm =>
    simp only []
    generalize wrapI32 (Offset + Imm) = Off
    generalize (if FrameReg ≠ Reg.SP then MI.setDesc Opcode.tADDi3 else MI) = M1
    generalize (if FrameReg ≠ Reg.SP then 3 else 8) = NumBits
    generalize (if FrameReg ≠ Reg.SP then 1 else 4) = Scale
    generalize (if FrameReg ≠ Reg.SP then Opcode.tADDi3 else Opcode.tADDrSPi) = Opc
    generalize (if Off > 0 then toU32 Off else toU32 (-Off)) = Bytes
    by_cases h1 : FrameReg = Reg.SP ∧ (toU32 Off &&& 3) ≠ 0
    · rw [if_pos h1]; simp
    · rw [if_neg h1]
      by_cases h2 : Off = 0
      · rw [if_pos h2]; simp
      · rw [if_neg h2]
        split
        · simp
        · cases hReg : M1.getReg 0 with
          | error e =>
            simp only []
            intro h
            have h' : e = Abort.OffsetAlreadyHandled := Except.error.inj h
            subst h'
            exact getReg_not_handled _ _ hReg
          | ok DestReg =>
            simp only []
            split
            · exact emitThumbRegPlusImmediate_not_handled _ _ _
            · split
              · split
                · rename_i e he
                  intro h
                  have h' : e = Abort.OffsetAlreadyHandled := Except.error.inj h
                  subst h'
                  exact emitThumbRegPlusImmediate_not_handled _ _ _ he
                · simp
              · split
                · rename_i e he
                  intro h
                  have h' : e = Abort.OffsetAlreadyHandled := Except.error.inj h
                  subst h'
                  exact emitThumbConstant_not_handled _ _ he
                · simp

/-- The residual offset on both paths of a far access: the offset itself for a
`tSpill`/`tRestore`, the offset with bits 2..6 cleared otherwise. -/
theorem residual_ne_zero (FrameReg : Reg) (Off : Int) (hlo : -2147483648 ≤ Off)
    (hhi : Off ≤ 2147483647) (h4 : toU32 Off % 4 = 0)
    (hFit : ¬ toU32 Off ≤ ((1 <<< (if FrameReg = Reg.SP then 8 else 5)) - 1) * 4) :
    Off ≠ 0 ∧ toI32 (toU32 Off &&& not32 ((1 <<< 5 - 1) * 4)) ≠ 0 ∧
    (FrameReg = Reg.SP → 1020 < toU32 Off) ∧ (FrameReg ≠ Reg.SP → 124 < toU32 Off) := by
  have hbig : 124 < toU32 Off ∧ (FrameReg = Reg.SP → 1020 < toU32 Off) := by
    by_cases hF : FrameReg = Reg.SP
    · rw [if_pos hF] at hFit
      have h8 : ((1 <<< 8) - 1) * 4 = 1020 := by decide
      rw [h8] at hFit
      exact ⟨by omega, fun _ => by omega⟩
    · rw [if_neg hF] at hFit
      have h5 : ((1 <<< 5) - 1) * 4 = 124 := by decide
      rw [h5] at hFit
      exact ⟨by omega, fun h => absurd h hF⟩
  refine ⟨?_, (folded_offset Off hlo hhi h4).2.2.2.2 hbig.1, hbig.2, fun _ => hbig.1⟩
  intro h0
  subst h0
  have : toU32 0 = 0 := by decide
  omega

theorem eliminateFrameIndexMem_not_handled (TRI : Thumb2RegisterInfo) (MF : MachineFunction)
    (MI : MachineInstr) (i : Nat) (FrameReg : Reg) (Offset : Int) :
    eliminateFrameIndexMem TRI MF MI i FrameReg Offset ≠
      Except.error Abort.OffsetAlreadyHandled := by
  unfold eliminateFrameIndexMem
  simp only []
  by_cases hAM : (TRI.Desc MI.Opcode).AddrMode ≠ AddrMode.AddrModeT1_s
  · rw [if_pos hAM]; simp
  · rw [if_neg hAM]
    cases hImm : MI.getImm (i + 1) with
    | error e =>
      simp only []
      intro h
      have h' : e = Abort.OffsetAlreadyHandled := Except.error.inj h
      subst h'
      exact getImm_not_handled _ _ hImm
    | ok Imm =>
      simp only []
      have hr := wrapI32_range (Offset + wrapI32 Imm * ((4 : Nat) : Int))
      generalize wrapI32 (Offset + wrapI32 Imm * ((4 : Nat) : Int)) = Off at hr ⊢
      by_cases hA : (toU32 Off &&& (4 - 1)) ≠ 0
      · rw [if_pos hA]; simp
      · rw [if_neg hA]
        have h4 : toU32 Off % 4 = 0 := by
          have := and_three (toU32 Off)
          simp only [ne_eq, not_not] at hA
          have h3 : (4 - 1 : Nat) = 3 := rfl
          rw [h3] at hA
          omega
        by_cases hFit : toU32 Off ≤ ((1 <<< (if FrameReg = Reg.SP then 8 else 5)) - 1) * 4
        · rw [if_pos hFit]; simp
        · rw [if_neg hFit]
          obtain ⟨hne, hres, _, _⟩ := residual_ne_zero FrameReg Off hr.1 hr.2 h4 hFit
          generalize (MI.Opcode == Opcode.tRestore || MI.Opcode == Opcode.tSpill) = SR
          have hZ : ¬ (if SR = true then Off
              else toI32 (toU32 Off &&& not32 ((1 <<< 5 - 1) * 4))) = 0 := by
            cases SR
            · simpa using hres
            · simpa using hne
          rw [if_neg hZ]
          generalize (if SR = true then Off
            else toI32 (toU32 Off &&& not32 ((1 <<< 5 - 1) * 4))) = Off1
          generalize (if SR = true then MI.ChangeToImmediate (i + 1) 0
            else MI.ChangeToImmediate (i + 1)
              (toI32 (toU32 (toI32 (toU32 Off / 4)) &&& (1 <<< 5 - 1)))) = M1
          by_cases hLd : (TRI.Desc MI.Opcode).mayLoad = true
          · rw [if_pos hLd]
            cases hReg : M1.getReg 0 with
            | error e =>
              simp only []
              intro h
              have h' : e = Abort.OffsetAlreadyHandled := Except.error.inj h
              subst h'
              exact getReg_not_handled _ _ hReg
            | ok Rg =>
              simp only []
              cases hB : materializeFrameAddress (MI.Opcode == Opcode.tRestore) Rg FrameReg
                  Off1 with
              | error e =>
                simp only []
                intro h
                have h' : e = Abort.OffsetAlreadyHandled := Except.error.inj h
                subst h'
                exact materializeFrameAddress_not_handled _ _ _ _ hB
              | ok p => simp
          · rw [if_neg hLd]
            by_cases hSt : (TRI.Desc MI.Opcode).mayStore = true
            · rw [if_pos hSt]
              cases hReg : M1.getReg 0 with
              | error e =>
                simp only []
                intro h
                have h' : e = Abort.OffsetAlreadyHandled := Except.error.inj h
                subst h'
                exact getReg_not_handled _ _ hReg
              | ok Rg =>
                simp only []
                cases hB : materializeFrameAddress (MI.Opcode == Opcode.tSpill)
                    (if Rg = Reg.R3 then Reg.R2 else Reg.R3) FrameReg Off1 with
                | error e =>
                  simp only []
                  intro h
                  have h' : e = Abort.OffsetAlreadyHandled := Except.error.inj h
                  subst h'
                  exact materializeFrameAddress_not_handled _ _ _ _ hB
                | ok p => simp
            · rw [if_neg hSt]; simp

/-- Claim C25: in `eliminateFrameIndex`, for every `AddrModeT1_s` load or store
whose resolved offset (a multiple of 4) does not fit the instruction's
immediate field (unsigned offset above 1020 with base SP, above 124 with
another base), the residual offset is not zero on both paths: the offset
itself for a `tSpill`/`tRestore`, the offset with the folded bits cleared
otherwise; and on no input at all does `eliminateFrameIndex` fail the
assertion 'This code isn't needed if offset already handled!'. -/
theorem eliminateFrameIndex_residual_offset_nonzero :
    (∀ (FrameReg : Reg) (Off : Int), -2147483648 ≤ Off → Off ≤ 2147483647 →
      toU32 Off % 4 = 0 →
      ¬ toU32 Off ≤ ((1 <<< (if FrameReg = Reg.SP then 8 else 5)) - 1) * 4 →
      Off ≠ 0 ∧ toI32 (toU32 Off &&& not32 ((1 <<< 5 - 1) * 4)) ≠ 0 ∧
      (FrameReg = Reg.SP → 1020 < toU32 Off) ∧ (FrameReg ≠ Reg.SP → 124 < toU32 Off)) ∧
    (∀ (TRI : Thumb2RegisterInfo) (MF : MachineFunction) (MI : MachineInstr) (i : Nat)
      (FrameReg : Reg) (Offset : Int),
      eliminateFrameIndexMem TRI MF MI i FrameReg Offset ≠
        Except.error Abort.OffsetAlreadyHandled) ∧
    (∀ (TRI : Thumb2RegisterInfo) (MF : MachineFunction) (MI : MachineInstr) (SPAdj : Int),
      eliminateFrameIndex TRI MF MI SPAdj ≠ Except.error Abort.OffsetAlreadyHandled) := by
  refine ⟨fun FrameReg Off hlo hhi h4 hFit => residual_ne_zero FrameReg Off hlo hhi h4 hFit,
    fun TRI MF MI i FrameReg Offset =>
      eliminateFrameIndexMem_not_handled TRI MF MI i FrameReg Offset, ?_⟩
  intro TRI MF MI SPAdj
  unfold eliminateFrameIndex
  cases hRes : resolveFrameIndex MF MI SPAdj with
  | error e =>
    simp only []
    intro h
    have h' : e = Abort.OffsetAlreadyHandled := Except.error.inj h
    subst h'
    exact resolveFrameIndex_not_handled _ _ _ hRes
  | ok p =>
    obtain ⟨i, FrameReg, Offset⟩ := p
    simp only []
    split
    · exact eliminateFrameIndexADDrSPi_not_handled _ _ _ _
    · exact eliminateFrameIndexMem_not_handled _ _ _ _ _ _

end Thumb2
